import Mathlib

/-! Verification of ize: dependency-ordered bring-up / tear-down of application services.

A shallow embedding of the Go sources of `ize` (commands `up apps`, `deploy`, `down`
and `exec`, the session bridge `pkg/ssmsession`, the container manager
`internal/manager/ecs` and the function manager `internal/manager/serverless`),
followed by theorems about them.

Conventions of the embedding

* A Go `error` is a `GoError`; a function of result type `error` returns a `Ret`,
  which is `nil`, a non-nil error, or a run-time panic (nil dereference, index out of
  range), since several claims turn on whether the code panics.
* Pointer receivers are passed and returned by value: a method
  `func (e *Manager) M(...) error` becomes `M : Manager → ... → Ret × Manager × ...`.
* Calls to collaborators outside the repository's own logic (AWS SDK, docker, the
  terminal prompt, the deployment drivers) are recorded, in order, in a `List Call`;
  what a collaborator answers is given by a `Backend`, each answer a function of the
  calls made so far, so that any deterministic stateful environment is covered.
* Progress output of the terminal step group (`sg.Add`, `s.Update`, `s.Done`) and
  logrus logging are not recorded.
-/

namespace Ize

/-! ## Go values -/

/-- Go error values. `wrap p e` is `fmt.Errorf(p + ": %w", e)`; `aws` is an
`awserr.Error` with its `Code()`; `plain` is `errors.New` or a `fmt.Errorf`
without `%w`; `wrapf p e s` is a `fmt.Errorf` whose format has the text `p`, then `%w`,
then further text that renders as `s`. -/
inductive GoError where
  | plain (msg : String)
  | aws (code : String) (msg : String)
  | wrap (pfx : String) (inner : GoError)
  | wrapf (pfx : String) (inner : GoError) (sfx : String)
  deriving DecidableEq, Repr

namespace GoError

/-- The `Error()` text of an error value. -/
def Error : GoError → String
  | plain msg => msg
  | aws code msg => code ++ ": " ++ msg
  | wrap pfx inner => pfx ++ ": " ++ inner.Error
  | wrapf pfx inner sfx => pfx ++ inner.Error ++ sfx

/-- Outcome of `errors.As(err, &aerr)` with `aerr` of type `awserr.Error`: the code of
the first AWS error in the wrap chain. -/
def asAws : GoError → Option String
  | plain _ => none
  | aws code _ => some code
  | wrap _ inner => inner.asAws
  | wrapf _ inner _ => inner.asAws

end GoError

/-- What a call of a Go function with result type `error` ends in. -/
inductive Ret where
  | nil
  | err (e : GoError)
  | panic (msg : String)
  deriving DecidableEq, Repr

/-- The text of the Go run-time panic for a method call on a nil interface or a field
access through a nil pointer. -/
def nilDereference : String :=
  "runtime error: invalid memory address or nil pointer dereference"

/-- The lifecycle stages of the `manager.Manager` interface. -/
inductive Stage where
  | Build
  | Push
  | Deploy
  | Destroy
  | Explain
  deriving DecidableEq, Repr

/-! ## Configuration (`internal/config`) -/

namespace config

/-- Fields of `config.Ecs` that the sources read or write. -/
structure Ecs where
  Name : String := ""
  Path : String := ""
  Image : String := ""
  Cluster : String := ""
  DockerRegistry : String := ""
  Timeout : Nat := 0
  ServiceName : String := ""
  TaskDefinitionArn : String := ""
  AwsRegion : String := ""
  AwsProfile : String := ""
  SkipDeploy : Bool := false
  Unsafe : Bool := false
  DependsOn : List String := []
  deriving DecidableEq, Repr

/-- Fields of `config.Serverless` that the sources read or write. -/
structure Serverless where
  Name : String := ""
  Path : String := ""
  File : String := ""
  NodeVersion : String := ""
  ServerlessVersion : String := ""
  UseYarn : Bool := false
  Force : Bool := false
  AwsRegion : String := ""
  AwsProfile : String := ""
  DependsOn : List String := []
  deriving DecidableEq, Repr

/-- Fields of `config.Alias` that the sources read or write. -/
structure Alias where
  Name : String := ""
  DependsOn : List String := []
  deriving DecidableEq, Repr

/-- Fields of `config.Terraform` that the sources read or write. -/
structure Terraform where
  AwsProfile : String := ""
  AwsRegion : String := ""
  Version : String := ""
  deriving DecidableEq, Repr

/-- Fields of `config.Project` that the sources read or write. A Go
`map[string]*T` is a partial function on names. -/
structure Project where
  Env : String := ""
  Namespace : String := ""
  AwsProfile : String := ""
  AwsRegion : String := ""
  Tag : String := ""
  DockerRegistry : String := ""
  PreferRuntime : String := ""
  EndpointUrl : String := ""
  AppsPath : String := ""
  RootDir : String := ""
  TerraformVersion : String := ""
  NvmVersion : String := ""
  LogLevel : String := ""
  /-- Whether the `Terraform` map is the nil map (no `terraform` section was loaded); a
  nil map has no entry. -/
  TerraformNil : Bool := false
  Terraform : String → Option Terraform := fun _ => none
  Serverless : String → Option Serverless := fun _ => none
  Alias : String → Option Alias := fun _ => none
  Ecs : String → Option Ecs := fun _ => none

/-- Fields of `config.Config`, the configuration of the `exec` command, that the
sources read. -/
structure Config where
  Env : String := ""
  Namespace : String := ""
  AwsProfile : String := ""
  AwsRegion : String := ""
  deriving DecidableEq, Repr

end config

/-! ## Managers and the pipeline driver (`internal/commands/up_apps.go`) -/

namespace ecs

/-- The receiver of the container manager, `ecs.Manager` in `internal/manager/ecs`. -/
structure Manager where
  Project : config.Project
  App : config.Ecs

end ecs

namespace serverless

/-- The receiver of the function manager, `serverless.Manager`. -/
structure Manager where
  Project : config.Project
  App : config.Serverless

end serverless

namespace aliaspkg

/-- The receiver of the alias manager, `alias.Manager` (`alias` is reserved in Lean). -/
structure Manager where
  Project : config.Project
  App : config.Alias

end aliaspkg

/-- A value of interface type `manager.Manager`: one of the three manager types that
`deployApp` constructs. -/
inductive Pipeline where
  | ecs (m : ecs.Manager)
  | serverless (m : serverless.Manager)
  | aliasM (m : aliaspkg.Manager)

/-- The three variants of a service pipeline. -/
inductive Kind where
  | Container
  | Function
  | Alias
  deriving DecidableEq, Repr

/-- The variant a pipeline value belongs to (its dynamic type). -/
def Pipeline.kind : Pipeline → Kind
  | .ecs _ => .Container
  | .serverless _ => .Function
  | .aliasM _ => .Alias

/-- The method set of `manager.Manager` for a receiver type `M`, acting on an outside
world `W`. -/
structure Methods (M W : Type) where
  Build : M → W → Ret × M × W
  Push : M → W → Ret × M × W
  Deploy : M → W → Ret × M × W
  Explain : M → W → Ret × M × W

/-- The method sets of the three manager types. `deployApp` is written against the
interface, so it is embedded over arbitrary implementations. -/
structure Impl (W : Type) where
  ecs : Methods ecs.Manager W
  serverless : Methods serverless.Manager W
  aliasM : Methods aliaspkg.Manager W

/-- Dynamic dispatch of one lifecycle method on an interface value. -/
def Pipeline.call {W : Type} (I : Impl W)
    (sel : {M : Type} → Methods M W → M → W → Ret × M × W) :
    Pipeline → W → Ret × Pipeline × W
  | .ecs m, w => let r := sel I.ecs m w; (r.1, .ecs r.2.1, r.2.2)
  | .serverless m, w => let r := sel I.serverless m w; (r.1, .serverless r.2.1, r.2.2)
  | .aliasM m, w => let r := sel I.aliasM m w; (r.1, .aliasM r.2.1, r.2.2)

namespace commands

/-- Write `v` at key `k` of a map. -/
def setKey {α : Type} (f : String → Option α) (k : String) (v : α) : String → Option α :=
  fun x => if x = k then some v else f x

/-- Lines 136-161 of `deployApp`: the manager chosen for `name`. Each `if` that finds
the name in a map sets `app.Name` through the map's pointer and overwrites `m`. -/
def selectManager (name : String) (cfg : config.Project) : Pipeline :=
  let m : Pipeline := .ecs { Project := cfg, App := { Name := name } }
  let r : config.Project × Pipeline :=
    match cfg.Serverless name with
    | some app =>
      let app1 := { app with Name := name }
      let cfg1 := { cfg with Serverless := setKey cfg.Serverless name app1 }
      (cfg1, .serverless { Project := cfg1, App := app1 })
    | none => (cfg, m)
  let r : config.Project × Pipeline :=
    match r.1.Alias name with
    | some app =>
      let app1 := { app with Name := name }
      let cfg1 := { r.1 with Alias := setKey r.1.Alias name app1 }
      (cfg1, .aliasM { Project := cfg1, App := app1 })
    | none => r
  let r : config.Project × Pipeline :=
    match r.1.Ecs name with
    | some app =>
      let app1 := { app with Name := name }
      let cfg1 := { r.1 with Ecs := setKey r.1.Ecs name app1 }
      (cfg1, .ecs { Project := cfg1, App := app1 })
    | none => r
  r.2

/-- Result of `deployApp`: what it returned, the manager and world afterwards, and the
lifecycle methods it called, in call order. -/
structure DeployAppResult (W : Type) where
  ret : Ret
  m : Pipeline
  world : W
  stages : List Stage

/-- The function `deployApp` of `up_apps.go`. -/
def deployApp {W : Type} (I : Impl W) (name : String) (cfg : config.Project)
    (isExplain : Bool) (w : W) : DeployAppResult W :=
  let m := selectManager name cfg
  if isExplain then
    let r := m.call I (fun ms => ms.Explain) w
    { ret := r.1, m := r.2.1, world := r.2.2, stages := [.Explain] }
  else
    -- build app container
    let b := m.call I (fun ms => ms.Build) w
    match b.1 with
    | .err e =>
      { ret := .err (.wrap "can't build app" e), m := b.2.1, world := b.2.2, stages := [.Build] }
    | .panic msg => { ret := .panic msg, m := b.2.1, world := b.2.2, stages := [.Build] }
    | .nil =>
      -- push app image
      let p := b.2.1.call I (fun ms => ms.Push) b.2.2
      match p.1 with
      | .err e =>
        { ret := .err (.wrap "can't push app" e), m := p.2.1, world := p.2.2,
          stages := [.Build, .Push] }
      | .panic msg =>
        { ret := .panic msg, m := p.2.1, world := p.2.2, stages := [.Build, .Push] }
      | .nil =>
        -- deploy app image
        let d := p.2.1.call I (fun ms => ms.Deploy) p.2.2
        match d.1 with
        | .err e =>
          { ret := .err (.wrap "can't deploy app" e), m := d.2.1, world := d.2.2,
            stages := [.Build, .Push, .Deploy] }
        | .panic msg =>
          { ret := .panic msg, m := d.2.1, world := d.2.2, stages := [.Build, .Push, .Deploy] }
        | .nil =>
          { ret := .nil, m := d.2.1, world := d.2.2, stages := [.Build, .Push, .Deploy] }

/-- The rule of the specification, section 4.4: a name in the function-service set
uses Function, else a name in the alias set uses Alias, else Container. -/
def kindEarlierWins (name : String) (cfg : config.Project) : Kind :=
  if (cfg.Serverless name).isSome then .Function
  else if (cfg.Alias name).isSome then .Alias
  else .Container

/-- The rule the sequence of overwriting `if` statements implements: the map checked
last wins. -/
def kindLaterWins (name : String) (cfg : config.Project) : Kind :=
  if (cfg.Ecs name).isSome then .Container
  else if (cfg.Alias name).isSome then .Alias
  else if (cfg.Serverless name).isSome then .Function
  else .Container

/-- A project whose `serverless` and `ecs` sections both declare the app `api`. -/
def overlapProject : config.Project :=
  { Serverless := fun n => if n = "api" then some { File := "serverless.yml" } else none
    Ecs := fun n => if n = "api" then some { Timeout := 60 } else none }

/-- A project with one function service `fn`, one alias `infra` and one container
service `web`. -/
def disjointProject : config.Project :=
  { Serverless := fun n => if n = "fn" then some {} else none
    Alias := fun n => if n = "infra" then some {} else none
    Ecs := fun n => if n = "web" then some {} else none }

end commands

/-! ## The graph scheduler (`internal/manager`, `InDependencyOrder`) -/

namespace manager

/-- Modelled from the spec: the direction of a run (section 3, RunContext); the sources
of `manager.InDependencyOrder` and `apps.InReversDependencyOrder` are not at hand. -/
inductive Direction where
  | Up
  | Down
  deriving DecidableEq, Repr

/-- Modelled from the spec: a ServiceNode (section 3), its unique name and the set of
names it depends on. -/
structure ServiceNode where
  name : String
  dependsOn : List String
  deriving DecidableEq, Repr

/-- Modelled from the spec: a DependencyGraph (section 3), the ServiceNodes of one
run. -/
abbrev DependencyGraph := List ServiceNode

/-- Modelled from the spec: PipelineState (section 3), per node and per run. -/
inductive PipelineState where
  | Pending
  | Running
  | Succeeded
  | Failed
  | Skipped
  deriving DecidableEq, Repr

/-- Modelled from the spec: the nodes that must have resolved before `n` may run
(sections 4.1 and 5): for Up the names in the `dependsOn` set of `n`, for Down the nodes
that declared `n` as a dependency. -/
def predecessors (g : DependencyGraph) (dir : Direction) (n : String) : List String :=
  match dir with
  | .Up => (g.filter (fun node => node.name = n)).flatMap (fun node => node.dependsOn)
  | .Down => (g.filter (fun node => n ∈ node.dependsOn)).map (fun node => node.name)

/-- Modelled from the spec: what the scheduler of section 4.2 does to one node. The
concurrent run is the interleaving of these events: `start n` launches `task(n)`,
`done n r` is the return of `task(n)` with result `r`, `skip n` marks `n` Skipped. -/
inductive Event where
  | start (name : String)
  | done (name : String) (result : Ret)
  | skip (name : String)
  deriving DecidableEq, Repr

/-- Modelled from the spec: the scheduling state, the PipelineState of every name. -/
abbrev Schedule := String → PipelineState

/-- Set the state of one node. -/
def Schedule.set (st : Schedule) (n : String) (v : PipelineState) : Schedule :=
  fun x => if x = n then v else st x

/-- Modelled from the spec: the transitions of section 3. Pending to Running when all
predecessors have resolved to Succeeded; Running to Succeeded when the task returns
nil and Running to Failed when it returns an error; Pending to Skipped when a
predecessor is Failed or itself Skipped (so that every node reachable from a failed
node is skipped and never invoked). An event whose guard fails is not a step. -/
def step (g : DependencyGraph) (dir : Direction) (st : Schedule) : Event → Option Schedule
  | .start n =>
    if n ∈ g.map (fun node => node.name) ∧ st n = .Pending ∧
        ∀ d ∈ predecessors g dir n, st d = .Succeeded then
      some (st.set n .Running)
    else none
  | .done n r =>
    if st n = .Running then
      some (st.set n (if r = .nil then .Succeeded else .Failed))
    else none
  | .skip n =>
    if n ∈ g.map (fun node => node.name) ∧ st n = .Pending ∧
        ∃ d ∈ predecessors g dir n, st d = .Failed ∨ st d = .Skipped then
      some (st.set n .Skipped)
    else none

/-- Modelled from the spec: a run of the scheduler along a list of events, `none` if
some event is not allowed where it stands. -/
def run (g : DependencyGraph) (dir : Direction) : Schedule → List Event → Option Schedule
  | st, [] => some st
  | st, e :: es =>
    match step g dir st e with
    | some st1 => run g dir st1 es
    | none => none

/-- Modelled from the spec: `manager.InDependencyOrder`, which `UpAppsOptions.Run`
calls with the apps of the project and its per-app task: the runs of the scheduler in
direction Up from the state in which every node is Pending. -/
def InDependencyOrder (g : DependencyGraph) (events : List Event) : Option Schedule :=
  run g .Up (fun _ => .Pending) events

/-- The graph of the specification, section 8: `db` without dependencies, `web` and
`worker` depending on `db`. -/
def dbWebWorker : DependencyGraph :=
  [{ name := "db", dependsOn := [] }, { name := "web", dependsOn := ["db"] },
   { name := "worker", dependsOn := ["db"] }]

/-- A complete run of `dbWebWorker`: `db`, then `web` and `worker` side by side. -/
def dbWebWorkerRun : List Event :=
  [.start "db", .done "db" .nil, .start "web", .start "worker", .done "worker" .nil,
   .done "web" .nil]

end manager

/-! ## The down command (`internal/commands/down/down.go`) -/

namespace down

/-- Fields of `DownOptions`. -/
structure DownOptions where
  Config : config.Project
  AppName : String := ""
  SkipBuildAndPush : Bool := false
  AutoApprove : Bool := false

/-- A non-nil value of interface type `apps.App` as `down.go` builds it:
`&apps.SlsService`, `&apps.AliasService` or `&ecs.EcsService`, each holding the
project and the app's configuration. A nil interface value is `none` of
`Option AppService`. -/
inductive AppService where
  | SlsService (Project : config.Project) (App : config.Serverless)
  | AliasService (Project : config.Project) (App : config.Alias)
  | EcsService (Project : config.Project) (App : config.Ecs)

/-- The variant of a service value. -/
def AppService.kind : AppService → Kind
  | .SlsService _ _ => .Function
  | .AliasService _ _ => .Alias
  | .EcsService _ _ => .Container

/-- The `Destroy(ui)` methods of the three service types of `internal/apps`, whose
bodies are outside the sources at hand: parameters of the embedding. -/
structure DestroyImpl (W : Type) where
  SlsService : config.Project → config.Serverless → W → Ret × W
  AliasService : config.Project → config.Alias → W → Ret × W
  EcsService : config.Project → config.Ecs → W → Ret × W

/-- Dynamic dispatch of `appService.Destroy(ui)` on a non-nil interface value. -/
def AppService.Destroy {W : Type} (I : DestroyImpl W) : AppService → W → Ret × W
  | .SlsService prj app, w => I.SlsService prj app w
  | .AliasService prj app, w => I.AliasService prj app w
  | .EcsService prj app, w => I.EcsService prj app w

/-- The three `if` statements shared by `destroyApp` (lines 292-311) and the task of
`destroyAll` (lines 209-228): `appService` starts as the nil interface and is
overwritten by each map that has the name. -/
def resolveAppService (cfg : config.Project) (name : String) : Option AppService :=
  let appService : Option AppService := none
  let appService :=
    match cfg.Serverless name with
    | some app => some (.SlsService cfg app)
    | none => appService
  let appService :=
    match cfg.Alias name with
    | some app => some (.AliasService cfg app)
    | none => appService
  let appService :=
    match cfg.Ecs name with
    | some app => some (.EcsService cfg app)
    | none => appService
  appService

/-- Result of a tear-down function: what it returned, the world afterwards, the project
configuration afterwards, and the lifecycle methods it called, in call order. -/
structure DownResult (W : Type) where
  ret : Ret
  world : W
  Config : config.Project
  stages : List Stage

/-- The function `destroyApp` of `down.go`. -/
def destroyApp {W : Type} (I : DestroyImpl W) (o : DownOptions) (w : W) : DownResult W :=
  match resolveAppService o.Config o.AppName with
  | none => { ret := .panic nilDereference, world := w, Config := o.Config, stages := [] }
  | some appService =>
    let r := appService.Destroy I w
    match r.1 with
    | .err e =>
      { ret := .err (.wrap "can't down" e), world := r.2, Config := o.Config,
        stages := [.Destroy] }
    | .panic msg => { ret := .panic msg, world := r.2, Config := o.Config, stages := [.Destroy] }
    | .nil => { ret := .nil, world := r.2, Config := o.Config, stages := [.Destroy] }

/-- The per-node task that `destroyAll` passes to `apps.InReversDependencyOrder`
(lines 206-237). -/
def destroyAllTask {W : Type} (I : DestroyImpl W) (o : DownOptions) (name : String) (w : W) :
    DownResult W :=
  match o.Config.Terraform "infra" with
  | none => { ret := .panic nilDereference, world := w, Config := o.Config, stages := [] }
  | some infra =>
    let cfg := { o.Config with AwsProfile := infra.AwsProfile }
    match resolveAppService cfg name with
    | none => { ret := .panic nilDereference, world := w, Config := cfg, stages := [] }
    | some appService =>
      -- destroy
      let r := appService.Destroy I w
      match r.1 with
      | .err e =>
        { ret := .err (.wrap "can't destroy app" e), world := r.2, Config := cfg,
          stages := [.Destroy] }
      | .panic msg => { ret := .panic msg, world := r.2, Config := cfg, stages := [.Destroy] }
      | .nil => { ret := .nil, world := r.2, Config := cfg, stages := [.Destroy] }

/-- The function `validate` of `down.go`, run before `destroyApp`. -/
def validate (o : DownOptions) : Ret :=
  if o.Config.Env.length = 0 then
    .err (.plain "can't validate options: env must be specified")
  else if o.Config.Namespace.length = 0 then
    .err (.plain "can't validate options: namespace must be specified")
  else if o.AppName.length = 0 then
    .err (.plain "can't validate options: app name be specified")
  else .nil

/-- Service implementations whose `Destroy` always succeeds, over a trivial world. -/
def destroyAlwaysOk : DestroyImpl Unit :=
  { SlsService := fun _ _ w => (.nil, w)
    AliasService := fun _ _ w => (.nil, w)
    EcsService := fun _ _ w => (.nil, w) }

/-- Options of `ize down ghost` for a project that declares the container service `web`
only. -/
def downGhost : DownOptions :=
  { Config :=
      { Env := "dev", Namespace := "acme"
        Terraform := fun n => if n = "infra" then some { AwsProfile := "default" } else none
        Ecs := fun n => if n = "web" then some {} else none }
    AppName := "ghost" }

end down

/-! ## The container manager (`internal/manager/ecs/ecs.go`) -/

namespace ecs

/-- An `ecr.Repository` as far as the sources read it: `RepositoryUri` is a `*string`. -/
structure Repository where
  RepositoryUri : Option String
  deriving DecidableEq, Repr

/-- The calls of the container manager to its collaborators, with the arguments it
passes. The two deployment drivers `deployLocal` and `deployWithDocker` are methods of
`Manager` in files outside the sources at hand; their call records the app
configuration (among it the image) they are invoked on. -/
inductive Call where
  | ListTasks (cluster : String) (serviceName : String)
  | GetSession (region : String) (profile : String) (endpointUrl : String)
  | SettingAWSClient
  | Warning (text : String)
  | deployLocal (app : config.Ecs)
  | deployWithDocker (app : config.Ecs)
  | BuilderBuild (buildArgs : List (String × String)) (tags : List String)
      (dockerfile : String) (cache : List String) (platform : String) (rootDir : String)
  | DescribeRepositories (repositoryNames : List String)
  | CreateRepository (repositoryName : String)
  | GetAuthorizationToken
  | RegistryPush (repositoryUri : String) (token : String) (platform : String)
      (image : String) (tags : List String)
  | ListTaskDefinitions (familyPfx : String) (sort : String)
  | Printfln (text : String)
  | BulletList (items : List String)
  | Confirm (text : String)
  | DeregisterTaskDefinition (taskDefinition : String)
  deriving DecidableEq, Repr

/-- The answers of the collaborators. Each is a function of the calls made so far, the
call being answered last, so an answer may depend on the arguments and on everything
that happened before. -/
structure Backend where
  ListTasks : List Call → Option GoError
  GetSession : List Call → Option GoError
  deployLocal : List Call → Manager → Option GoError × Manager
  deployWithDocker : List Call → Manager → Option GoError × Manager
  BuilderBuild : List Call → Option GoError
  /-- Answer of `DescribeRepositories`: an error, or the output, which the code tests for nil. -/
  DescribeRepositories : List Call → Except GoError (Option (List Repository))
  /-- Answer of `CreateRepository`: an error, or the pointer `out.Repository`. -/
  CreateRepository : List Call → Except GoError (Option Repository)
  /-- Answer of `GetAuthorizationToken`: an error, or the `AuthorizationToken` pointers of the
  entries of `AuthorizationData`. -/
  GetAuthorizationToken : List Call → Except GoError (List (Option String))
  RegistryPush : List Call → Option GoError
  ListTaskDefinitions : List Call → Except GoError (List String)
  Confirm : List Call → Except GoError Bool
  DeregisterTaskDefinition : List Call → Option GoError

/-- Functions of the Go standard library and of the process environment that the
manager uses; parameters of the embedding. -/
structure Host where
  /-- Go `filepath.IsAbs` -/
  IsAbs : String → Bool
  /-- Go `filepath.Join` of two elements -/
  Join : String → String → String
  /-- Go `filepath.Rel` -/
  Rel : String → String → Except GoError String
  /-- Go `path.Join` of two elements -/
  pathJoin : String → String → String
  /-- Go `os.Getenv` -/
  Getenv : String → String
  /-- Go `base64.StdEncoding.DecodeString` -/
  DecodeString : String → Except GoError (List UInt8)
  /-- Go `json.Marshal` of `types.AuthConfig` with the given user name and password
  bytes, then `base64.URLEncoding.EncodeToString`. -/
  EncodeAuth : String → List UInt8 → String

/-- What a method of `Manager` ends in: its result, the receiver afterwards and the
calls made so far. -/
structure Out where
  ret : Ret
  m : Manager
  log : List Call

/-- The loop of `getEcsServiceName` (lines 406-435) over the candidates left. -/
def getEcsServiceNameLoop (B : Backend) (cluster : String) :
    List String → List Call → (String × Option GoError) × List Call
  | [], log => (("", some (.plain "ECS Service not found")), log)
  | v :: rest, log =>
    let log1 := log ++ [Call.ListTasks cluster v]
    let err := B.ListTasks log1
    match err.bind GoError.asAws with
    | some code =>
      if code = "ClusterNotFoundException" then
        (("", some (.plain ("ECS cluster " ++ cluster ++ " not found"))), log1)
      else if code = "ServiceNotFoundException" then
        getEcsServiceNameLoop B cluster rest log1
      else (("", err), log1)
    | none => ((v, err), log1)

/-- The function `getEcsServiceName` of `ecs.go`. -/
def getEcsServiceName (B : Backend) (e : Manager) (log : List Call) :
    (String × Option GoError) × List Call :=
  let ecsServiceCandidates :=
    [e.Project.Env ++ "-" ++ e.Project.Namespace ++ "-" ++ e.App.Name,
     e.Project.Env ++ "-" ++ e.App.Name,
     e.App.Name]
  getEcsServiceNameLoop B e.App.Cluster ecsServiceCandidates log

/-- Lines 38-51 of `Manager.prepare`: the path of the app. -/
def Manager.preparePath (H : Host) (e : Manager) : Manager :=
  if e.App.Path = "" then
    let appsPath := e.Project.AppsPath
    let appsPath := if !H.IsAbs appsPath then H.Join (H.Getenv "PWD") appsPath else appsPath
    { e with App := { e.App with Path := H.Join appsPath e.App.Name } }
  else
    let rootDir := e.Project.RootDir
    if !H.IsAbs e.App.Path then
      { e with App := { e.App with Path := H.Join rootDir e.App.Path } }
    else e

/-- Lines 53-55 of `Manager.prepare`: the default cluster. -/
def Manager.prepareCluster (e : Manager) : Manager :=
  if e.App.Cluster = "" then
    { e with App := { e.App with Cluster := e.Project.Env ++ "-" ++ e.Project.Namespace } }
  else e

/-- Lines 57-59 of `Manager.prepare`: the registry of the project if the app has
none. -/
def Manager.prepareRegistry (e : Manager) : Manager :=
  if e.App.DockerRegistry = "" then
    { e with App := { e.App with DockerRegistry := e.Project.DockerRegistry } }
  else e

/-- Lines 61-63 of `Manager.prepare`: the default timeout. -/
def Manager.prepareTimeout (e : Manager) : Manager :=
  if e.App.Timeout = 0 then { e with App := { e.App with Timeout := 300 } } else e

/-- Lines 65-71 of `Manager.prepare`: the service name. The error of
`getEcsServiceName` is dropped, the name it returns is stored. -/
def Manager.prepareServiceName (B : Backend) (e : Manager) (log : List Call) :
    Manager × List Call :=
  if e.App.ServiceName = "" then
    let r := getEcsServiceName B e log
    ({ e with App := { e.App with ServiceName := r.1.1 } }, r.2)
  else (e, log)

/-- The function `Manager.prepare` of `ecs.go`: its five blocks in sequence. -/
def Manager.prepare (H : Host) (B : Backend) (e : Manager) (log : List Call) :
    Manager × List Call :=
  ((((e.preparePath H).prepareCluster).prepareRegistry).prepareTimeout).prepareServiceName B log

/-- The warning of lines 102-107, after `templates.Dedent`. -/
def unsafeWarning : String :=
  "deployment will be accelerated (unsafe):\n- Health Check Interval: 5s\n" ++
  "- Health Check Timeout: 2s\n- Healthy Threshold Count: 2\n- Unhealthy Threshold Count: 2"

/-- Lines 101-108 of `Manager.Deploy`: the warning of an accelerated deployment. -/
def Manager.warnUnsafe (e : Manager) (log : List Call) : List Call :=
  if e.App.Unsafe ∧ e.Project.PreferRuntime = "native" then log ++ [Call.Warning unsafeWarning]
  else log

/-- Lines 113-119 of `Manager.Deploy`: the default image. -/
def Manager.defaultImage (e : Manager) : Manager :=
  if e.App.Image = "" then
    -- Set image name to <docker-registry>/<namespace>-<app-name>:<tag> by default
    { e with App := { e.App with Image :=
        e.App.DockerRegistry ++ "/" ++ (e.Project.Namespace ++ "-" ++ e.App.Name) ++ ":" ++
          (e.Project.Env ++ "-" ++ "latest") } }
  else e

/-- Lines 121-138 of `Manager.Deploy`: the call of the deployment driver. -/
def Manager.callDriver (B : Backend) (e : Manager) (log : List Call) : Out :=
  if e.Project.PreferRuntime = "native" then
    let log := log ++ [Call.deployLocal e.App]
    let r := B.deployLocal log e
    match r.1 with
    | some err => { ret := .err (.wrap "unable to deploy app" err), m := r.2, log := log }
    | none => { ret := .nil, m := r.2, log := log }
  else
    let log := log ++ [Call.deployWithDocker e.App]
    let r := B.deployWithDocker log e
    match r.1 with
    | some err => { ret := .err (.wrap "unable to deploy app" err), m := r.2, log := log }
    | none => { ret := .nil, m := r.2, log := log }

/-- Lines 101-138 of `Manager.Deploy`: the warning, the default image, and the call of
the deployment driver. -/
def Manager.deployRun (B : Backend) (e : Manager) (log : List Call) : Out :=
  e.defaultImage.callDriver B (e.warnUnsafe log)

/-- Lines 94-138 of `Manager.Deploy`: the `SkipDeploy` gate, then the deployment. -/
def Manager.deployGate (B : Backend) (e : Manager) (log : List Call) : Out :=
  if e.App.SkipDeploy then { ret := .nil, m := e, log := log }
  else e.deployRun B log

/-- The function `Manager.Deploy` of `ecs.go`: deploys app container to ECS via ECS deploy. -/
def Manager.Deploy (H : Host) (B : Backend) (e : Manager) (log : List Call) : Out :=
  let p := e.prepare H B log
  let e := p.1
  let log := p.2
  if e.App.AwsRegion ≠ "" ∧ e.App.AwsProfile ≠ "" then
    let log := log ++ [Call.GetSession e.App.AwsRegion e.App.AwsProfile e.Project.EndpointUrl]
    match B.GetSession log with
    | some err => { ret := .err (.wrap "can't get session" err), m := e, log := log }
    | none => e.deployGate B (log ++ [Call.SettingAWSClient])
  else e.deployGate B log

/-- The target platform of lines 254-257 and 315-318. -/
def platformOf (preferRuntime : String) : String :=
  if preferRuntime = "docker-arm64" then "linux/arm64" else "linux/amd64"

/-- The function `Manager.Build` of `ecs.go`. -/
def Manager.Build (H : Host) (B : Backend) (e : Manager) (log : List Call) : Out :=
  let p := e.prepare H B log
  let e := p.1
  let log := p.2
  if e.App.Image ≠ "" then { ret := .nil, m := e, log := log }
  else
    let image := e.Project.Namespace ++ "-" ++ e.App.Name
    let imageUri := e.App.DockerRegistry ++ "/" ++ image
    match H.Rel e.Project.RootDir e.App.Path with
    | .error err => { ret := .err (.wrap "unable to get relative path" err), m := e, log := log }
    | .ok relProjectPath =>
      let cache := imageUri ++ ":" ++ (e.Project.Env ++ "-latest")
      let buildArgs :=
        [("PROJECT_PATH", relProjectPath), ("APP_PATH", relProjectPath),
         ("APP_NAME", e.App.Name), ("CACHE_IMAGE", cache), ("TAG", e.Project.Tag)]
      let tags :=
        [image, imageUri ++ ":" ++ e.Project.Tag,
         imageUri ++ ":" ++ (e.Project.Env ++ "-latest")]
      let dockerfile := H.pathJoin e.App.Path "Dockerfile"
      let platform := platformOf e.Project.PreferRuntime
      let log :=
        log ++ [Call.BuilderBuild buildArgs tags dockerfile [cache] platform e.Project.RootDir]
      match B.BuilderBuild log with
      | some err => { ret := .err (.wrap "unable to build image" err), m := e, log := log }
      | none => { ret := .nil, m := e, log := log }

/-- The run-time panic of a slice expression beyond the length of the slice. -/
def sliceOutOfRange : String := "runtime error: slice bounds out of range"

/-- Lines 228-268 of `Manager.Push`: the authorization token and the push, given the
`repository` pointer that lines 203-226 left. -/
def Manager.pushImage (H : Host) (B : Backend) (e : Manager) (image : String)
    (repository : Option Repository) (log : List Call) : Out :=
  let log := log ++ [Call.GetAuthorizationToken]
  match B.GetAuthorizationToken log with
  | .error err => { ret := .err (.wrap "unable to get authorization token" err), m := e, log := log }
  | .ok [] => { ret := .err (.plain "no authorization tokens provided"), m := e, log := log }
  | .ok (none :: _) => { ret := .panic nilDereference, m := e, log := log }
  | .ok (some upToken :: _) =>
    match H.DecodeString upToken with
    | .error err =>
      { ret := .err (.wrap "unable to decode authorization token" err), m := e, log := log }
    | .ok data =>
      if data.length < 4 then { ret := .panic sliceOutOfRange, m := e, log := log }
      else
        let token := H.EncodeAuth "AWS" (data.drop 4)
        let tagLatest := e.Project.Env ++ "-latest"
        let imageUri := e.App.DockerRegistry ++ "/" ++ image
        let platform := platformOf e.Project.PreferRuntime
        match repository.bind (fun r => r.RepositoryUri) with
        | none => { ret := .panic nilDereference, m := e, log := log }
        | some repositoryUri =>
          let log :=
            log ++ [Call.RegistryPush repositoryUri token platform imageUri
              [e.Project.Tag, tagLatest]]
          match B.RegistryPush log with
          | some err => { ret := .err (.wrap "can't push image" err), m := e, log := log }
          | none => { ret := .nil, m := e, log := log }

/-- The function `Manager.Push` of `ecs.go`. -/
def Manager.Push (H : Host) (B : Backend) (e : Manager) (log : List Call) : Out :=
  let p := e.prepare H B log
  let e := p.1
  let log := p.2
  if e.App.Image ≠ "" then { ret := .nil, m := e, log := log }
  else
    let image := e.Project.Namespace ++ "-" ++ e.App.Name
    let log := log ++ [Call.DescribeRepositories [image]]
    match B.DescribeRepositories log with
    | .error err => { ret := .err (.wrap "can't describe repositories" err), m := e, log := log }
    | .ok dro =>
      match dro with
      | some (repository :: _) =>
        match repository.RepositoryUri with
        | none => { ret := .panic nilDereference, m := e, log := log }
        | some _ => e.pushImage H B image (some repository) log
      | _ =>
        let log := log ++ [Call.CreateRepository image]
        match B.CreateRepository log with
        | .error err => { ret := .err (.wrap "unable to create repository" err), m := e, log := log }
        | .ok repository => e.pushImage H B image repository log

/-- The loop of lines 382-389 of `Manager.Destroy` over the task definitions left. -/
def deregisterAll (B : Backend) : List String → List Call → Ret × List Call
  | [], log => (.nil, log)
  | tda :: rest, log =>
    let log := log ++ [Call.DeregisterTaskDefinition tda]
    match B.DeregisterTaskDefinition log with
    | some err =>
      (.err (.plain ("can't deregister task definition '" ++ tda ++ "': " ++ err.Error)), log)
    | none => deregisterAll B rest log

/-- The function `Manager.Destroy` of `ecs.go`. -/
def Manager.Destroy (B : Backend) (e : Manager) (autoApprove : Bool) (log : List Call) : Out :=
  let name := e.Project.Env ++ "-" ++ e.App.Name
  let log := log ++ [Call.ListTaskDefinitions name "DESC"]
  match B.ListTaskDefinitions log with
  | .error err =>
    { ret := .err (.plain ("can't get list task definitions of '" ++ name ++ "': " ++ err.Error)),
      m := e, log := log }
  | .ok definitions =>
    if !autoApprove then
      let log :=
        log ++ [Call.Printfln "this will destroy the following:", Call.BulletList definitions,
          Call.Confirm "Continue?"]
      match B.Confirm log with
      | .error err => { ret := .err err, m := e, log := log }
      | .ok isContinue =>
        if !isContinue then
          { ret := .err (.plain "destroying was canceled"), m := e, log := log }
        else
          let r := deregisterAll B definitions log
          { ret := r.1, m := e, log := r.2 }
    else
      let r := deregisterAll B definitions log
      { ret := r.1, m := e, log := r.2 }

/-- The deregistration requests for the first `k` of the listed task definitions, in
listed order. -/
def deregisterCalls (arns : List String) (k : Nat) : List Call :=
  (arns.take k).map Call.DeregisterTaskDefinition

/-- The call with which `Manager.Destroy` lists the task definitions of the app. -/
def listCall (e : Manager) : Call :=
  Call.ListTaskDefinitions (e.Project.Env ++ "-" ++ e.App.Name) "DESC"

/-- The fields of a manager that the claims about `prepare` speak of. -/
def Manager.kept (e : Manager) :
    config.Project × String × String × Bool × Bool × String × String :=
  (e.Project, e.App.Name, e.App.Image, e.App.SkipDeploy, e.App.Unsafe, e.App.AwsRegion,
    e.App.AwsProfile)

/-- Whether a call invokes the image builder. -/
def Call.isBuilder : Call → Bool
  | .BuilderBuild _ _ _ _ _ _ => true
  | _ => false

/-- Whether a call goes to the registry: `DescribeRepositories`, `CreateRepository`,
`GetAuthorizationToken` or the registry push. -/
def Call.isRegistry : Call → Bool
  | .DescribeRepositories _ => true
  | .CreateRepository _ => true
  | .GetAuthorizationToken => true
  | .RegistryPush _ _ _ _ _ => true
  | _ => false

/-- The image a call hands to a deployment driver, if the call invokes one. -/
def Call.driverImage : Call → Option String
  | .deployLocal app => some app.Image
  | .deployWithDocker app => some app.Image
  | _ => none

/-- Whether a call is the `ListTasks` probe of `getEcsServiceName`. -/
def Call.isListTasks : Call → Bool
  | .ListTasks _ _ => true
  | _ => false

/-- The image reference `Manager.Deploy` is to hand to the driver according to the
specification: the explicit image, or `registry/namespace-service:env-latest` with the
registry of the app or, if that is empty, of the project. -/
def expectedImage (e : Manager) : String :=
  if e.App.Image ≠ "" then e.App.Image
  else
    let registry :=
      if e.App.DockerRegistry ≠ "" then e.App.DockerRegistry else e.Project.DockerRegistry
    registry ++ "/" ++ e.Project.Namespace ++ "-" ++ e.App.Name ++ ":" ++ e.Project.Env ++
      "-latest"

/-- A host with absolute paths starting with a slash and joins by a slash. -/
def unixHost : Host :=
  { IsAbs := fun p => match p.data with
      | '/' :: _ => true
      | _ => false
    Join := fun a b => a ++ "/" ++ b
    Rel := fun _ target => .ok target
    pathJoin := fun a b => a ++ "/" ++ b
    Getenv := fun _ => "/work"
    DecodeString := fun _ => .ok [65, 87, 83, 58, 112, 119]
    EncodeAuth := fun user _ => user }

/-- A backend in which every call succeeds: the repository exists, two revisions of the
task definition are listed, the operator confirms. -/
def okBackend : Backend :=
  { ListTasks := fun _ => none
    GetSession := fun _ => none
    deployLocal := fun _ m => (none, m)
    deployWithDocker := fun _ m => (none, m)
    BuilderBuild := fun _ => none
    DescribeRepositories := fun _ => .ok (some [{ RepositoryUri := some "registry.test/acme-web" }])
    CreateRepository := fun _ => .ok (some { RepositoryUri := some "registry.test/acme-web" })
    GetAuthorizationToken := fun _ => .ok [some "QVdTOnB3"]
    RegistryPush := fun _ => none
    ListTaskDefinitions := fun _ => .ok ["dev-web:2", "dev-web:1"]
    Confirm := fun _ => .ok true
    DeregisterTaskDefinition := fun _ => none }

/-- The project of the examples. -/
def acme : config.Project :=
  { Env := "dev", Namespace := "acme", DockerRegistry := "registry.test", Tag := "v1",
    PreferRuntime := "native", RootDir := "/work", AppsPath := "apps" }

/-- A manager of the service `web` with the explicit image `nginx:1.25`. -/
def webExplicit : Manager :=
  { Project := acme, App := { Name := "web", Image := "nginx:1.25" } }

/-- A manager of the service `web` without an explicit image. -/
def webDefault : Manager :=
  { Project := acme, App := { Name := "web" } }

/-- A manager of the service `web` with deploy disabled and its own region and
profile. -/
def webSkipped : Manager :=
  { Project := acme
    App := { Name := "web", SkipDeploy := true, AwsRegion := "us-east-1", AwsProfile := "ops" } }

/-- The calls made when `Manager.Deploy` asks for the session of the app: those of
`prepare`, then `GetSession` with the region and profile of the app. -/
def sessionLog (H : Host) (B : Backend) (e : Manager) (log : List Call) : List Call :=
  (e.prepare H B log).2 ++
    [Call.GetSession e.App.AwsRegion e.App.AwsProfile e.Project.EndpointUrl]

/-- The error with which ECR answers `DescribeRepositories` for a repository that does
not exist. -/
def repositoryNotFound : GoError :=
  .aws "RepositoryNotFoundException" "The repository with name 'acme-web' does not exist"

/-- The backend `okBackend` except that the repository does not exist and ECR reports
this as an error. -/
def missingRepositoryBackend : Backend :=
  { okBackend with DescribeRepositories := fun _ => .error repositoryNotFound }

/-- The backend `okBackend` except that the repository does not exist and ECR reports
this as an empty result. -/
def emptyResultBackend : Backend :=
  { okBackend with DescribeRepositories := fun _ => .ok (some []) }

/-- A manager of the service `web` without an explicit image whose service name is
configured, so that `prepare` makes no call. -/
def webNamed : Manager :=
  { Project := acme, App := { Name := "web", ServiceName := "dev-web" } }

/-- The backend `okBackend` except that the operator is never asked successfully and
the second deregistration fails. -/
def secondFailsBackend : Backend :=
  { okBackend with
    Confirm := fun _ => .error (.plain "no terminal")
    DeregisterTaskDefinition := fun log =>
      if log.length = 3 then some (.plain "AccessDenied") else none }

/-- The backend `okBackend` except that the operator is never asked successfully. -/
def noPromptBackend : Backend :=
  { okBackend with Confirm := fun _ => .error (.plain "no terminal") }

/-- The backend `okBackend` except that no session can be acquired. -/
def noSessionBackend : Backend :=
  { okBackend with GetSession := fun _ => some (.plain "NoCredentialProviders") }

end ecs

/-! ## The deploy command (`internal/commands/deploy/deploy.go`) -/

namespace deploy

/-- The fields of `Service` that `deploy.go` sets and reads. -/
structure Service where
  Name : String := ""
  Path : String := ""
  Image : String := ""
  EcsCluster : String := ""
  TaskDefinitionArn : String := ""
  deriving DecidableEq, Repr

/-- The fields of `ecsdeploy.DeployOpts` that `deployService` sets. -/
structure DeployOpts where
  Service : String
  Cluster : String
  TaskDefinitionArn : String
  AwsProfile : String
  Tag : String
  Timeout : String
  Image : String
  EcsService : String
  deriving DecidableEq, Repr

/-- The calls of `deployService` to its collaborators, with the arguments it passes. -/
inductive Call where
  | EcsdeployBuild (tags : List String) (dockerfile : String)
      (buildArgs : List (String × String)) (cacheFrom : List String) (contextDir : String)
  | DescribeRepositories (repositoryNames : List String)
  | CreateRepository (repositoryName : String)
  | GetAuthorizationToken
  | EcsdeployPush (images : List String) (token : String) (registry : String)
  | DescribeTaskDefinition (taskDefinition : String)
  | EcsdeployDeploy (opts : DeployOpts)
  deriving DecidableEq, Repr

/-- The answers of the collaborators, each a function of the calls made so far, the
call being answered last. -/
structure Backend where
  EcsdeployBuild : List Call → Option GoError
  /-- Answer of `DescribeRepositories`: the output pointer (nil, or its `Repositories`) and the
  error; the code reads the output also when the error is non-nil. -/
  DescribeRepositories : List Call → Option (List ecs.Repository) × Option GoError
  CreateRepository : List Call → Option GoError
  /-- Answer of `GetAuthorizationToken`: an error, or the `AuthorizationToken` pointers of the
  entries of `AuthorizationData`. -/
  GetAuthorizationToken : List Call → Except GoError (List (Option String))
  EcsdeployPush : List Call → Option GoError
  /-- Answer of `DescribeTaskDefinition`: an error, or the pointer
  `stdo.TaskDefinition.TaskDefinitionArn`. -/
  DescribeTaskDefinition : List Call → Except GoError (Option String)
  EcsdeployDeploy : List Call → Option GoError

/-- Functions of the Go standard library, of viper and of the file system that
`deployService` uses; parameters of the embedding. -/
structure Host where
  /-- Go `viper.GetString` -/
  GetString : String → String
  /-- Go `filepath.IsAbs` -/
  IsAbs : String → Bool
  /-- Go `filepath.Abs` -/
  Abs : String → Except GoError String
  /-- Go `filepath.Rel` -/
  Rel : String → String → Except GoError String
  /-- Go `os.Stat`, its error only -/
  Stat : String → Option GoError

/-- What `deployService` ends in: its result and the calls made so far. -/
structure Out where
  ret : Ret
  log : List Call
  deriving DecidableEq, Repr

/-- The pieces of a list of characters between occurrences of `sep`, `cur` being the
piece under way, reversed. -/
def splitChars (sep : Char) : List Char → List Char → List (List Char)
  | [], cur => [cur.reverse]
  | c :: cs, cur =>
    if c = sep then cur.reverse :: splitChars sep cs [] else splitChars sep cs (c :: cur)

/-- Go `strings.Split(s, sep)` for a separator of one character. -/
def Split (s : String) (sep : Char) : List String :=
  (splitChars sep s.data []).map String.mk

/-- Go `strings.Trim(s, cutset)` for a cutset of one character. -/
def Trim (s : String) (cut : Char) : String :=
  String.mk ((s.data.dropWhile (fun c => c = cut)).reverse.dropWhile (fun c => c = cut)).reverse

/-- The run-time panic of an index expression beyond the length of the slice. -/
def indexOutOfRange : String := "runtime error: index out of range"

/-- The error built by `fmt.Errorf("cat't deploy service %s: %w", s.Name, err)`. -/
def wrapDeploy (s : Service) (err : GoError) : Ret :=
  .err (.wrap ("cat't deploy service " ++ s.Name) err)

/-- The type assertion `err.(*ecr.RepositoryNotFoundException)` of line 239. -/
def isRepositoryNotFound : GoError → Bool
  | .aws code _ => code = "RepositoryNotFoundException"
  | _ => false

/-- Lines 292-306 of `deployService`: the call of the deploy driver. -/
def deployDriver (B : Backend) (s : Service) (profile env tag : String) (log : List Call) :
    Out :=
  let log := log ++ [Call.EcsdeployDeploy
    { Service := s.Name, Cluster := s.EcsCluster, TaskDefinitionArn := s.TaskDefinitionArn,
      AwsProfile := profile, Tag := tag, Timeout := "600", Image := s.Image,
      EcsService := env ++ "-" ++ s.Name }]
  match B.EcsdeployDeploy log with
  | some err => { ret := wrapDeploy s err, log := log }
  | none => { ret := .nil, log := log }

/-- Lines 281-306 of `deployService`: the task definition, then the deploy driver. -/
def deployResolved (B : Backend) (s : Service) (profile env tag : String) (log : List Call) :
    Out :=
  if s.TaskDefinitionArn = "" then
    let log := log ++ [Call.DescribeTaskDefinition (env ++ "-" ++ s.Name)]
    match B.DescribeTaskDefinition log with
    | .error err => { ret := wrapDeploy s err, log := log }
    | .ok none => { ret := .panic nilDereference, log := log }
    | .ok (some arn) => deployDriver B { s with TaskDefinitionArn := arn } profile env tag log
  else deployDriver B s profile env tag log

/-- Lines 233-276 of `deployService`: the repository, the authorization token and the
push. A result of nil means that control falls through to line 281. -/
def pushBuilt (B : Backend) (s : Service) (dockerRegistry dockerImageName tagLatest : String)
    (log : List Call) : Ret × List Call :=
  let log := log ++ [Call.DescribeRepositories [dockerImageName]]
  let d := B.DescribeRepositories log
  let fatal : Option GoError :=
    match d.2 with
    | some err => if isRepositoryNotFound err then none else some err
    | none => none
  match fatal with
  | some err => (wrapDeploy s err, log)
  | none =>
    let created : Option GoError × List Call :=
      match d.1 with
      | some (_ :: _) => (none, log)
      | _ =>
        let log := log ++ [Call.CreateRepository dockerImageName]
        (B.CreateRepository log, log)
    match created.1 with
    | some err => (wrapDeploy s err, created.2)
    | none =>
      let log := created.2 ++ [Call.GetAuthorizationToken]
      match B.GetAuthorizationToken log with
      | .error err => (wrapDeploy s err, log)
      | .ok [] =>
        (.err (.plain ("cat't deploy service " ++ s.Name ++ ": not found authorization data")),
          log)
      | .ok (none :: _) => (.panic nilDereference, log)
      | .ok (some token :: _) =>
        let log := log ++ [Call.EcsdeployPush
          [dockerRegistry ++ "/" ++ dockerImageName ++ ":" ++ tagLatest] token dockerRegistry]
        match B.EcsdeployPush log with
        | some err => (wrapDeploy s err, log)
        | none => (.nil, log)

/-- Lines 185-276 of `deployService`: build and push of the image of the service. A
result of nil means that control falls through to line 281, with `s.Image` set. -/
def buildAndPush (H : Host) (B : Backend) (s : Service) (nspace env tag : String)
    (log : List Call) : Ret × Service × List Call :=
  let dockerImageName := nspace ++ "-" ++ s.Name
  let dockerRegistry := H.GetString "DOCKER_REGISTRY"
  let tagLatest := env ++ "-latest"
  let contextDir := s.Path
  match (if !H.IsAbs contextDir then H.Abs contextDir else .ok contextDir) with
  | .error err => (wrapDeploy s err, s, log)
  | .ok contextDir =>
    match H.Rel (H.GetString "ROOT_DIR") contextDir with
    | .error err => (wrapDeploy s err, s, log)
    | .ok projectPath =>
      let dockerfile := contextDir ++ "/Dockerfile"
      match H.Stat dockerfile with
      | some err => (wrapDeploy s err, s, log)
      | none =>
        let s := { s with
          Image := dockerRegistry ++ "/" ++ dockerImageName ++ ":" ++ Trim tag '\n' }
        let log := log ++ [Call.EcsdeployBuild
          [dockerImageName, s.Image, dockerRegistry ++ "/" ++ dockerImageName ++ ":" ++ tagLatest]
          dockerfile
          [("DOCKER_REGISTRY", dockerRegistry), ("DOCKER_IMAGE_NAME", dockerImageName),
           ("ENV", env), ("PROJECT_PATH", projectPath)]
          [dockerRegistry ++ "/" ++ dockerImageName ++ ":" ++ tagLatest]
          (H.GetString "ROOT_DIR")]
        match B.EcsdeployBuild log with
        | some err => (wrapDeploy s err, s, log)
        | none =>
          let r := pushBuilt B s dockerRegistry dockerImageName tagLatest log
          (r.1, s, r.2)

/-- The function `deployService` of `deploy.go`. The session argument is part of the
backend. -/
def deployService (H : Host) (B : Backend) (s : Service) (profile nspace env tag : String)
    (log : List Call) : Out :=
  let skipBuildAndPush := if s.Image = "" then false else true
  if !skipBuildAndPush then
    let r := buildAndPush H B s nspace env tag log
    match r.1 with
    | .nil => deployResolved B r.2.1 profile env tag r.2.2
    | other => { ret := other, log := r.2.2 }
  else
    match (Split s.Image ':').get? 1 with
    | none => { ret := .panic indexOutOfRange, log := log }
    | some tag => deployResolved B s profile env tag log

/-- Whether a call is an image build, an ECR call or a registry push. -/
def Call.isBuildOrRegistry : Call → Bool
  | .EcsdeployBuild _ _ _ _ _ => true
  | .DescribeRepositories _ => true
  | .CreateRepository _ => true
  | .GetAuthorizationToken => true
  | .EcsdeployPush _ _ _ => true
  | _ => false

/-- The image a call hands to the deploy driver, if the call invokes it. -/
def Call.deployImage : Call → Option String
  | .EcsdeployDeploy opts => some opts.Image
  | _ => none

/-- A host on which every path is absolute and every Dockerfile exists. -/
def plainHost : Host :=
  { GetString := fun key => if key = "DOCKER_REGISTRY" then "registry.test" else "/work"
    IsAbs := fun _ => true
    Abs := fun path => .ok path
    Rel := fun _ target => .ok target
    Stat := fun _ => none }

/-- A backend in which every call succeeds and the repository exists. -/
def okBackend : Backend :=
  { EcsdeployBuild := fun _ => none
    DescribeRepositories := fun _ => (some [{ RepositoryUri := some "registry.test/acme-web" }], none)
    CreateRepository := fun _ => none
    GetAuthorizationToken := fun _ => .ok [some "QVdTOnB3"]
    EcsdeployPush := fun _ => none
    DescribeTaskDefinition := fun _ => .ok (some "arn:aws:ecs:task-definition/dev-web:7")
    EcsdeployDeploy := fun _ => none }

/-- The backend `okBackend` except that the repository does not exist and ECR reports
this as an error, with an empty output. -/
def missingRepositoryBackend : Backend :=
  { okBackend with DescribeRepositories := fun _ => (some [], some ecs.repositoryNotFound) }

/-- The service of `ize deploy --image nginx web`: an image reference without a tag. -/
def webUntagged : Service := { Name := "web", Image := "nginx", EcsCluster := "dev-acme" }

/-- The service of `ize deploy --image nginx:1.25 web`. -/
def webTagged : Service := { Name := "web", Image := "nginx:1.25", EcsCluster := "dev-acme" }

/-- The service `web` built from its path. -/
def webFromPath : Service := { Name := "web", Path := "/work/apps/web", EcsCluster := "dev-acme" }

end deploy

/-! ## Further definitions for the tear-down of a container service -/

/-- The dynamic kind of an error value: what `errors.As` and a type switch can see of
it, its message text apart. -/
inductive ErrKind where
  | plain
  | aws
  | wrapped
  deriving DecidableEq, Repr

/-- The kind of an error value. -/
def GoError.kind : GoError → ErrKind
  | .plain _ => .plain
  | .aws _ _ => .aws
  | .wrap _ _ => .wrapped
  | .wrapf _ _ _ => .wrapped

/-- Whether two results are of the same kind: both nil, both a panic, or both an error
of the same dynamic kind, whatever the message texts. -/
def Ret.sameKind : Ret → Ret → Bool
  | .nil, .nil => true
  | .err a, .err b => a.kind = b.kind
  | .panic _, .panic _ => true
  | _, _ => false

namespace ecs

/-- Whether a call requests the deregistration of a task definition. -/
def Call.isDeregister : Call → Bool
  | .DeregisterTaskDefinition _ => true
  | _ => false

/-- The calls made when `Manager.Destroy` asks the operator: the listing, then the
text, the bullet list of the listed task definitions and the confirmation prompt. -/
def promptLog (e : Manager) (log : List Call) (arns : List String) : List Call :=
  log ++ [listCall e] ++
    [Call.Printfln "this will destroy the following:", Call.BulletList arns,
      Call.Confirm "Continue?"]

/-- The backend `okBackend` except that the operator declines the confirmation. -/
def declineBackend : Backend :=
  { okBackend with Confirm := fun _ => .ok false }

/-- The backend `okBackend` except that listing the task definitions fails. -/
def listFailsBackend : Backend :=
  { okBackend with ListTaskDefinitions := fun _ => .error (.aws "AccessDeniedException" "denied") }

/-- A backend without the cluster of the app: `ListTasks` answers
`ClusterNotFoundException`, and no task definition is listed. -/
def noClusterBackend : Backend :=
  { okBackend with
    ListTasks := fun _ => some (.aws "ClusterNotFoundException" "Cluster not found.")
    ListTaskDefinitions := fun _ => .ok [] }

/-- A manager of the service `web` in the cluster `dev-acme`. -/
def webInCluster : Manager :=
  { Project := acme, App := { Name := "web", Cluster := "dev-acme" } }

end ecs

namespace ecs

/-- Whether a call emits a warning to the operator. -/
def Call.isWarning : Call → Bool
  | .Warning _ => true
  | _ => false

/-- A manager of the service `web` with accelerated health checks in a project that
prefers the `docker` runtime. -/
def webUnsafeDocker : Manager :=
  { Project := { acme with PreferRuntime := "docker" }
    App := { Name := "web", ServiceName := "dev-web", Unsafe := true } }

/-- A manager of the service `web` with accelerated health checks in a project that
prefers the `native` runtime. -/
def webUnsafeNative : Manager :=
  { Project := acme, App := { Name := "web", ServiceName := "dev-web", Unsafe := true } }

end ecs

/-! ## The per-app task of `UpAppsOptions.Run` (`internal/commands/up_apps.go`) -/

/-- The `Project` pointer of a manager value. -/
def Pipeline.Project : Pipeline → config.Project
  | .ecs m => m.Project
  | .serverless m => m.Project
  | .aliasM m => m.Project

namespace commands

/-- The text of the error of line 112 of `up_apps.go`. -/
def cantDetectProfile : String :=
  "can't detect aws_profile. Please set it via env var (AWS_PROFILE) or in ize.toml"

/-- Lines 107-114 of the task that `UpAppsOptions.Run` passes to
`manager.InDependencyOrder`: the project configuration afterwards and the value of the
local `err`. -/
def fillAwsProfile (cfg : config.Project) : config.Project × Option GoError :=
  if cfg.AwsProfile = "" then
    match cfg.Terraform "infra" with
    | some v => ({ cfg with AwsProfile := v.AwsProfile }, none)
    | none => (cfg, some (.plain cantDetectProfile))
  else (cfg, none)

/-- Result of the per-app task: what it returned, the project configuration as lines
107-114 left it (the one `deployApp` is called with), the value `err` had before line
116 assigned to it again, and the result of `deployApp`. -/
structure UpTaskResult (W : Type) where
  ret : Ret
  Config : config.Project
  detected : Option GoError
  deploy : DeployAppResult W

/-- The per-app task of `UpAppsOptions.Run` (lines 106-122). Line 116 assigns the result
of `deployApp` to `err`, whatever `err` held. -/
def upAppsTask {W : Type} (I : Impl W) (cfg : config.Project) (name : String) (w : W) :
    UpTaskResult W :=
  let f := fillAwsProfile cfg
  let r := deployApp I name f.1 false w
  { ret := r.ret, Config := f.1, detected := f.2, deploy := r }

/-- Manager implementations all of whose stages succeed, over a trivial world. -/
def stagesAlwaysOk : Impl Unit :=
  { ecs := { Build := fun m w => (.nil, m, w), Push := fun m w => (.nil, m, w),
             Deploy := fun m w => (.nil, m, w), Explain := fun m w => (.nil, m, w) }
    serverless := { Build := fun m w => (.nil, m, w), Push := fun m w => (.nil, m, w),
                    Deploy := fun m w => (.nil, m, w), Explain := fun m w => (.nil, m, w) }
    aliasM := { Build := fun m w => (.nil, m, w), Push := fun m w => (.nil, m, w),
                Deploy := fun m w => (.nil, m, w), Explain := fun m w => (.nil, m, w) } }

/-- A project with the container service `web`, no profile of its own and no Terraform
`infra` entry. -/
def noProfileProject : config.Project :=
  { Env := "dev", Namespace := "acme"
    Ecs := fun n => if n = "web" then some {} else none }

/-- A project with the container service `web`, no profile of its own and the profile
`ops` in its Terraform `infra` entry. -/
def infraProfileProject : config.Project :=
  { Env := "dev", Namespace := "acme"
    Terraform := fun n => if n = "infra" then some { AwsProfile := "ops" } else none
    Ecs := fun n => if n = "web" then some {} else none }

end commands

namespace down

/-- Options of `ize down --auto-approve` for a project with the profile `dev` of its
own and the profile `ops` in its Terraform `infra` entry. -/
def downAllOwnProfile : DownOptions :=
  { Config :=
      { Env := "dev", Namespace := "acme", AwsProfile := "dev"
        Terraform := fun n => if n = "infra" then some { AwsProfile := "ops" } else none
        Ecs := fun n => if n = "web" then some {} else none }
    AutoApprove := true }

end down

namespace ecs

/-- Whether the answer to a `ListTasks` probe is an AWS error with the code
`ServiceNotFoundException`. -/
def isServiceNotFound (answer : Option GoError) : Bool :=
  answer.bind GoError.asAws = some "ServiceNotFoundException"

/-- What `getEcsServiceName` is to return for the candidate `v` once the answer to its
probe is not `ServiceNotFoundException`: the candidate if there is no error; the error
`ECS cluster ... not found` and no name for `ClusterNotFoundException`; the error and
no name for any other AWS error; the error and the candidate for an error that carries
no AWS code. -/
def settled (cluster v : String) : Option GoError → String × Option GoError
  | none => (v, none)
  | some err =>
    match err.asAws with
    | some code =>
      if code = "ClusterNotFoundException" then
        ("", some (.plain ("ECS cluster " ++ cluster ++ " not found")))
      else ("", some err)
    | none => (v, some err)

/-- A backend whose `ListTasks` fails with an error that is no AWS error. -/
def timeoutBackend : Backend :=
  { okBackend with ListTasks := fun _ => some (.plain "dial tcp: i/o timeout") }

/-- A backend in which only the third candidate name is a service of the cluster. -/
def thirdNameBackend : Backend :=
  { okBackend with
    ListTasks := fun log =>
      if log.length < 3 then some (.aws "ServiceNotFoundException" "Service not found.")
      else none }

end ecs

/-! ## The command `down` (`NewCmdDown`, `Complete`, `Validate`, `Run` of `down.go`) -/

namespace down

/-- What the `RunE` of `NewCmdDown` did, in order: the warning of line 65, the three
phases, and the function that `Run` dispatched to. -/
inductive Step where
  | Warning
  | Complete
  | Validate
  | Run
  | destroyAll
  | destroyApp
  deriving DecidableEq, Repr

/-- Collaborators of the command outside the sources at hand: the requirement check and
the loader of `internal/config`, and `destroyAll`, whose scheduler
(`apps.InReversDependencyOrder`) and Terraform runner are outside as well; only its
result is taken. -/
structure CmdEnv (W : Type) where
  CheckRequirements : Option GoError
  GetConfig : Except GoError config.Project
  destroyAll : DownOptions → W → Ret × W

/-- Lines 114-124 of `Complete`: the settings of the Terraform `infra` entry that are
empty are filled from the project. Line 119 assigns to `AwsProfile`. -/
def fillInfra (cfg : config.Project) (infra : config.Terraform) : config.Terraform :=
  let infra :=
    if infra.AwsProfile = "" then { infra with AwsProfile := cfg.AwsProfile } else infra
  let infra :=
    if infra.AwsRegion = "" then { infra with AwsProfile := cfg.AwsRegion } else infra
  let infra :=
    if infra.Version = "" then { infra with Version := cfg.TerraformVersion } else infra
  infra

/-- The function `DownOptions.Complete` of `down.go`; `args` are the positional
arguments, which are also `cmd.Flags().Args()`. -/
def DownOptions.Complete {W : Type} (E : CmdEnv W) (o : DownOptions) :
    List String → Ret × DownOptions
  | [] =>
    match E.CheckRequirements with
    | some err => (.err err, o)
    | none =>
      match E.GetConfig with
      | .error err => (.err (.wrap "can't load options for a command" err), o)
      | .ok cfg =>
        let cfg : config.Project :=
          if cfg.TerraformNil then
            { cfg with
              TerraformNil := false
              Terraform := fun n => if n = "infra" then some {} else none }
          else cfg
        match cfg.Terraform "infra" with
        | none => (.panic nilDereference, { o with Config := cfg })
        | some infra =>
          (.nil, { o with
            Config := { cfg with
              Terraform := commands.setKey cfg.Terraform "infra" (fillInfra cfg infra) } })
  | appName :: _ =>
    match E.GetConfig with
    | .error err => (.err (.wrap "can't load options for a command" err), o)
    | .ok cfg => (.nil, { o with Config := cfg, AppName := appName })

/-- The function `validateAll` of `down.go`. -/
def validateAll (o : DownOptions) : Ret :=
  if o.Config.Env.length = 0 then
    .err (.plain "can't validate options: env must be specified")
  else if o.Config.Namespace.length = 0 then
    .err (.plain "can't validate options: namespace must be specified")
  else .nil

/-- The function `DownOptions.Validate` of `down.go`. -/
def DownOptions.Validate (o : DownOptions) : Ret :=
  if o.AppName = "" then validateAll o else validate o

/-- Result of the command: what it returned, the options and the world afterwards, and
what it did. -/
structure RunEResult (W : Type) where
  ret : Ret
  o : DownOptions
  world : W
  steps : List Step

/-- The function `DownOptions.Run` of `down.go`: `destroyAll` for an empty app name,
`destroyApp` otherwise. -/
def DownOptions.Run {W : Type} (E : CmdEnv W) (I : DestroyImpl W) (o : DownOptions) (w : W) :
    Ret × W × Step :=
  if o.AppName = "" then
    let r := E.destroyAll o w
    (r.1, r.2, .destroyAll)
  else
    let r := destroyApp I o w
    (r.ret, r.world, .destroyApp)

/-- The `RunE` of `NewCmdDown` (lines 62-85); `o.AutoApprove` is the flag
`--auto-approve`. -/
def RunE {W : Type} (E : CmdEnv W) (I : DestroyImpl W) (o : DownOptions)
    (args : List String) (w : W) : RunEResult W :=
  if args.length = 0 ∧ o.AutoApprove = false then
    { ret := .nil, o := o, world := w, steps := [.Warning] }
  else
    let c := o.Complete E args
    match c.1 with
    | .nil =>
      match c.2.Validate with
      | .nil =>
        let r := c.2.Run E I w
        { ret := r.1, o := c.2, world := r.2.1, steps := [.Complete, .Validate, .Run, r.2.2] }
      | other => { ret := other, o := c.2, world := w, steps := [.Complete, .Validate] }
    | other => { ret := other, o := c.2, world := w, steps := [.Complete] }

/-- An environment in which the configuration loads, with the container service `web`
and a Terraform `infra` entry, and `destroyAll` succeeds. -/
def loadedEnv : CmdEnv Unit :=
  { CheckRequirements := none
    GetConfig := .ok
      { Env := "dev", Namespace := "acme", AwsProfile := "dev"
        Terraform := fun n => if n = "infra" then some { AwsProfile := "ops" } else none
        Ecs := fun n => if n = "web" then some {} else none }
    destroyAll := fun _ w => (.nil, w) }

/-- The options of a fresh command, `--auto-approve` not given. -/
def freshOptions : DownOptions := { Config := {} }

end down

/-! ## The session bridge (`pkg/ssmsession`) and the command `exec`
(`internal/commands/exec/exec.go`) -/

namespace ssmsession

/-- The constant `ssmPluginBinaryName`. -/
def ssmPluginBinaryName : String := "session-manager-plugin"

/-- The constant `startSessionAction`. -/
def startSessionAction : String := "StartSession"

/-- An `ecs.Session` as returned by `ExecuteCommand`. -/
structure Session where
  SessionId : String := ""
  StreamUrl : String := ""
  TokenValue : String := ""
  deriving DecidableEq, Repr

/-- The type `SSMPluginCommand`; its runner is part of the backend. -/
structure SSMPluginCommand where
  region : String
  deriving DecidableEq, Repr

/-- The function `NewSSMPluginCommand`. -/
def NewSSMPluginCommand (region : String) : SSMPluginCommand := { region := region }

/-- The one call of `Start` to a collaborator: the run of a command through the
runner. -/
inductive Call where
  | InteractiveRun (name : String) (args : List String)
  deriving DecidableEq, Repr

/-- The collaborators of `Start`: `json.Marshal` of the session pointer, and the runner,
which answers with the standard output and the error of the run. -/
structure Backend where
  Marshal : Option Session → Except GoError String
  InteractiveRun : List Call → String × Option GoError

/-- Go `strings.Contains`. -/
def Contains (s sub : String) : Bool :=
  s.data.tails.any (fun t => sub.data.isPrefixOf t)

/-- The function `SSMPluginCommand.Start` of `ssmsession.go`: its result and the calls
made. -/
def SSMPluginCommand.Start (B : Backend) (s : SSMPluginCommand) (ssmSession : Option Session)
    (log : List Call) : Ret × List Call :=
  match B.Marshal ssmSession with
  | .error err => (.err (.wrap "marshal session response" err), log)
  | .ok response =>
    let log := log ++ [Call.InteractiveRun ssmPluginBinaryName
      [response, s.region, startSessionAction]]
    let r := B.InteractiveRun log
    match r.2 with
    | some err => (.err (.wrap "start session" err), log)
    | none =>
      if Contains r.1 "ERROR" then (.err (.plain "exit status: 1"), log)
      else (.nil, log)

end ssmsession

namespace exec

/-- Fields of `ExecOptions`. -/
structure ExecOptions where
  Config : config.Config
  ServiceName : String := ""
  EcsCluster : String := ""
  Command : String := ""
  deriving DecidableEq, Repr

/-- The calls of `ExecOptions.Run` to its collaborators; those of the session bridge
are wrapped in `Plugin`. -/
inductive Call where
  | ListTasks (cluster : String) (serviceName : String)
  | ExecuteCommand (container : String) (cluster : String) (task : String)
      (command : String)
  | Plugin (c : ssmsession.Call)
  deriving DecidableEq, Repr

/-- The answers of the collaborators of `ExecOptions.Run`, each a function of the calls
made so far, the call being answered last. -/
structure Backend where
  /-- Answer of `ListTasks`: an error, or `lto.TaskArns`. -/
  ListTasks : List Call → Except GoError (List String)
  /-- Answer of `ExecuteCommand`: an error, or the pointer `out.Session`. -/
  ExecuteCommand : List Call → Except GoError (Option ssmsession.Session)
  Marshal : Option ssmsession.Session → Except GoError String
  InteractiveRun : List Call → String × Option GoError

/-- The backend of the session bridge when `Run` has made the calls `log`. -/
def Backend.plugin (B : Backend) (log : List Call) : ssmsession.Backend :=
  { Marshal := B.Marshal
    InteractiveRun := fun cs => B.InteractiveRun (log ++ cs.map Call.Plugin) }

/-- What `ExecOptions.Run` ends in: its result, the calls made, and the result of
`ssmCmd.Start` if `Run` got that far. -/
structure Out where
  ret : Ret
  log : List Call
  start : Option Ret
  deriving DecidableEq, Repr

/-- The function `ExecOptions.Run` of `exec.go`. Line 141 calls `ssmCmd.Start` without
assigning its result; the test of line 142 reads `err` of line 127, which is nil
there. -/
def ExecOptions.Run (B : Backend) (o : ExecOptions) (log : List Call) : Out :=
  let serviceName := o.Config.Env ++ "-" ++ o.ServiceName
  let log := log ++ [Call.ListTasks o.EcsCluster serviceName]
  match B.ListTasks log with
  | .error err => { ret := .err err, log := log, start := none }
  | .ok [] => { ret := .err (.plain "running task not found\n"), log := log, start := none }
  | .ok (task :: _) =>
    let log := log ++ [Call.ExecuteCommand o.ServiceName o.EcsCluster task o.Command]
    match B.ExecuteCommand log with
    | .error err => { ret := .err err, log := log, start := none }
    | .ok session =>
      let ssmCmd := ssmsession.NewSSMPluginCommand o.Config.AwsRegion
      let st := ssmCmd.Start (B.plugin log) session []
      let err : Option GoError := none
      match err with
      | some err => { ret := .err err, log := log ++ st.2.map Call.Plugin, start := some st.1 }
      | none => { ret := .nil, log := log ++ st.2.map Call.Plugin, start := some st.1 }

/-- The options of `ize exec web -- sh` in the project `dev`/`acme`. -/
def execWeb : ExecOptions :=
  { Config := { Env := "dev", Namespace := "acme", AwsProfile := "ops", AwsRegion := "us-east-1" }
    ServiceName := "web", EcsCluster := "dev-acme", Command := "sh" }

/-- A backend with one running task that accepts the command, on a host where the
session-manager plugin cannot be started. -/
def noPluginBackend : Backend :=
  { ListTasks := fun _ => .ok ["arn:aws:ecs:task/dev-acme/1"]
    ExecuteCommand := fun _ => .ok (some { SessionId := "s-1", TokenValue := "t" })
    Marshal := fun _ => .ok "session"
    InteractiveRun := fun _ => ("", some (.plain "executable file not found in $PATH")) }

/-- The backend `noPluginBackend` except that the plugin starts and prints an error. -/
def pluginErrorBackend : Backend :=
  { noPluginBackend with InteractiveRun := fun _ => ("ERROR: cannot connect", none) }

end exec

/-! ## The function manager (`internal/manager/serverless/native.go`) -/

/-- The characters of `fmt.Sprintf(format, args...)` for a format whose only verbs are
`%s` and operands that are strings; a verb without operand renders as Go renders it. -/
def sprintfChars : List Char → List String → List Char
  | '%' :: 's' :: rest, a :: args => a.data ++ sprintfChars rest args
  | '%' :: 's' :: rest, [] => "%!s(MISSING)".data ++ sprintfChars rest []
  | c :: rest, args => c :: sprintfChars rest args
  | [], _ => []

/-- Go `fmt.Sprintf` for `%s` verbs and string operands, as many operands as verbs. -/
def Sprintf (format : String) (args : List String) : String :=
  String.mk (sprintfChars format.data args)

/-- The characters of `strings.ReplaceAll` for a non-empty `old`: occurrences are found
from the left and do not overlap; `skip` counts the characters of an occurrence still
to be passed over. -/
def replaceChars (old new : List Char) : Nat → List Char → List Char
  | _, [] => []
  | skip + 1, _ :: cs => replaceChars old new skip cs
  | 0, c :: cs =>
    if old.isPrefixOf (c :: cs) then new ++ replaceChars old new (old.length - 1) cs
    else c :: replaceChars old new 0 cs

/-- Go `strings.ReplaceAll(s, old, new)` for a non-empty `old`. -/
def ReplaceAll (s old new : String) : String :=
  String.mk (replaceChars old.data new.data 0 s.data)

/-- Go `unicode.IsSpace`. -/
def isSpace (c : Char) : Bool :=
  c.toNat ∈ [0x09, 0x0A, 0x0B, 0x0C, 0x0D, 0x20, 0x85, 0xA0, 0x1680, 0x2028, 0x2029, 0x202F,
    0x205F, 0x3000] || (0x2000 ≤ c.toNat && c.toNat ≤ 0x200A)

/-- Go `strings.TrimSpace`. -/
def TrimSpace (s : String) : String :=
  String.mk ((s.data.dropWhile isSpace).reverse.dropWhile isSpace).reverse

namespace serverless

/-- The raw string of the `Sprintf` of line 150 of `native.go` (`runDeploy`, version 3 of the
framework), tabs and line ends as in the source. -/
def deployFormatV3 : String :=
  "source %s/nvm.sh && \n" ++
  "\t\t\t\tnvm use %s &&\n" ++
  "\t\t\t\tnpx serverless deploy \\\n" ++
  "\t\t\t\t--config=%s \\\n" ++
  "\t\t\t\t--param=\"service=%s\" \\\n" ++
  "\t\t\t\t--region=%s \\\n" ++
  "\t\t\t\t--aws-profile=%s \\\n" ++
  "\t\t\t\t--stage=%s \\\n" ++
  "\t\t\t\t--verbose"

/-- The raw string of the `Sprintf` of line 164 (`runDeploy`, other versions). -/
def deployFormatLegacy : String :=
  "source %s/nvm.sh && \n" ++
  "\t\t\t\tnvm use %s &&\n" ++
  "\t\t\t\tnpx serverless deploy \\\n" ++
  "\t\t\t\t--config %s \\\n" ++
  "\t\t\t\t--service %s \\\n" ++
  "\t\t\t\t--verbose \\\n" ++
  "\t\t\t\t--region %s \\\n" ++
  "\t\t\t\t--aws-profile %s \\\n" ++
  "\t\t\t\t--stage %s"

/-- The raw string of lines 184-185, appended by `runDeploy` when `Force` is set. -/
def forceSuffix : String :=
  " \\\n" ++
  "\t\t--force"

/-- The raw string of the `Sprintf` of line 225 (`runRemove`, version 3 of the framework). -/
def removeFormatV3 : String :=
  "source %s/nvm.sh && \\\n" ++
  "\t\t\t\tnvm use %s && \\\n" ++
  "\t\t\t\tnpx serverless remove \\\n" ++
  "\t\t\t\t--config=%s \\\n" ++
  "\t\t\t\t--param=\"service=%s\" \\\n" ++
  "\t\t\t\t--region=%s \\\n" ++
  "\t\t\t\t--aws-profile=%s \\\n" ++
  "\t\t\t\t--stage=%s \\\n" ++
  "\t\t\t\t--verbose"

/-- The raw string of the `Sprintf` of line 239 (`runRemove`, other versions). -/
def removeFormatLegacy : String :=
  "source %s/nvm.sh && \\\n" ++
  "\t\t\t\tnvm use %s && \\\n" ++
  "\t\t\t\tnpx serverless remove \\\n" ++
  "\t\t\t\t--config %s \\\n" ++
  "\t\t\t\t--service %s \\\n" ++
  "\t\t\t\t--verbose \\\n" ++
  "\t\t\t\t--region %s \\\n" ++
  "\t\t\t\t--aws-profile %s \\\n" ++
  "\t\t\t\t--stage %s"

/-- The function `npmToYarn` of `native.go`. -/
def npmToYarn (cmd : String) : String :=
  let cmd := ReplaceAll cmd "npm" "yarn"
  ReplaceAll cmd "npx" "yarn"

/-- The calls of the function manager to the processes it starts: `cmd.Run()` and
`t.InteractiveRun(cmd)` of a command in a working directory. -/
inductive Call where
  | Run (name : String) (args : List String) (dir : String)
  | InteractiveRun (name : String) (args : List String) (dir : String)
  deriving DecidableEq, Repr

/-- The host and the processes: the environment, `filepath.Join`, whether `os.Stat` of
a path ends in a not-exist error, and the answers of the processes started, each a
function of the calls made so far. `Run` answers with the standard output and the
error, `InteractiveRun` with the standard output, the standard error and the error. -/
structure Backend where
  Getenv : String → String
  Join : String → String → String
  StatNotExist : String → Bool
  Run : List Call → String × Option GoError
  InteractiveRun : List Call → String × String × Option GoError

/-- Lines 386-409 of `installNvm`: the check of an installed nvm. The result is the
value `installNvm` returns there, or `none` if control goes on to the installation. -/
def Manager.checkNvm (B : Backend) (sls : Manager) (nvmDir : String) (log : List Call) :
    Option (String × Option GoError) × List Call :=
  let nvmShPath := B.Join nvmDir "nvm.sh"
  if !B.StatNotExist nvmShPath then
    --check if version is what we expect
    let log := log ++ [Call.Run "bash"
      ["-c", Sprintf "source %s/nvm.sh && nvm --version" [nvmDir]] sls.Project.RootDir]
    let r := B.Run log
    match r.2 with
    | some err => (some ("", some err), log)
    | none =>
      if TrimSpace r.1 = sls.Project.NvmVersion then (some (nvmDir, none), log)
      else (none, log)
  else (none, log)

/-- The function `installNvm` of `native.go`. -/
def Manager.installNvm (B : Backend) (sls : Manager) (log : List Call) :
    (String × Option GoError) × List Call :=
  let nvmDir := B.Getenv "NVM_DIR"
  let nvmDir := if nvmDir = "" then "$HOME/.nvm" else nvmDir
  let checked := sls.checkNvm B nvmDir log
  match checked.1 with
  | some ret => (ret, checked.2)
  | none =>
    -- Install nvm.
    let log := checked.2 ++ [Call.Run "bash"
      ["-c", Sprintf "curl -o- https://raw.githubusercontent.com/nvm-sh/nvm/v%s/install.sh | bash"
        [sls.Project.NvmVersion]] sls.Project.RootDir]
    match (B.Run log).2 with
    | some err => (("", some err), log)
    | none => ((nvmDir, none), log)

/-- Lines 149-177 of `runDeploy`: the command as `fmt.Sprintf` builds it. -/
def Manager.deployBase (sls : Manager) (nvmDir : String) : String :=
  -- SLS v3 has breaking changes in syntax
  if sls.App.ServerlessVersion = "3" then
    Sprintf deployFormatV3
      [nvmDir, sls.App.NodeVersion, sls.App.File,
       sls.App.Name, sls.App.AwsRegion,
       sls.App.AwsProfile, sls.Project.Env]
  else
    Sprintf deployFormatLegacy
      [nvmDir, sls.App.NodeVersion, sls.App.File,
       sls.App.Name, sls.App.AwsRegion,
       sls.App.AwsProfile, sls.Project.Env]

/-- Lines 146-186 of `runDeploy`: the command handed to `bash -c`. -/
def Manager.deployCommand (sls : Manager) (nvmDir : String) : String :=
  let command := sls.deployBase nvmDir
  let command := if sls.App.UseYarn then npmToYarn command else command
  let command := if sls.App.Force then command ++ forceSuffix else command
  command

/-- Lines 224-252 of `runRemove`: the command as `fmt.Sprintf` builds it. -/
def Manager.removeBase (sls : Manager) (nvmDir : String) : String :=
  -- SLS v3 has breaking changes in syntax
  if sls.App.ServerlessVersion = "3" then
    Sprintf removeFormatV3
      [nvmDir, sls.App.NodeVersion, sls.App.File,
       sls.App.Name, sls.App.AwsRegion,
       sls.App.AwsProfile, sls.Project.Env]
  else
    Sprintf removeFormatLegacy
      [nvmDir, sls.App.NodeVersion, sls.App.File,
       sls.App.Name, sls.App.AwsRegion,
       sls.App.AwsProfile, sls.Project.Env]

/-- Lines 221-256 of `runRemove`: the command handed to `bash -c`. -/
def Manager.removeCommand (sls : Manager) (nvmDir : String) : String :=
  let command := sls.removeBase nvmDir
  let command := if sls.App.UseYarn then npmToYarn command else command
  command

/-- Lines 188-211 of `runDeploy` and 258-281 of `runRemove`: the run of the command
through `bash -c` in the directory of the app. -/
def Manager.runBash (B : Backend) (sls : Manager) (command : String) (log : List Call) :
    Ret × List Call :=
  let log := log ++ [Call.InteractiveRun "bash" ["-c", command] sls.App.Path]
  let r := B.InteractiveRun log
  match r.2.2 with
  | some err =>
    -- Return the error along with stderr output
    (.err (.wrapf "command failed with error: " err (", " ++ r.2.1 ++ " " ++ r.1)), log)
  | none => (.nil, log)

/-- The function `runDeploy` of `native.go`. -/
def Manager.runDeploy (B : Backend) (sls : Manager) (log : List Call) : Ret × List Call :=
  let n := sls.installNvm B log
  match n.1.2 with
  | some err => (.err err, n.2)
  | none => sls.runBash B (sls.deployCommand n.1.1) n.2

/-- The function `runRemove` of `native.go`. -/
def Manager.runRemove (B : Backend) (sls : Manager) (log : List Call) : Ret × List Call :=
  let n := sls.installNvm B log
  match n.1.2 with
  | some err => (.err err, n.2)
  | none => sls.runBash B (sls.removeCommand n.1.1) n.2

/-- The steps of `runDeploy` after `fmt.Sprintf` (with `force`) and of `runRemove`
(without): they look at `UseYarn` and `Force` only, not at the version. -/
def finishCommand (useYarn force : Bool) (command : String) : String :=
  let command := if useYarn then npmToYarn command else command
  if force then command ++ forceSuffix else command

/-- The operands of `fmt.Sprintf` according to the specification: the nvm directory and
the node version, then config file, service name, region, profile and stage. -/
def commandArgs (sls : Manager) (nvmDir : String) : List String :=
  [nvmDir, sls.App.NodeVersion, sls.App.File, sls.App.Name, sls.App.AwsRegion,
   sls.App.AwsProfile, sls.Project.Env]

/-- A host with nvm 0.39.7 installed under `/home/dev/.nvm`, on which every command
succeeds. -/
def nvmBackend : Backend :=
  { Getenv := fun _ => "/home/dev/.nvm"
    Join := fun a b => a ++ "/" ++ b
    StatNotExist := fun _ => false
    Run := fun _ => ("0.39.7\n", none)
    InteractiveRun := fun _ => ("", "", none) }

/-- The project of the function-service examples. -/
def acmeSls : config.Project :=
  { Env := "dev", Namespace := "acme", RootDir := "/work", NvmVersion := "0.39.7" }

/-- The function service `api` with version 3 of the framework. -/
def apiV3 : Manager :=
  { Project := acmeSls
    App := { Name := "api", Path := "/work/apps/api", File := "serverless.yml",
             NodeVersion := "18", ServerlessVersion := "3", AwsRegion := "us-east-1",
             AwsProfile := "ops" } }

/-- The function service `api` with version 2 of the framework. -/
def apiV2 : Manager :=
  { apiV3 with App := { apiV3.App with ServerlessVersion := "2" } }

end serverless

namespace serverless

/-- The syntax of version 3 according to the specification: `--flag=value`, the service
passed as `--param="service=<name>"`, with the config file, service name, region,
profile and stage of the app. -/
def usesEqualsSyntax (sls : Manager) (cmd : String) : Prop :=
  ssmsession.Contains cmd ("--config=" ++ sls.App.File) = true ∧
  ssmsession.Contains cmd ("--param=\"service=" ++ sls.App.Name ++ "\"") = true ∧
  ssmsession.Contains cmd ("--region=" ++ sls.App.AwsRegion) = true ∧
  ssmsession.Contains cmd ("--aws-profile=" ++ sls.App.AwsProfile) = true ∧
  ssmsession.Contains cmd ("--stage=" ++ sls.Project.Env) = true

/-- The syntax of the other versions according to the specification: flags and values
separated by a space, the service passed as `--service <name>`, with the same five
values. -/
def usesSpaceSyntax (sls : Manager) (cmd : String) : Prop :=
  ssmsession.Contains cmd ("--config " ++ sls.App.File) = true ∧
  ssmsession.Contains cmd ("--service " ++ sls.App.Name) = true ∧
  ssmsession.Contains cmd ("--region " ++ sls.App.AwsRegion) = true ∧
  ssmsession.Contains cmd ("--aws-profile " ++ sls.App.AwsProfile) = true ∧
  ssmsession.Contains cmd ("--stage " ++ sls.Project.Env) = true

/-- The flag texts of the syntax of version 3. -/
def equalsFlags : List String :=
  ["--config=", "--param=", "--region=", "--aws-profile=", "--stage="]

/-- The flag texts of the syntax of the other versions. -/
def spaceFlags : List String :=
  ["--config ", "--service ", "--region ", "--aws-profile ", "--stage "]

/-- Whether a format has none of the given flag texts. -/
def lacksFlags (format : String) (flags : List String) : Bool :=
  flags.all (fun f => !ssmsession.Contains format f)

end serverless

/-! ## The phases `Complete` and `Validate` of the command `deploy` (`deploy.go`) -/

namespace deploy

/-- Fields of `DeployOptions`. The flags `--image`, `--ecs-cluster` and
`--task-definition-arn` are bound to `Image`, `EcsCluster` and `TaskDefinitionArn`. -/
structure DeployOptions where
  ServiceName : String := ""
  EcsCluster : String := ""
  TaskDefinitionArn : String := ""
  Image : String := ""
  Env : String := ""
  Namespace : String := ""
  Path : String := ""
  Profile : String := ""
  Region : String := ""
  Tag : String := ""
  SkipBuildAndPush : Bool := false
  deriving DecidableEq, Repr

/-- Collaborators of `Complete` outside the sources at hand: the loader of
`internal/config`, viper with the flags of the command bound to it, and the decoding
of the settings of a service. -/
structure CmdEnv where
  InitializeConfig : Option GoError
  /-- Go `viper.GetString`, after `viper.BindPFlags(cmd.Flags())`. -/
  GetString : String → String
  /-- Result of `mapstructure.Decode(viper.GetStringMap(key), &cfg)`: an error, or
  `cfg.Path`. -/
  DecodeService : String → Except GoError String

/-- Lines 110-117 of `Complete`: the options read from viper. `Tag` is assigned at line
116 and again at line 117. -/
def DeployOptions.readSettings (E : CmdEnv) (o : DeployOptions) : DeployOptions :=
  let o := { o with Env := E.GetString "env" }
  let o := { o with Namespace := E.GetString "namespace" }
  let o := { o with TaskDefinitionArn := E.GetString "task-definition-arn" }
  let o := { o with EcsCluster := E.GetString "ecs-cluster" }
  let o := { o with Region := E.GetString "aws-region" }
  let o := { o with Profile := E.GetString "aws-profile" }
  let o := { o with Tag := E.GetString "tag" }
  let o := { o with Tag := E.GetString "image" }
  o

/-- The function `DeployOptions.Complete` of `deploy.go`; `args` is `cmd.Flags().Args()`,
the positional arguments. -/
def DeployOptions.Complete (E : CmdEnv) (o : DeployOptions) (args : List String) :
    Ret × DeployOptions :=
  match E.InitializeConfig with
  | some err => (.err err, o)
  | none =>
    let o := o.readSettings E
    match args with
    | [] => (.panic indexOutOfRange, o)
    | name :: _ =>
      let o := { o with ServiceName := name }
      match E.DecodeService ("service." ++ o.ServiceName) with
      | .error err => (.err err, o)
      | .ok path =>
        let o := { o with Path := path }
        let o :=
          if o.EcsCluster = "" then { o with EcsCluster := o.Env ++ "-" ++ o.Namespace } else o
        (.nil, o)

/-- Lines 146-173 of `Validate`: the checks of the single options, in order. -/
def DeployOptions.validateFields (o : DeployOptions) : Ret :=
  if o.Env.length = 0 then .err (.plain "env must be specified")
  else if o.Namespace.length = 0 then .err (.plain "namespace must be specified")
  else if o.EcsCluster.length = 0 then .err (.plain "ECS cluster must be specified")
  else if o.Profile.length = 0 then .err (.plain "profile must be specified")
  else if o.Region.length = 0 then .err (.plain "region must be specified")
  else if o.Tag.length = 0 then .err (.plain "tag must be specified")
  else if o.ServiceName.length = 0 then .err (.plain "service name be specified")
  else .nil

/-- The function `DeployOptions.Validate` of `deploy.go`. -/
def DeployOptions.Validate (o : DeployOptions) : Ret × DeployOptions :=
  if o.Image = "" then
    if o.Path = "" then (.err (.plain "image or path must be specified"), o)
    else (o.validateFields, o)
  else
    let o := { o with SkipBuildAndPush := true }
    (o.validateFields, o)

/-- The phases `Complete` and `Validate` as the `RunE` of `NewCmdDeploy` runs them
(lines 72-80): `Validate` only after a `Complete` that returned nil. -/
def completeAndValidate (E : CmdEnv) (o : DeployOptions) (args : List String) :
    Ret × DeployOptions :=
  let c := o.Complete E args
  match c.1 with
  | .nil => c.2.Validate
  | other => (other, c.2)

/-- The settings of a path-based deploy of the service `web`: env, namespace, profile,
region and tag are configured, the service has a path, and there is no setting
`image`, `ecs-cluster` or `task-definition-arn`. -/
def pathDeployEnv : CmdEnv :=
  { InitializeConfig := none
    GetString := fun key =>
      if key = "env" then "dev" else if key = "namespace" then "acme"
      else if key = "aws-region" then "us-east-1" else if key = "aws-profile" then "ops"
      else if key = "tag" then "v1" else ""
    DecodeService := fun key => if key = "service.web" then .ok "/work/apps/web" else .ok "" }

/-- The references that a call hands to the push collaborator. -/
def Call.pushedImages : Call → List String
  | .EcsdeployPush images _ _ => images
  | _ => []

/-- The references pushed to the registry in a sequence of calls. -/
def pushedReferences (log : List Call) : List String :=
  log.flatMap Call.pushedImages

/-- The images handed to the deploy driver in a sequence of calls. -/
def deployedImages (log : List Call) : List String :=
  log.filterMap Call.deployImage

end deploy

namespace down

/-- An environment in which the configuration loads with profile, region and Terraform
version of the project set, and a Terraform `infra` entry that has a profile of its
own and neither region nor version. -/
def infraProfileEnv : CmdEnv Unit :=
  { CheckRequirements := none
    GetConfig := .ok
      { Env := "dev", Namespace := "acme", AwsProfile := "dev", AwsRegion := "us-east-1"
        TerraformVersion := "1.5.7"
        Terraform := fun n => if n = "infra" then some { AwsProfile := "ops" } else none }
    destroyAll := fun _ w => (.nil, w) }

/-- The environment `infraProfileEnv` with an `infra` entry in which nothing is set. -/
def infraEmptyEnv : CmdEnv Unit :=
  { infraProfileEnv with
    GetConfig := .ok
      { Env := "dev", Namespace := "acme", AwsProfile := "dev", AwsRegion := "us-east-1"
        TerraformVersion := "1.5.7"
        Terraform := fun n => if n = "infra" then some {} else none } }

end down

/-! ## The phase `Complete` of the command `exec` (`exec.go`) -/

namespace exec

/-- The run-time panic of an index expression beyond the length of the slice. -/
def indexOutOfRange : String := "runtime error: index out of range"

/-- The run-time panic of a slice expression whose bounds are out of range. -/
def sliceBoundsOutOfRange : String := "runtime error: slice bounds out of range"

/-- Go `args[low:]` for an index of type `int`: the elements from position `low` on, or
`none` for the run-time panic when `low` is negative or beyond the length. -/
def sliceFrom (args : List String) (low : Int) : Option (List String) :=
  if low < 0 ∨ (args.length : Int) < low then none else some (args.drop low.toNat)

/-- Go `strings.Join(elems, sep)`. -/
def Join : List String → String → String
  | [], _ => ""
  | [a], _ => a
  | a :: b :: rest, sep => a ++ sep ++ Join (b :: rest) sep

/-- Collaborator of `Complete` outside the sources at hand: the loader of
`internal/config`, with its error or the configuration. -/
structure CmdEnv where
  InitializeConfig : Except GoError config.Config

/-- The function `ExecOptions.Complete` of `exec.go`; `args` are the positional
arguments, which are also `cmd.Flags().Args()`, and `argsLenAtDash` is what
`cmd.ArgsLenAtDash()` reported (line 38). -/
def ExecOptions.Complete (E : CmdEnv) (o : ExecOptions) (args : List String)
    (argsLenAtDash : Int) : Ret × ExecOptions :=
  match E.InitializeConfig with
  | .error err => (.err err, o)
  | .ok cfg =>
    let o := { o with Config := cfg }
    let o :=
      if o.EcsCluster = "" then
        { o with EcsCluster := o.Config.Env ++ "-" ++ o.Config.Namespace }
      else o
    match args with
    | [] => (.panic indexOutOfRange, o)
    | name :: _ =>
      let o := { o with ServiceName := name }
      match sliceFrom args argsLenAtDash with
      | none => (.panic sliceBoundsOutOfRange, o)
      | some rest => (.nil, { o with Command := Join rest " " })

/-- An environment in which the configuration of the project `dev`/`acme` loads. -/
def loadedEnv : CmdEnv :=
  { InitializeConfig := .ok
      { Env := "dev", Namespace := "acme", AwsProfile := "ops", AwsRegion := "us-east-1" } }

/-- The options of a fresh command, `--ecs-cluster` not given. -/
def freshOptions : ExecOptions := { Config := {} }

end exec

/-! ## The package-manager rewriting of the function manager (`native.go`) -/

namespace serverless

/-- The format of the `Sprintf` of line 22 of `native.go` (`runNpmInstall`). -/
def npmInstallFormat : String :=
  "source %s/nvm.sh && nvm use %s && npm install --save-dev"

/-- Lines 17-26 of `runNpmInstall`: the command handed to `bash -c`. -/
def Manager.npmInstallCommand (B : Backend) (sls : Manager) : String :=
  let nvmDir := B.Getenv "NVM_DIR"
  let nvmDir := if nvmDir = "" then "$HOME/.nvm" else nvmDir
  let command := Sprintf npmInstallFormat [nvmDir, sls.App.NodeVersion]
  let command := if sls.App.UseYarn then npmToYarn command else command
  command

/-- The function `runNpmInstall` of `native.go`; `clean` is Go `filepath.Join` of a
single element. -/
def Manager.runNpmInstall (B : Backend) (clean : String → String) (sls : Manager)
    (log : List Call) : Ret × List Call :=
  let command := sls.npmInstallCommand B
  let log := log ++ [Call.Run "bash" ["-c", command] (clean sls.App.Path)]
  match (B.Run log).2 with
  | some err => (.err err, log)
  | none => (.nil, log)

/-- The command of the last process started in a sequence of calls: the argument after
`-c`. -/
def lastCommand (log : List Call) : Option String :=
  match log.getLast? with
  | some (.Run _ [_, command] _) => some command
  | some (.InteractiveRun _ [_, command] _) => some command
  | _ => none

/-- The function service `npm-proxy` with version 3 of the framework, its config file
`npx.yml`, deployed with yarn. -/
def proxyYarn : Manager :=
  { Project := acmeSls
    App := { Name := "npm-proxy", Path := "/work/apps/npm-proxy", File := "npx.yml",
             NodeVersion := "18", ServerlessVersion := "3", AwsRegion := "us-east-1",
             AwsProfile := "ops", UseYarn := true } }

/-- The function service `npm-proxy` deployed with npm. -/
def proxyNpm : Manager :=
  { proxyYarn with App := { proxyYarn.App with UseYarn := false } }

/-- The host `nvmBackend` with nvm installed under the home of the user `npm`. -/
def npmHomeBackend : Backend :=
  { nvmBackend with Getenv := fun _ => "/home/npm/.nvm" }

end serverless

namespace serverless

/-- The function service `npm-proxy` with version 2 of the framework, deployed with
yarn. -/
def proxyYarnV2 : Manager :=
  { proxyYarn with App := { proxyYarn.App with ServerlessVersion := "2" } }

end serverless

/-! ## Theorems -/

namespace commands

/-- C1. With `isExplain = false`, `deployApp` calls `Build` first, calls `Push` only if
`Build` returned nil and `Deploy` only if `Push` returned nil (the stages called are a
prefix of Build, Push, Deploy), returns the first stage error wrapped with the text of
that stage, and returns nil exactly when all three stages returned nil; the world it
leaves is the one left by the last stage called, so nothing runs after a failed stage.
This holds for every implementation of the three manager types. -/
theorem C1_deployApp_stage_order {W : Type} (I : Impl W) (name : String)
    (cfg : config.Project) (w : W) :
    let b := (selectManager name cfg).call I (fun ms => ms.Build) w
    let p := b.2.1.call I (fun ms => ms.Push) b.2.2
    let d := p.2.1.call I (fun ms => ms.Deploy) p.2.2
    let r := deployApp I name cfg false w
    r.stages.head? = some Stage.Build ∧
    r.stages <+: [Stage.Build, Stage.Push, Stage.Deploy] ∧
    (Stage.Push ∈ r.stages ↔ b.1 = Ret.nil) ∧
    (Stage.Deploy ∈ r.stages ↔ b.1 = Ret.nil ∧ p.1 = Ret.nil) ∧
    (∀ e, b.1 = Ret.err e → r.ret = Ret.err (GoError.wrap "can't build app" e)) ∧
    (∀ e, b.1 = Ret.nil ∧ p.1 = Ret.err e →
      r.ret = Ret.err (GoError.wrap "can't push app" e)) ∧
    (∀ e, b.1 = Ret.nil ∧ p.1 = Ret.nil ∧ d.1 = Ret.err e →
      r.ret = Ret.err (GoError.wrap "can't deploy app" e)) ∧
    (r.ret = Ret.nil ↔ b.1 = Ret.nil ∧ p.1 = Ret.nil ∧ d.1 = Ret.nil) ∧
    (b.1 ≠ Ret.nil → r.world = b.2.2) ∧
    (b.1 = Ret.nil ∧ p.1 ≠ Ret.nil → r.world = p.2.2) ∧
    (b.1 = Ret.nil ∧ p.1 = Ret.nil → r.world = d.2.2) := by
  intro b p d r
  have hr : r = deployApp I name cfg false w := rfl
  clear_value r
  simp only [deployApp, Bool.false_eq_true, if_false] at hr
  change r = (match b.1 with
    | .err e => _
    | .panic msg => _
    | .nil => (match p.1 with
      | .err e => _
      | .panic msg => _
      | .nil => (match d.1 with
        | .err e => _
        | .panic msg => _
        | .nil => _))) at hr
  rcases hb : b.1 with _ | eb | mb
  · rcases hp : p.1 with _ | ep | mp
    · rcases hd : d.1 with _ | ed | md <;>
        · simp only [hb, hp, hd] at hr
          subst hr
          simp [List.IsPrefix, d, p, b]
    · simp only [hb, hp] at hr
      subst hr
      simp [List.IsPrefix, p, b]
    · simp only [hb, hp] at hr
      subst hr
      simp [List.IsPrefix, p, b]
  · simp only [hb] at hr
    subst hr
    simp [List.IsPrefix, b]
  · simp only [hb] at hr
    subst hr
    simp [List.IsPrefix, b]

/-- C2 (as stated, refuted). For the app `api` declared both as a function service and
as a container service, `deployApp` selects the Container manager although the name
is in the function-service set. -/
theorem C2_earlier_kind_does_not_win :
    (overlapProject.Serverless "api").isSome = true ∧
    (selectManager "api" overlapProject).kind = Kind.Container ∧
    (selectManager "api" overlapProject).kind ≠ kindEarlierWins "api" overlapProject := by
  refine ⟨by decide, by decide, by decide⟩

/-- C2 (amended). For every name and every content of the three maps, `deployApp`
selects Container if the name is in the Ecs map, otherwise Alias if it is in the Alias
map, otherwise Function if it is in the Serverless map, otherwise Container: the map
checked last wins. When the name is in at most one of the maps this is the rule of the
specification (Function, else Alias, else Container). -/
theorem C2_selectManager_later_kind_wins (name : String) (cfg : config.Project) :
    (selectManager name cfg).kind = kindLaterWins name cfg ∧
    (((cfg.Serverless name).isSome = true → (cfg.Alias name).isSome = false ∧
        (cfg.Ecs name).isSome = false) →
      ((cfg.Alias name).isSome = true → (cfg.Ecs name).isSome = false) →
      (selectManager name cfg).kind = kindEarlierWins name cfg) := by
  have h1 : (selectManager name cfg).kind = kindLaterWins name cfg := by
    unfold selectManager kindLaterWins
    cases hs : cfg.Serverless name <;> cases ha : cfg.Alias name <;>
      cases he : cfg.Ecs name <;> simp [Pipeline.kind, hs, ha, he]
  refine ⟨h1, ?_⟩
  intro hsa hae
  rw [h1]
  unfold kindLaterWins kindEarlierWins
  cases hs : cfg.Serverless name <;> cases ha : cfg.Alias name <;>
    cases he : cfg.Ecs name <;> simp_all

/-- Witness for C2 (amended): the function service `fn` of a project with disjoint
maps. -/
theorem C2_selectManager_later_kind_wins_witness :
    (selectManager "fn" disjointProject).kind = Kind.Function ∧
    (selectManager "fn" disjointProject).kind = kindEarlierWins "fn" disjointProject := by
  have h := C2_selectManager_later_kind_wins "fn" disjointProject
  refine ⟨?_, h.2 (by decide) (by decide)⟩
  rw [h.1]
  decide

end commands

namespace down

/-- C3 (code evaluated at the failing input). For `ize down ghost`, where `ghost` is in
none of the Serverless, Alias and Ecs maps, the options pass `validate`, yet
`destroyApp` and the per-node task of `destroyAll` leave `appService` nil and the call
of `Destroy` on it panics, with no service `Destroy` run; `deployApp` on the same name
defaults to the Container manager. -/
theorem C3_destroy_on_unset_pipeline_panics :
    validate downGhost = Ret.nil ∧
    (resolveAppService downGhost.Config "ghost").isNone = true ∧
    (destroyApp destroyAlwaysOk downGhost ()).ret = Ret.panic nilDereference ∧
    (destroyApp destroyAlwaysOk downGhost ()).stages = [] ∧
    (destroyAllTask destroyAlwaysOk downGhost "ghost" ()).ret = Ret.panic nilDereference ∧
    (destroyAllTask destroyAlwaysOk downGhost "ghost" ()).stages = [] ∧
    (commands.selectManager "ghost" downGhost.Config).kind = Kind.Container := by
  refine ⟨by decide, by decide, by decide, by decide, by decide, by decide, by decide⟩

/-- For every name that is in none of the three maps, `destroyApp` panics without
running the `Destroy` of any service. -/
theorem destroyApp_unknown_name {W : Type} (I : DestroyImpl W) (o : DownOptions) (w : W)
    (hs : o.Config.Serverless o.AppName = none) (ha : o.Config.Alias o.AppName = none)
    (he : o.Config.Ecs o.AppName = none) :
    (destroyApp I o w).ret = Ret.panic nilDereference ∧ (destroyApp I o w).stages = [] ∧
      (destroyApp I o w).world = w := by
  simp [destroyApp, resolveAppService, hs, ha, he]

end down

namespace manager

/-- Every node that is Succeeded in the state before a run either was known to have
succeeded or succeeds earlier in the run than any start that waits for it. -/
theorem run_start_after_predecessors (g : DependencyGraph) (dir : Direction) :
    ∀ (evs : List Event) (st st1 : Schedule) (S : String → Prop),
      (∀ d, st d = .Succeeded → S d) → run g dir st evs = some st1 →
      ∀ (i : Nat) (n : String), evs.get? i = some (.start n) →
      ∀ d ∈ predecessors g dir n, S d ∨ ∃ j, j < i ∧ evs.get? j = some (.done d .nil) := by
  intro evs
  induction evs with
  | nil => intro st st1 S _ _ i n hi; simp at hi
  | cons e es ih =>
    intro st st1 S hS hrun i n hi d hd
    simp only [run] at hrun
    cases hstep : step g dir st e with
    | none => simp [hstep] at hrun
    | some st2 =>
      simp only [hstep] at hrun
      cases i with
      | zero =>
        simp only [List.get?_cons_zero, Option.some.injEq] at hi
        subst hi
        simp only [step] at hstep
        split at hstep
        · next hg => exact Or.inl (hS d (hg.2.2 d hd))
        · simp at hstep
      | succ k =>
        simp only [List.get?_cons_succ] at hi
        have hS2 : ∀ x, st2 x = .Succeeded → (S x ∨ e = .done x .nil) := by
          intro x hx
          cases e with
          | start m =>
            simp only [step] at hstep
            split at hstep
            · simp only [Option.some.injEq] at hstep
              subst hstep
              simp only [Schedule.set] at hx
              split at hx
              · simp at hx
              · exact Or.inl (hS x hx)
            · simp at hstep
          | done m r =>
            simp only [step] at hstep
            split at hstep
            · simp only [Option.some.injEq] at hstep
              subst hstep
              simp only [Schedule.set] at hx
              split at hx
              · next hxm =>
                subst hxm
                split at hx
                · next hr => subst hr; exact Or.inr rfl
                · simp at hx
              · exact Or.inl (hS x hx)
            · simp at hstep
          | skip m =>
            simp only [step] at hstep
            split at hstep
            · simp only [Option.some.injEq] at hstep
              subst hstep
              simp only [Schedule.set] at hx
              split at hx
              · simp at hx
              · exact Or.inl (hS x hx)
            · simp at hstep
        rcases ih st2 st1 (fun x => S x ∨ e = .done x .nil) hS2 hrun k n hi d hd with h | h
        · rcases h with h | h
          · exact Or.inl h
          · exact Or.inr ⟨0, Nat.succ_pos k, by simp [h]⟩
        · obtain ⟨j, hj, hje⟩ := h
          exact Or.inr ⟨j + 1, Nat.succ_lt_succ hj, by simpa using hje⟩

/-- C4. In every run of the scheduler in direction Up, for every graph (valid DAGs in
particular), a start of the task of node `n` is preceded, strictly earlier in the run,
by the successful return of the task of every node in the `dependsOn` set of `n`; for
the graph db, web (on db), worker (on db), every start of `web` or `worker` comes after
the successful return of the task of `db`. -/
theorem C4_up_starts_after_dependencies_succeeded :
    (∀ (g : DependencyGraph) (evs : List Event) (st : Schedule),
      InDependencyOrder g evs = some st →
      ∀ (i : Nat) (n : String), evs.get? i = some (.start n) →
      ∀ node ∈ g, node.name = n → ∀ d ∈ node.dependsOn,
        ∃ j, j < i ∧ evs.get? j = some (.done d .nil)) ∧
    (∀ (evs : List Event) (st : Schedule), InDependencyOrder dbWebWorker evs = some st →
      ∀ (i : Nat), evs.get? i = some (.start "web") ∨ evs.get? i = some (.start "worker") →
        ∃ j, j < i ∧ evs.get? j = some (.done "db" .nil)) := by
  have general : ∀ (g : DependencyGraph) (evs : List Event) (st : Schedule),
      InDependencyOrder g evs = some st →
      ∀ (i : Nat) (n : String), evs.get? i = some (.start n) →
      ∀ node ∈ g, node.name = n → ∀ d ∈ node.dependsOn,
        ∃ j, j < i ∧ evs.get? j = some (.done d .nil) := by
    intro g evs st hrun i n hi node hnode hname d hd
    have hpred : d ∈ predecessors g .Up n := by
      simp only [predecessors, List.mem_flatMap, List.mem_filter, decide_eq_true_eq]
      exact ⟨node, ⟨hnode, hname⟩, hd⟩
    rcases run_start_after_predecessors g .Up evs _ st (fun _ => False)
      (by intro x hx; simp at hx) hrun i n hi d hpred with h | h
    · exact h.elim
    · exact h
  refine ⟨general, ?_⟩
  intro evs st hrun i hi
  rcases hi with hi | hi
  · exact general dbWebWorker evs st hrun i "web" hi ⟨"web", ["db"]⟩ (by decide) rfl "db"
      (by decide)
  · exact general dbWebWorker evs st hrun i "worker" hi ⟨"worker", ["db"]⟩ (by decide) rfl "db"
      (by decide)

/-- Witness for C4: in the run db, web and worker side by side, `web` starts at
position 2 and `db` has returned nil at an earlier position. -/
theorem C4_up_starts_after_dependencies_succeeded_witness :
    (InDependencyOrder dbWebWorker dbWebWorkerRun).isSome = true ∧
    dbWebWorkerRun.get? 2 = some (.start "web") ∧
    ∃ j, j < 2 ∧ dbWebWorkerRun.get? j = some (.done "db" .nil) := by
  have hrun : (InDependencyOrder dbWebWorker dbWebWorkerRun).isSome = true := by decide
  obtain ⟨st, hst⟩ := Option.isSome_iff_exists.mp hrun
  exact ⟨hrun, by decide,
    C4_up_starts_after_dependencies_succeeded.2 dbWebWorkerRun st hst 2 (Or.inl (by decide))⟩

end manager

namespace ecs

/-- The probes of `getEcsServiceName` add `ListTasks` calls only. -/
theorem getEcsServiceNameLoop_log (B : Backend) (cluster : String) :
    ∀ (cands : List String) (log : List Call),
      ∃ cs, (getEcsServiceNameLoop B cluster cands log).2 = log ++ cs ∧
        ∀ c ∈ cs, c.isListTasks = true := by
  intro cands
  induction cands with
  | nil => intro log; exact ⟨[], by simp [getEcsServiceNameLoop], by simp⟩
  | cons v rest ih =>
    intro log
    simp only [getEcsServiceNameLoop]
    split
    · split
      · exact ⟨[Call.ListTasks cluster v], rfl, by simp [Call.isListTasks]⟩
      · split
        · obtain ⟨cs, hcs, hall⟩ := ih (log ++ [Call.ListTasks cluster v])
          refine ⟨Call.ListTasks cluster v :: cs, by simp [hcs], ?_⟩
          intro c hc
          rcases List.mem_cons.mp hc with h | h
          · subst h; rfl
          · exact hall c h
        · exact ⟨[Call.ListTasks cluster v], rfl, by simp [Call.isListTasks]⟩
    · exact ⟨[Call.ListTasks cluster v], rfl, by simp [Call.isListTasks]⟩

/-- The calls of `prepare` are `ListTasks` calls only. -/
theorem prepare_log (H : Host) (B : Backend) (e : Manager) (log : List Call) :
    ∃ cs, (e.prepare H B log).2 = log ++ cs ∧ ∀ c ∈ cs, c.isListTasks = true := by
  simp only [Manager.prepare, Manager.prepareServiceName]
  split
  · exact getEcsServiceNameLoop_log B _ _ log
  · exact ⟨[], by simp, by simp⟩

theorem preparePath_kept (H : Host) (e : Manager) :
    (e.preparePath H).kept = e.kept ∧
      (e.preparePath H).App.DockerRegistry = e.App.DockerRegistry := by
  simp only [Manager.preparePath, Manager.kept]
  split_ifs <;> simp

theorem prepareCluster_kept (e : Manager) :
    e.prepareCluster.kept = e.kept ∧ e.prepareCluster.App.DockerRegistry = e.App.DockerRegistry := by
  simp only [Manager.prepareCluster, Manager.kept]
  split_ifs <;> simp

theorem prepareRegistry_kept (e : Manager) :
    e.prepareRegistry.kept = e.kept ∧
      e.prepareRegistry.App.DockerRegistry =
        (if e.App.DockerRegistry = "" then e.Project.DockerRegistry
          else e.App.DockerRegistry) := by
  simp only [Manager.prepareRegistry, Manager.kept]
  split_ifs <;> simp

theorem prepareTimeout_kept (e : Manager) :
    e.prepareTimeout.kept = e.kept ∧ e.prepareTimeout.App.DockerRegistry = e.App.DockerRegistry := by
  simp only [Manager.prepareTimeout, Manager.kept]
  split_ifs <;> simp

theorem prepareServiceName_kept (B : Backend) (e : Manager) (log : List Call) :
    (e.prepareServiceName B log).1.kept = e.kept ∧
      (e.prepareServiceName B log).1.App.DockerRegistry = e.App.DockerRegistry := by
  simp only [Manager.prepareServiceName, Manager.kept]
  split_ifs <;> simp

/-- What `prepare` leaves alone, and what it does to the registry. -/
theorem prepare_frame (H : Host) (B : Backend) (e : Manager) (log : List Call) :
    (e.prepare H B log).1.Project = e.Project ∧
    (e.prepare H B log).1.App.Name = e.App.Name ∧
    (e.prepare H B log).1.App.Image = e.App.Image ∧
    (e.prepare H B log).1.App.SkipDeploy = e.App.SkipDeploy ∧
    (e.prepare H B log).1.App.Unsafe = e.App.Unsafe ∧
    (e.prepare H B log).1.App.AwsRegion = e.App.AwsRegion ∧
    (e.prepare H B log).1.App.AwsProfile = e.App.AwsProfile ∧
    (e.prepare H B log).1.App.DockerRegistry =
      (if e.App.DockerRegistry = "" then e.Project.DockerRegistry else e.App.DockerRegistry) := by
  have h1 := preparePath_kept H e
  have h2 := prepareCluster_kept (e.preparePath H)
  have h3 := prepareRegistry_kept (e.preparePath H).prepareCluster
  have h4 := prepareTimeout_kept ((e.preparePath H).prepareCluster).prepareRegistry
  have h5 := prepareServiceName_kept B
    (((e.preparePath H).prepareCluster).prepareRegistry).prepareTimeout log
  have hk : (e.prepare H B log).1.kept = e.kept := by
    rw [Manager.prepare, h5.1, h4.1, h3.1, h2.1, h1.1]
  have hproj : ((e.preparePath H).prepareCluster).Project = e.Project := by
    have := congrArg (fun k => k.1) (h2.1.trans h1.1)
    simpa [Manager.kept] using this
  have hr : (e.prepare H B log).1.App.DockerRegistry =
      (if e.App.DockerRegistry = "" then e.Project.DockerRegistry
        else e.App.DockerRegistry) := by
    rw [Manager.prepare, h5.2, h4.2, h3.2, h2.2, h1.2, hproj]
  simp only [Manager.kept, Prod.mk.injEq] at hk
  exact ⟨hk.1, hk.2.1, hk.2.2.1, hk.2.2.2.1, hk.2.2.2.2.1, hk.2.2.2.2.2.1, hk.2.2.2.2.2.2, hr⟩

/-- A `ListTasks` call is no builder call, no registry call and no driver call. -/
theorem isListTasks_other (c : Call) (h : c.isListTasks = true) :
    c.isBuilder = false ∧ c.isRegistry = false ∧ c.driverImage = none := by
  cases c <;> simp_all [Call.isListTasks, Call.isBuilder, Call.isRegistry, Call.driverImage]

/-- C5. For a manager whose `App.Image` is non-empty, `Build` returns nil and `Push`
returns nil, the only calls either makes are the `ListTasks` probes of `prepare` (no
image-builder call, no `DescribeRepositories`, `CreateRepository`,
`GetAuthorizationToken` or registry push), and `App.Image` is unchanged. -/
theorem C5_explicit_image_skips_build_and_push (H : Host) (B : Backend) (e : Manager)
    (log : List Call) (himg : e.App.Image ≠ "") :
    ((e.Build H B log).ret = Ret.nil ∧ (e.Build H B log).m.App.Image = e.App.Image ∧
      ∃ cs, (e.Build H B log).log = log ++ cs ∧
        ∀ c ∈ cs, c.isBuilder = false ∧ c.isRegistry = false) ∧
    ((e.Push H B log).ret = Ret.nil ∧ (e.Push H B log).m.App.Image = e.App.Image ∧
      ∃ cs, (e.Push H B log).log = log ++ cs ∧
        ∀ c ∈ cs, c.isBuilder = false ∧ c.isRegistry = false) := by
  have hf := prepare_frame H B e log
  have himg2 : (e.prepare H B log).1.App.Image ≠ "" := by rw [hf.2.2.1]; exact himg
  obtain ⟨cs, hcs, hall⟩ := prepare_log H B e log
  have hb : e.Build H B log =
      { ret := .nil, m := (e.prepare H B log).1, log := (e.prepare H B log).2 } := by
    simp only [Manager.Build]
    rw [if_pos himg2]
  have hp : e.Push H B log =
      { ret := .nil, m := (e.prepare H B log).1, log := (e.prepare H B log).2 } := by
    simp only [Manager.Push]
    rw [if_pos himg2]
  rw [hb, hp]
  have hcalls : ∀ c ∈ cs, c.isBuilder = false ∧ c.isRegistry = false := fun c hc =>
    ⟨(isListTasks_other c (hall c hc)).1, (isListTasks_other c (hall c hc)).2.1⟩
  exact ⟨⟨rfl, hf.2.2.1, cs, hcs, hcalls⟩, ⟨rfl, hf.2.2.1, cs, hcs, hcalls⟩⟩

/-- Witness for C5: the service `web` with the explicit image `nginx:1.25`. -/
theorem C5_explicit_image_skips_build_and_push_witness :
    webExplicit.App.Image ≠ "" ∧
    (((webExplicit.Build unixHost okBackend []).ret = Ret.nil ∧
      (webExplicit.Build unixHost okBackend []).m.App.Image = webExplicit.App.Image ∧
      ∃ cs, (webExplicit.Build unixHost okBackend []).log = [] ++ cs ∧
        ∀ c ∈ cs, c.isBuilder = false ∧ c.isRegistry = false) ∧
    ((webExplicit.Push unixHost okBackend []).ret = Ret.nil ∧
      (webExplicit.Push unixHost okBackend []).m.App.Image = webExplicit.App.Image ∧
      ∃ cs, (webExplicit.Push unixHost okBackend []).log = [] ++ cs ∧
        ∀ c ∈ cs, c.isBuilder = false ∧ c.isRegistry = false)) :=
  ⟨by decide, C5_explicit_image_skips_build_and_push unixHost okBackend webExplicit []
    (by decide)⟩

theorem warnUnsafe_log (e : Manager) (log : List Call) :
    ∃ ws, e.warnUnsafe log = log ++ ws ∧ ∀ c ∈ ws, c.driverImage = none := by
  simp only [Manager.warnUnsafe]
  split
  · exact ⟨[_], rfl, by simp [Call.driverImage]⟩
  · exact ⟨[], by simp, by simp⟩

theorem callDriver_log (B : Backend) (e : Manager) (log : List Call) :
    ∃ c, (e.callDriver B log).log = log ++ [c] ∧ c.driverImage = some e.App.Image := by
  simp only [Manager.callDriver]
  split
  · split
    · exact ⟨_, rfl, rfl⟩
    · exact ⟨_, rfl, rfl⟩
  · split
    · exact ⟨_, rfl, rfl⟩
    · exact ⟨_, rfl, rfl⟩

theorem defaultImage_Image (e : Manager) :
    e.defaultImage.App.Image = (if e.App.Image = "" then
      e.App.DockerRegistry ++ "/" ++ (e.Project.Namespace ++ "-" ++ e.App.Name) ++ ":" ++
        (e.Project.Env ++ "-" ++ "latest")
      else e.App.Image) := by
  simp only [Manager.defaultImage]
  split <;> simp_all

/-- The image `deployRun` hands to the driver: the image of the app if set, otherwise
the default built from the registry of the (prepared) app. -/
theorem deployRun_log (B : Backend) (e : Manager) (log : List Call) :
    ∃ cs, (e.deployRun B log).log = log ++ cs ∧
      ∀ c ∈ cs, ∀ image, c.driverImage = some image →
        image = (if e.App.Image = "" then
          e.App.DockerRegistry ++ "/" ++ (e.Project.Namespace ++ "-" ++ e.App.Name) ++ ":" ++
            (e.Project.Env ++ "-" ++ "latest")
          else e.App.Image) := by
  obtain ⟨ws, hws, hwall⟩ := warnUnsafe_log e log
  obtain ⟨c, hc, hci⟩ := callDriver_log B e.defaultImage (e.warnUnsafe log)
  refine ⟨ws ++ [c], by rw [Manager.deployRun, hc, hws, List.append_assoc], ?_⟩
  intro x hx image him
  rcases List.mem_append.mp hx with h | h
  · rw [hwall x h] at him
    simp at him
  · simp only [List.mem_singleton] at h
    subst h
    rw [hci, defaultImage_Image] at him
    exact (Option.some.inj him).symm

/-- After `prepare`, the image `deployRun` hands to the driver is `expectedImage`. -/
theorem deployGate_log (H : Host) (B : Backend) (e : Manager) (log log1 : List Call) :
    ∃ cs, ((e.prepare H B log).1.deployGate B log1).log = log1 ++ cs ∧
      ∀ c ∈ cs, ∀ image, c.driverImage = some image → image = expectedImage e := by
  have hf := prepare_frame H B e log
  simp only [Manager.deployGate]
  split
  · exact ⟨[], by simp, by simp⟩
  · obtain ⟨cs, hcs, hall⟩ := deployRun_log B (e.prepare H B log).1 log1
    refine ⟨cs, hcs, ?_⟩
    intro c hc image him
    rw [hall c hc image him, hf.1, hf.2.1, hf.2.2.1, hf.2.2.2.2.2.2.2]
    simp only [expectedImage]
    by_cases hi : e.App.Image = "" <;> by_cases hr : e.App.DockerRegistry = "" <;>
      simp [hi, hr, String.append_assoc]

/-- C7. Every call of a deployment driver (`deployLocal` or `deployWithDocker`) that
`Manager.Deploy` makes is on an app whose image is the explicit `App.Image` if that is
non-empty, and otherwise `registry/namespace-service:env-latest`, with the registry of
the app or, if that is empty, of the project. -/
theorem C7_deploy_image_reference (H : Host) (B : Backend) (e : Manager) (log : List Call) :
    ∃ cs, (e.Deploy H B log).log = log ++ cs ∧
      ∀ c ∈ cs, ∀ image, c.driverImage = some image → image = expectedImage e := by
  obtain ⟨ps, hps, hpall⟩ := prepare_log H B e log
  have hprep : ∀ c ∈ ps, ∀ image, c.driverImage = some image → image = expectedImage e := by
    intro c hc image him
    rw [(isListTasks_other c (hpall c hc)).2.2] at him
    simp at him
  simp only [Manager.Deploy]
  split
  · split
    · refine ⟨ps ++ [_], by rw [hps, List.append_assoc], ?_⟩
      intro c hc image him
      rcases List.mem_append.mp hc with h | h
      · exact hprep c h image him
      · simp only [List.mem_singleton] at h
        subst h
        simp [Call.driverImage] at him
    · obtain ⟨cs, hcs, hall⟩ := deployGate_log H B e log
        ((e.prepare H B log).2 ++
          [Call.GetSession (e.prepare H B log).1.App.AwsRegion
            (e.prepare H B log).1.App.AwsProfile (e.prepare H B log).1.Project.EndpointUrl] ++
          [Call.SettingAWSClient])
      refine ⟨ps ++ [Call.GetSession (e.prepare H B log).1.App.AwsRegion
          (e.prepare H B log).1.App.AwsProfile (e.prepare H B log).1.Project.EndpointUrl,
        Call.SettingAWSClient] ++ cs, by rw [hcs, hps]; simp, ?_⟩
      intro c hc image him
      rcases List.mem_append.mp hc with h | h
      · rcases List.mem_append.mp h with h | h
        · exact hprep c h image him
        · simp only [List.mem_cons, List.mem_singleton, List.not_mem_nil, or_false] at h
          rcases h with h | h <;> subst h <;> simp [Call.driverImage] at him
      · exact hall c h image him
  · obtain ⟨cs, hcs, hall⟩ := deployGate_log H B e log (e.prepare H B log).2
    refine ⟨ps ++ cs, by rw [hcs, hps, List.append_assoc], ?_⟩
    intro c hc image him
    rcases List.mem_append.mp hc with h | h
    · exact hprep c h image him
    · exact hall c h image him

/-- Witness for C7: `web` without an explicit image reaches `deployLocal` with the
default image of the project registry. -/
theorem C7_deploy_image_reference_witness :
    (webDefault.Deploy unixHost okBackend []).log.filterMap Call.driverImage =
      ["registry.test/acme-web:dev-latest"] ∧
    expectedImage webDefault = "registry.test/acme-web:dev-latest" ∧
    ∃ cs, (webDefault.Deploy unixHost okBackend []).log = [] ++ cs ∧
      ∀ c ∈ cs, ∀ image, c.driverImage = some image → image = expectedImage webDefault :=
  ⟨by decide, by decide, C7_deploy_image_reference unixHost okBackend webDefault []⟩

/-- The value of `Manager.Deploy` for a manager with `SkipDeploy` set. -/
theorem Deploy_skipped (H : Host) (B : Backend) (e : Manager) (log : List Call)
    (hskip : e.App.SkipDeploy = true) :
    e.Deploy H B log =
      if e.App.AwsRegion ≠ "" ∧ e.App.AwsProfile ≠ "" then
        match B.GetSession (sessionLog H B e log) with
        | some err =>
          { ret := .err (.wrap "can't get session" err), m := (e.prepare H B log).1,
            log := sessionLog H B e log }
        | none =>
          { ret := .nil, m := (e.prepare H B log).1,
            log := sessionLog H B e log ++ [Call.SettingAWSClient] }
      else { ret := .nil, m := (e.prepare H B log).1, log := (e.prepare H B log).2 } := by
  have hf := prepare_frame H B e log
  simp only [Manager.Deploy, Manager.deployGate, sessionLog, hf.1, hf.2.2.2.1,
    hf.2.2.2.2.2.1, hf.2.2.2.2.2.2.1, hskip, if_true]

/-- C8 (as stated, refuted). The service `web` has `SkipDeploy` set and its own region
and profile; when the session for them cannot be acquired, `Manager.Deploy` returns an
error instead of success. -/
theorem C8_skip_deploy_can_fail :
    webSkipped.App.SkipDeploy = true ∧
    (webSkipped.Deploy unixHost noSessionBackend []).ret =
      Ret.err (GoError.wrap "can't get session" (GoError.plain "NoCredentialProviders")) ∧
    (webSkipped.Deploy unixHost noSessionBackend []).ret ≠ Ret.nil := by
  refine ⟨by decide, by decide, by decide⟩

/-- C8 (amended). For a manager with `SkipDeploy` set, `Manager.Deploy` never calls a
deployment driver, and it returns nil unless the app has both `AwsRegion` and
`AwsProfile` set and the session for them cannot be acquired, in which case it returns
that error wrapped as `can't get session`. -/
theorem C8_skip_deploy_never_calls_driver (H : Host) (B : Backend) (e : Manager)
    (log : List Call) (hskip : e.App.SkipDeploy = true) :
    (∃ cs, (e.Deploy H B log).log = log ++ cs ∧ ∀ c ∈ cs, c.driverImage = none) ∧
    (e.App.AwsRegion = "" ∨ e.App.AwsProfile = "" ∨ B.GetSession (sessionLog H B e log) = none →
      (e.Deploy H B log).ret = Ret.nil) ∧
    (∀ err, e.App.AwsRegion ≠ "" ∧ e.App.AwsProfile ≠ "" ∧
        B.GetSession (sessionLog H B e log) = some err →
      (e.Deploy H B log).ret = Ret.err (GoError.wrap "can't get session" err)) := by
  obtain ⟨ps, hps, hpall⟩ := prepare_log H B e log
  have hprep : ∀ c ∈ ps, c.driverImage = none := fun c hc =>
    (isListTasks_other c (hpall c hc)).2.2
  rw [Deploy_skipped H B e log hskip]
  by_cases hc : e.App.AwsRegion ≠ "" ∧ e.App.AwsProfile ≠ ""
  · rw [if_pos hc]
    cases hs : B.GetSession (sessionLog H B e log) with
    | none =>
      refine ⟨⟨ps ++ [Call.GetSession e.App.AwsRegion e.App.AwsProfile e.Project.EndpointUrl,
        Call.SettingAWSClient], by simp [sessionLog, hps], ?_⟩, fun _ => rfl, ?_⟩
      · intro c hcm
        rcases List.mem_append.mp hcm with h | h
        · exact hprep c h
        · simp only [List.mem_cons, List.mem_singleton, List.not_mem_nil, or_false] at h
          rcases h with h | h <;> subst h <;> rfl
      · intro err h
        simp at h
    | some err0 =>
      refine ⟨⟨ps ++ [Call.GetSession e.App.AwsRegion e.App.AwsProfile e.Project.EndpointUrl],
        by simp [sessionLog, hps], ?_⟩, ?_, ?_⟩
      · intro c hcm
        rcases List.mem_append.mp hcm with h | h
        · exact hprep c h
        · simp only [List.mem_singleton] at h
          subst h
          rfl
      · intro h
        rcases h with h | h | h
        · exact absurd h hc.1
        · exact absurd h hc.2
        · simp at h
      · intro err h
        have : err0 = err := Option.some.inj h.2.2
        subst this
        rfl
  · rw [if_neg hc]
    refine ⟨⟨ps, hps, hprep⟩, fun _ => rfl, ?_⟩
    intro err h
    exact absurd ⟨h.1, h.2.1⟩ hc

/-- Witness for C8 (amended): `web` with `SkipDeploy` set and a backend that grants the
session. -/
theorem C8_skip_deploy_never_calls_driver_witness :
    webSkipped.App.SkipDeploy = true ∧
    (webSkipped.Deploy unixHost okBackend []).ret = Ret.nil ∧
    (webSkipped.Deploy unixHost okBackend []).log.filterMap Call.driverImage = [] :=
  ⟨by decide,
    (C8_skip_deploy_never_calls_driver unixHost okBackend webSkipped [] (by decide)).2.1
      (Or.inr (Or.inr (by decide))),
    by decide⟩

/-- C9 (code evaluated at the failing input). When ECR answers `DescribeRepositories`
with the error `RepositoryNotFoundException`, `Manager.Push` returns that error wrapped
as `can't describe repositories` and calls neither `CreateRepository` nor
`GetAuthorizationToken`; `deployService` of `deploy.go`, given the same answer,
creates the repository and goes on to the token. When the answer is an empty result,
`Manager.Push` creates the repository and goes on to the token, and when the
repository exists it creates nothing. -/
theorem C9_push_fails_on_repository_not_found :
    webNamed.App.Image = "" ∧
    (webNamed.Push unixHost missingRepositoryBackend []).ret =
      Ret.err (GoError.wrap "can't describe repositories" repositoryNotFound) ∧
    (webNamed.Push unixHost missingRepositoryBackend []).log =
      [Call.DescribeRepositories ["acme-web"]] ∧
    (deploy.deployService deploy.plainHost deploy.missingRepositoryBackend deploy.webFromPath
        "ops" "acme" "dev" "v1" []).log.drop 1 =
      [deploy.Call.DescribeRepositories ["acme-web"], deploy.Call.CreateRepository "acme-web",
       deploy.Call.GetAuthorizationToken,
       deploy.Call.EcsdeployPush ["registry.test/acme-web:dev-latest"] "QVdTOnB3" "registry.test",
       deploy.Call.DescribeTaskDefinition "dev-web",
       deploy.Call.EcsdeployDeploy
        { Service := "web", Cluster := "dev-acme",
          TaskDefinitionArn := "arn:aws:ecs:task-definition/dev-web:7", AwsProfile := "ops",
          Tag := "v1", Timeout := "600", Image := "registry.test/acme-web:v1",
          EcsService := "dev-web" }] ∧
    (webNamed.Push unixHost emptyResultBackend []).log =
      [Call.DescribeRepositories ["acme-web"], Call.CreateRepository "acme-web",
       Call.GetAuthorizationToken,
       Call.RegistryPush "registry.test/acme-web" "AWS" "linux/amd64" "registry.test/acme-web"
        ["v1", "dev-latest"]] ∧
    (webNamed.Push unixHost okBackend []).log =
      [Call.DescribeRepositories ["acme-web"], Call.GetAuthorizationToken,
       Call.RegistryPush "registry.test/acme-web" "AWS" "linux/amd64" "registry.test/acme-web"
        ["v1", "dev-latest"]] := by
  refine ⟨by decide, by decide, by decide, by decide, by decide, by decide⟩

theorem deregisterCalls_cons (a : String) (rest : List String) (log : List Call) (j : Nat) :
    log ++ deregisterCalls (a :: rest) (j + 1) =
      (log ++ [Call.DeregisterTaskDefinition a]) ++ deregisterCalls rest j := by
  simp [deregisterCalls]

/-- The loop of `Manager.Destroy`: it makes the requests for the first `k` listed task
definitions; all but possibly the last succeeded; either all were made and succeeded
and the result is nil, or the last one failed and the result is its error. -/
theorem deregisterAll_spec (B : Backend) :
    ∀ (arns : List String) (log : List Call),
      ∃ k, k ≤ arns.length ∧
        (deregisterAll B arns log).2 = log ++ deregisterCalls arns k ∧
        (∀ j, j + 1 < k →
          B.DeregisterTaskDefinition (log ++ deregisterCalls arns (j + 1)) = none) ∧
        (((deregisterAll B arns log).1 = Ret.nil ∧ k = arns.length ∧
            (0 < k → B.DeregisterTaskDefinition (log ++ deregisterCalls arns k) = none)) ∨
          (0 < k ∧ ∃ err tda, arns.get? (k - 1) = some tda ∧
            B.DeregisterTaskDefinition (log ++ deregisterCalls arns k) = some err ∧
            (deregisterAll B arns log).1 =
              Ret.err (.plain ("can't deregister task definition '" ++ tda ++ "': " ++
                err.Error)))) := by
  intro arns
  induction arns with
  | nil =>
    intro log
    exact ⟨0, Nat.le_refl _, by simp [deregisterAll, deregisterCalls], by simp,
      Or.inl ⟨rfl, rfl, by simp⟩⟩
  | cons a rest ih =>
    intro log
    cases hB : B.DeregisterTaskDefinition (log ++ [Call.DeregisterTaskDefinition a]) with
    | some err =>
      refine ⟨1, by simp, by simp [deregisterAll, hB, deregisterCalls], by simp, Or.inr ?_⟩
      refine ⟨Nat.one_pos, err, a, by simp, by simpa [deregisterCalls] using hB, ?_⟩
      simp [deregisterAll, hB]
    | none =>
      obtain ⟨k, hk, hlog, hprev, hlast⟩ := ih (log ++ [Call.DeregisterTaskDefinition a])
      have hstep : deregisterAll B (a :: rest) log =
          deregisterAll B rest (log ++ [Call.DeregisterTaskDefinition a]) := by
        simp [deregisterAll, hB]
      have hzero : B.DeregisterTaskDefinition (log ++ deregisterCalls (a :: rest) (0 + 1)) =
          none := by
        rw [deregisterCalls_cons]
        simpa [deregisterCalls] using hB
      refine ⟨k + 1, by simpa using hk, by rw [hstep, hlog, deregisterCalls_cons], ?_, ?_⟩
      · intro j hj
        cases j with
        | zero => exact hzero
        | succ i =>
          rw [deregisterCalls_cons]
          exact hprev i (by omega)
      · rcases hlast with ⟨hret, hkl, hok⟩ | ⟨hpos, err, tda, hget, hfail, hret⟩
        · refine Or.inl ⟨by rw [hstep]; exact hret, by simp [hkl], ?_⟩
          intro _
          cases k with
          | zero => exact hzero
          | succ i =>
            rw [deregisterCalls_cons]
            exact hok (Nat.succ_pos i)
        · refine Or.inr ⟨Nat.succ_pos k, err, tda, ?_, ?_, by rw [hstep]; exact hret⟩
          · cases k with
            | zero => exact absurd hpos (Nat.lt_irrefl 0)
            | succ i => simpa using hget
          · rw [deregisterCalls_cons]
            exact hfail

/-- C10. With `autoApprove = true` and a successful listing of the task definitions of
family `env-app`, `Manager.Destroy` asks for no confirmation: after the listing it
requests the deregistration of the first `k` listed revisions, in listed order; every
request but the last one made succeeded, and it stops before the end of the list only
after a request that failed. It returns nil if and only if the request for every
listed revision succeeded. -/
theorem C10_destroy_auto_approve (B : Backend) (e : Manager) (log : List Call)
    (arns : List String)
    (hlist : B.ListTaskDefinitions (log ++ [listCall e]) = Except.ok arns) :
    (∃ k, k ≤ arns.length ∧
      (e.Destroy B true log).log = log ++ [listCall e] ++ deregisterCalls arns k ∧
      (∀ c ∈ [listCall e] ++ deregisterCalls arns k, ∀ text, c ≠ Call.Confirm text) ∧
      (∀ j, j + 1 < k →
        B.DeregisterTaskDefinition (log ++ [listCall e] ++ deregisterCalls arns (j + 1)) =
          none) ∧
      (k < arns.length → 0 < k ∧
        B.DeregisterTaskDefinition (log ++ [listCall e] ++ deregisterCalls arns k) ≠ none)) ∧
    ((e.Destroy B true log).ret = Ret.nil ↔
      ∀ j, j < arns.length →
        B.DeregisterTaskDefinition (log ++ [listCall e] ++ deregisterCalls arns (j + 1)) =
          none) := by
  have hD : e.Destroy B true log =
      { ret := (deregisterAll B arns (log ++ [listCall e])).1, m := e,
        log := (deregisterAll B arns (log ++ [listCall e])).2 } := by
    simp only [listCall] at hlist
    simp [Manager.Destroy, listCall, hlist]
  obtain ⟨k, hk, hlog, hprev, hlast⟩ := deregisterAll_spec B arns (log ++ [listCall e])
  rw [hD]
  refine ⟨⟨k, hk, hlog, ?_, hprev, ?_⟩, ?_⟩
  · intro c hc text
    rcases List.mem_append.mp hc with h | h
    · simp only [List.mem_singleton] at h
      subst h
      simp [listCall]
    · simp only [deregisterCalls, List.mem_map] at h
      obtain ⟨a, _, ha⟩ := h
      subst ha
      simp
  · intro hlt
    rcases hlast with ⟨_, hkl, _⟩ | ⟨hpos, err, tda, _, hfail, _⟩
    · omega
    · exact ⟨hpos, by rw [hfail]; simp⟩
  · constructor
    · intro hret j hj
      rcases hlast with ⟨_, hkl, hok⟩ | ⟨_, err, tda, _, _, hret2⟩
      · by_cases hjk : j + 1 < k
        · exact hprev j hjk
        · have : j + 1 = k := by omega
          rw [this]
          exact hok (by omega)
      · simp only at hret
        rw [hret2] at hret
        simp at hret
    · intro hall
      rcases hlast with ⟨hret, _, _⟩ | ⟨hpos, err, tda, _, hfail, _⟩
      · exact hret
      · have := hall (k - 1) (by omega)
        rw [show k - 1 + 1 = k by omega, hfail] at this
        simp at this

/-- Witness for C10: two listed revisions, the second deregistration fails; both
requests are made, in listed order, no confirmation is asked, and the result is not
nil. -/
theorem C10_destroy_auto_approve_witness :
    (webNamed.Destroy secondFailsBackend true []).log =
      [Call.ListTaskDefinitions "dev-web" "DESC", Call.DeregisterTaskDefinition "dev-web:2",
       Call.DeregisterTaskDefinition "dev-web:1"] ∧
    (webNamed.Destroy secondFailsBackend true []).ret ≠ Ret.nil ∧
    ((webNamed.Destroy noPromptBackend true []).ret = Ret.nil ↔
      ∀ j, j < ["dev-web:2", "dev-web:1"].length →
        noPromptBackend.DeregisterTaskDefinition
          ([] ++ [listCall webNamed] ++ deregisterCalls ["dev-web:2", "dev-web:1"] (j + 1)) =
          none) :=
  ⟨by decide, by decide,
    (C10_destroy_auto_approve noPromptBackend webNamed [] ["dev-web:2", "dev-web:1"] rfl).2⟩

end ecs

namespace deploy

/-- C6 (code evaluated at the failing input). For `ize deploy --image nginx web`, an
image reference without a colon, `strings.Split(s.Image, ":")[1]` is out of range:
`deployService` panics before any call, so the deploy driver is never called; with
the image `nginx:1.25` the driver is called with exactly that image and no build or
registry call is made. -/
theorem C6_untagged_image_panics :
    webUntagged.Image ≠ "" ∧
    Split webUntagged.Image ':' = ["nginx"] ∧
    deployService plainHost okBackend webUntagged "ops" "acme" "dev" "nginx" [] =
      { ret := Ret.panic indexOutOfRange, log := [] } ∧
    (deployService plainHost okBackend webTagged "ops" "acme" "dev" "nginx:1.25" []).log =
      [Call.DescribeTaskDefinition "dev-web",
       Call.EcsdeployDeploy
        { Service := "web", Cluster := "dev-acme",
          TaskDefinitionArn := "arn:aws:ecs:task-definition/dev-web:7", AwsProfile := "ops",
          Tag := "1.25", Timeout := "600", Image := "nginx:1.25", EcsService := "dev-web" }] := by
  refine ⟨by decide, by decide, by decide, by decide⟩

/-- Without the separator among the characters there is one piece. -/
theorem splitChars_no_sep (sep : Char) :
    ∀ (cs cur : List Char), sep ∉ cs → splitChars sep cs cur = [cur.reverse ++ cs] := by
  intro cs
  induction cs with
  | nil => intro cur _; simp [splitChars]
  | cons c rest ih =>
    intro cur h
    have hc : c ≠ sep := fun heq => h (by simp [heq])
    have hrest : sep ∉ rest := fun hm => h (List.mem_cons_of_mem c hm)
    simp [splitChars, hc, ih (c :: cur) hrest]

/-- For every non-empty explicit image without a colon, `deployService` panics before
making any call. -/
theorem deployService_image_without_colon (H : Host) (B : Backend) (s : Service)
    (profile nspace env tag : String) (log : List Call)
    (himg : s.Image ≠ "") (hcolon : ':' ∉ s.Image.data) :
    deployService H B s profile nspace env tag log =
      { ret := Ret.panic indexOutOfRange, log := log } := by
  simp [deployService, himg, Split, splitChars_no_sep ':' s.Image.data [] hcolon]

/-- The call of lines 292-306: the deploy driver gets the image of the service. -/
theorem deployDriver_log (B : Backend) (s : Service) (profile env tag : String)
    (log : List Call) :
    ∃ c, (deployDriver B s profile env tag log).log = log ++ [c] ∧
      c.isBuildOrRegistry = false ∧ c.deployImage = some s.Image := by
  simp only [deployDriver]
  split
  · exact ⟨_, rfl, rfl, rfl⟩
  · exact ⟨_, rfl, rfl, rfl⟩

/-- The calls of lines 281-306: no build or registry call, and the deploy driver gets
the image of the service. -/
theorem deployResolved_log (B : Backend) (s : Service) (profile env tag : String)
    (log : List Call) :
    ∃ cs, (deployResolved B s profile env tag log).log = log ++ cs ∧
      ∀ c ∈ cs, c.isBuildOrRegistry = false ∧
        ∀ image, c.deployImage = some image → image = s.Image := by
  simp only [deployResolved]
  split
  · split
    · exact ⟨[Call.DescribeTaskDefinition (env ++ "-" ++ s.Name)], rfl,
        by simp [Call.isBuildOrRegistry, Call.deployImage]⟩
    · exact ⟨[Call.DescribeTaskDefinition (env ++ "-" ++ s.Name)], rfl,
        by simp [Call.isBuildOrRegistry, Call.deployImage]⟩
    · next arn _ =>
      obtain ⟨c, hc, hb, hi⟩ := deployDriver_log B { s with TaskDefinitionArn := arn } profile
        env tag (log ++ [Call.DescribeTaskDefinition (env ++ "-" ++ s.Name)])
      refine ⟨[Call.DescribeTaskDefinition (env ++ "-" ++ s.Name), c], by rw [hc]; simp, ?_⟩
      intro x hx
      simp only [List.mem_cons, List.mem_singleton, List.not_mem_nil, or_false] at hx
      rcases hx with h | h
      · subst h
        simp [Call.isBuildOrRegistry, Call.deployImage]
      · subst h
        refine ⟨hb, fun image him => ?_⟩
        rw [hi] at him
        exact (Option.some.inj him).symm
  · obtain ⟨c, hc, hb, hi⟩ := deployDriver_log B s profile env tag log
    refine ⟨[c], hc, ?_⟩
    intro x hx
    simp only [List.mem_singleton] at hx
    subst hx
    refine ⟨hb, fun image him => ?_⟩
    rw [hi] at him
    exact (Option.some.inj him).symm

/-- For every explicit image with a colon, `deployService` makes no build or registry
call, and every call of the deploy driver is with exactly that image. -/
theorem deployService_explicit_image (H : Host) (B : Backend) (s : Service)
    (profile nspace env tag : String) (log : List Call) (himg : s.Image ≠ "") (t : String)
    (ht : (Split s.Image ':').get? 1 = some t) :
    ∃ cs, (deployService H B s profile nspace env tag log).log = log ++ cs ∧
      ∀ c ∈ cs, c.isBuildOrRegistry = false ∧
        ∀ image, c.deployImage = some image → image = s.Image := by
  have hD : deployService H B s profile nspace env tag log =
      deployResolved B s profile env t log := by
    have ht2 : (Split s.Image ':')[1]? = some t := by simpa using ht
    simp [deployService, himg, ht2]
  rw [hD]
  exact deployResolved_log B s profile env t log

end deploy

namespace ecs

/-- The value of `Manager.Destroy` without auto-approval after a successful listing. -/
theorem Destroy_prompted (B : Backend) (e : Manager) (log : List Call) (arns : List String)
    (hlist : B.ListTaskDefinitions (log ++ [listCall e]) = Except.ok arns) :
    e.Destroy B false log =
      match B.Confirm (promptLog e log arns) with
      | .error err => { ret := .err err, m := e, log := promptLog e log arns }
      | .ok isContinue =>
        if !isContinue then
          { ret := .err (.plain "destroying was canceled"), m := e,
            log := promptLog e log arns }
        else
          { ret := (deregisterAll B arns (promptLog e log arns)).1, m := e,
            log := (deregisterAll B arns (promptLog e log arns)).2 } := by
  simp only [listCall] at hlist
  simp only [Manager.Destroy, promptLog, listCall, hlist, Bool.not_false, if_true]

/-- C11. Without auto-approval, whenever the answer to the confirmation is anything
but a yes (the operator declines, or the prompt itself fails), `Manager.Destroy` stops
after the prompt: it makes no `DeregisterTaskDefinition` call and returns an error,
for every list of revisions. -/
theorem C11_declined_deregisters_nothing (B : Backend) (e : Manager) (log : List Call)
    (arns : List String)
    (hlist : B.ListTaskDefinitions (log ++ [listCall e]) = Except.ok arns)
    (hno : B.Confirm (promptLog e log arns) ≠ Except.ok true) :
    (∃ cs, (e.Destroy B false log).log = log ++ cs ∧ ∀ c ∈ cs, c.isDeregister = false) ∧
    (e.Destroy B false log).ret ≠ Ret.nil := by
  rw [Destroy_prompted B e log arns hlist]
  have hcalls : ∀ c ∈ [listCall e, Call.Printfln "this will destroy the following:",
      Call.BulletList arns, Call.Confirm "Continue?"], c.isDeregister = false := by
    intro c hc
    simp only [List.mem_cons, List.mem_singleton, List.not_mem_nil, or_false] at hc
    rcases hc with h | h | h | h <;> subst h <;> rfl
  have hshape : promptLog e log arns = log ++ [listCall e,
      Call.Printfln "this will destroy the following:", Call.BulletList arns,
      Call.Confirm "Continue?"] := by
    simp [promptLog]
  cases hc : B.Confirm (promptLog e log arns) with
  | error err => exact ⟨⟨_, hshape, hcalls⟩, by simp⟩
  | ok isContinue =>
    cases isContinue with
    | false => exact ⟨⟨_, hshape, hcalls⟩, by simp⟩
    | true => exact absurd hc hno

/-- Witness for C11: the operator declines the destruction of the two listed
revisions of `web`. -/
theorem C11_declined_deregisters_nothing_witness :
    (webNamed.Destroy declineBackend false []).log.filter Call.isDeregister = [] ∧
    ((∃ cs, (webNamed.Destroy declineBackend false []).log = [] ++ cs ∧
        ∀ c ∈ cs, c.isDeregister = false) ∧
      (webNamed.Destroy declineBackend false []).ret ≠ Ret.nil) :=
  ⟨by decide,
    C11_declined_deregisters_nothing declineBackend webNamed [] ["dev-web:2", "dev-web:1"] rfl
      (by simp [declineBackend])⟩

end ecs

namespace ecs

/-- An error of the deregistration loop is a plain error. -/
theorem deregisterAll_err_plain (B : Backend) :
    ∀ (arns : List String) (log : List Call) (err : GoError),
      (deregisterAll B arns log).1 = Ret.err err → err.kind = ErrKind.plain := by
  intro arns
  induction arns with
  | nil => intro log err h; simp [deregisterAll] at h
  | cons a rest ih =>
    intro log err h
    simp only [deregisterAll] at h
    split at h
    · simp only [Ret.err.injEq] at h
      subst h
      rfl
    · exact ih _ err h

/-- The calls of the deregistration loop are deregistration requests. -/
theorem deregisterAll_log (B : Backend) (arns : List String) (log : List Call) :
    ∃ cs, (deregisterAll B arns log).2 = log ++ cs ∧ ∀ c ∈ cs, c.isListTasks = false := by
  obtain ⟨k, _, hlog, _, _⟩ := deregisterAll_spec B arns log
  refine ⟨deregisterCalls arns k, hlog, ?_⟩
  intro c hc
  simp only [deregisterCalls, List.mem_map] at hc
  obtain ⟨a, _, ha⟩ := hc
  subst ha
  rfl

/-- C12 (as stated, refuted). When the operator declines, `Manager.Destroy` returns a
non-nil error, and that error is of the same kind (a plain error value, told apart by
its text only) as the error of a failed deregistration and as the error of a failed
listing. -/
theorem C12_cancel_is_a_generic_error :
    (webNamed.Destroy declineBackend false []).ret =
      Ret.err (GoError.plain "destroying was canceled") ∧
    (webNamed.Destroy secondFailsBackend true []).ret =
      Ret.err (GoError.plain "can't deregister task definition 'dev-web:1': AccessDenied") ∧
    Ret.sameKind (webNamed.Destroy declineBackend false []).ret
      (webNamed.Destroy secondFailsBackend true []).ret = true ∧
    Ret.sameKind (webNamed.Destroy declineBackend false []).ret
      (webNamed.Destroy listFailsBackend true []).ret = true := by
  refine ⟨by decide, by decide, by decide, by decide⟩

/-- C12 (amended). When the operator declines the confirmation, `Manager.Destroy`
returns the error `destroying was canceled` after the prompt; and every error that
`Manager.Destroy` returns, for any backend and either value of auto-approve, is a
plain error value, unless it is the error of the prompt itself, which is passed on as
it is. The cancellation has no kind of its own. -/
theorem C12_cancel_returns_plain_error (B : Backend) (e : Manager) (log : List Call)
    (arns : List String)
    (hlist : B.ListTaskDefinitions (log ++ [listCall e]) = Except.ok arns)
    (hdecline : B.Confirm (promptLog e log arns) = Except.ok false) :
    (e.Destroy B false log).ret = Ret.err (GoError.plain "destroying was canceled") ∧
    (e.Destroy B false log).log = promptLog e log arns ∧
    ∀ (B1 : Backend) (e1 : Manager) (log1 : List Call) (autoApprove : Bool) (err : GoError),
      (e1.Destroy B1 autoApprove log1).ret = Ret.err err →
        err.kind = ErrKind.plain ∨
          ∃ arns1, B1.Confirm (promptLog e1 log1 arns1) = Except.error err := by
  refine ⟨?_, ?_, ?_⟩
  · rw [Destroy_prompted B e log arns hlist, hdecline]
    rfl
  · rw [Destroy_prompted B e log arns hlist, hdecline]
    rfl
  · intro B1 e1 log1 autoApprove err h
    cases hl : B1.ListTaskDefinitions (log1 ++ [listCall e1]) with
    | error lerr =>
      simp only [listCall] at hl
      simp only [Manager.Destroy, hl, Ret.err.injEq] at h
      subst h
      exact Or.inl rfl
    | ok arns1 =>
      cases autoApprove with
      | true =>
        have hl2 := hl
        simp only [listCall] at hl2
        simp only [Manager.Destroy, hl2, Bool.not_true, Bool.false_eq_true, if_false] at h
        exact Or.inl (deregisterAll_err_plain B1 arns1 _ err h)
      | false =>
        rw [Destroy_prompted B1 e1 log1 arns1 hl] at h
        cases hc : B1.Confirm (promptLog e1 log1 arns1) with
        | error cerr =>
          simp only [hc, Ret.err.injEq] at h
          subst h
          exact Or.inr ⟨arns1, hc⟩
        | ok isContinue =>
          cases isContinue with
          | false =>
            simp only [hc, Bool.not_false, if_true, Ret.err.injEq] at h
            subst h
            exact Or.inl rfl
          | true =>
            simp only [hc, Bool.not_true, Bool.false_eq_true, if_false] at h
            exact Or.inl (deregisterAll_err_plain B1 arns1 _ err h)

/-- Witness for C12 (amended): the operator declines the destruction of `web`. -/
theorem C12_cancel_returns_plain_error_witness :
    (webNamed.Destroy declineBackend false []).ret =
      Ret.err (GoError.plain "destroying was canceled") ∧
    (webNamed.Destroy declineBackend false []).log =
      promptLog webNamed [] ["dev-web:2", "dev-web:1"] :=
  ⟨(C12_cancel_returns_plain_error declineBackend webNamed [] ["dev-web:2", "dev-web:1"]
      rfl rfl).1,
   (C12_cancel_returns_plain_error declineBackend webNamed [] ["dev-web:2", "dev-web:1"]
      rfl rfl).2.1⟩

end ecs

namespace ecs

/-- C13 (as stated, refuted). For a backend that has no cluster for the app
(`getEcsServiceName` reports `ECS cluster dev-acme not found`) and lists no task
definition for `dev-web`, `Manager.Destroy` makes the listing call only and reports
success. -/
theorem C13_destroy_succeeds_without_cluster :
    (getEcsServiceName noClusterBackend webInCluster []).1 =
      ("", some (GoError.plain "ECS cluster dev-acme not found")) ∧
    (webInCluster.Destroy noClusterBackend true []).ret = Ret.nil ∧
    (webInCluster.Destroy noClusterBackend true []).log =
      [Call.ListTaskDefinitions "dev-web" "DESC"] := by
  refine ⟨by decide, by decide, by decide⟩

/-- C13 (amended). `Manager.Destroy` does not look up the cluster or the service: it
makes no `ListTasks` call. When listing the task definitions of `env-app` fails it
stops and returns a plain error whose text ends in the text of the underlying error;
when the listing is empty and the destruction is auto-approved or confirmed, it
deregisters nothing and reports success. -/
theorem C13_destroy_without_lookup (B : Backend) (e : Manager) (autoApprove : Bool)
    (log : List Call) :
    (∃ cs, (e.Destroy B autoApprove log).log = log ++ cs ∧
      ∀ c ∈ cs, c.isListTasks = false) ∧
    (∀ err, B.ListTaskDefinitions (log ++ [listCall e]) = Except.error err →
      (e.Destroy B autoApprove log).ret =
        Ret.err (GoError.plain ("can't get list task definitions of '" ++
          (e.Project.Env ++ "-" ++ e.App.Name) ++ "': " ++ err.Error)) ∧
      (e.Destroy B autoApprove log).log = log ++ [listCall e]) ∧
    (B.ListTaskDefinitions (log ++ [listCall e]) = Except.ok [] →
      (autoApprove = true ∨ B.Confirm (promptLog e log []) = Except.ok true) →
      (e.Destroy B autoApprove log).ret = Ret.nil ∧
      ∀ c ∈ (e.Destroy B autoApprove log).log.drop log.length, c.isDeregister = false) := by
  refine ⟨?_, ?_, ?_⟩
  · cases hl : B.ListTaskDefinitions (log ++ [listCall e]) with
    | error lerr =>
      simp only [listCall] at hl
      simp only [Manager.Destroy, hl]
      exact ⟨[_], rfl, by simp [Call.isListTasks]⟩
    | ok arns =>
      have hauto : ∃ cs, (deregisterAll B arns (log ++ [listCall e])).2 = log ++ cs ∧
          ∀ c ∈ cs, c.isListTasks = false := by
        obtain ⟨ds, hds, hall⟩ := deregisterAll_log B arns (log ++ [listCall e])
        refine ⟨listCall e :: ds, by rw [hds]; simp, ?_⟩
        intro c hc
        rcases List.mem_cons.mp hc with h | h
        · subst h; rfl
        · exact hall c h
      have hprompt : ∀ c ∈ [listCall e, Call.Printfln "this will destroy the following:",
          Call.BulletList arns, Call.Confirm "Continue?"], c.isListTasks = false := by
        intro c hc
        simp only [List.mem_cons, List.mem_singleton, List.not_mem_nil, or_false] at hc
        rcases hc with h | h | h | h <;> subst h <;> rfl
      have hshape : promptLog e log arns = log ++ [listCall e,
          Call.Printfln "this will destroy the following:", Call.BulletList arns,
          Call.Confirm "Continue?"] := by
        simp [promptLog]
      cases autoApprove with
      | true =>
        have hl2 := hl
        simp only [listCall] at hl2
        simp only [Manager.Destroy, hl2, Bool.not_true, Bool.false_eq_true, if_false]
        exact hauto
      | false =>
        rw [Destroy_prompted B e log arns hl]
        cases hc : B.Confirm (promptLog e log arns) with
        | error cerr => exact ⟨_, hshape, hprompt⟩
        | ok isContinue =>
          cases isContinue with
          | false => exact ⟨_, hshape, hprompt⟩
          | true =>
            obtain ⟨ds, hds, hall⟩ := deregisterAll_log B arns (promptLog e log arns)
            refine ⟨[listCall e, Call.Printfln "this will destroy the following:",
              Call.BulletList arns, Call.Confirm "Continue?"] ++ ds, ?_, ?_⟩
            · simp only [Bool.not_true, Bool.false_eq_true, if_false]
              rw [hds, hshape, List.append_assoc]
            · intro c hcm
              rcases List.mem_append.mp hcm with h | h
              · exact hprompt c h
              · exact hall c h
  · intro err hl
    simp only [listCall] at hl
    simp [Manager.Destroy, hl, listCall]
  · intro hl hgo
    rcases hgo with hauto | hconf
    · subst hauto
      have hl2 := hl
      simp only [listCall] at hl2
      simp [Manager.Destroy, hl2, deregisterAll, Call.isDeregister, listCall]
    · cases autoApprove with
      | true =>
        have hl2 := hl
        simp only [listCall] at hl2
        simp [Manager.Destroy, hl2, deregisterAll, Call.isDeregister, listCall]
      | false =>
        rw [Destroy_prompted B e log [] hl, hconf]
        simp [deregisterAll, promptLog, Call.isDeregister, listCall]

end ecs

namespace ecs

/-- Witness for C13 (amended): an empty listing, auto-approved, ends in success. -/
theorem C13_destroy_without_lookup_witness :
    (webInCluster.Destroy noClusterBackend true []).ret = Ret.nil ∧
    ∀ c ∈ (webInCluster.Destroy noClusterBackend true []).log.drop ([] : List Call).length,
      c.isDeregister = false :=
  (C13_destroy_without_lookup noClusterBackend webInCluster true []).2.2 rfl (Or.inl rfl)

end ecs

namespace ecs

/-- The value of `Manager.Deploy` for a manager without `SkipDeploy`. -/
theorem Deploy_not_skipped (H : Host) (B : Backend) (e : Manager) (log : List Call)
    (hskip : e.App.SkipDeploy = false) :
    e.Deploy H B log =
      if e.App.AwsRegion ≠ "" ∧ e.App.AwsProfile ≠ "" then
        match B.GetSession (sessionLog H B e log) with
        | some err =>
          { ret := .err (.wrap "can't get session" err), m := (e.prepare H B log).1,
            log := sessionLog H B e log }
        | none =>
          (e.prepare H B log).1.deployRun B (sessionLog H B e log ++ [Call.SettingAWSClient])
      else (e.prepare H B log).1.deployRun B (e.prepare H B log).2 := by
  have hf := prepare_frame H B e log
  simp only [Manager.Deploy, Manager.deployGate, sessionLog, hf.1, hf.2.2.2.1,
    hf.2.2.2.2.2.1, hf.2.2.2.2.2.2.1, hskip, Bool.false_eq_true, if_false]

/-- With `Unsafe` set and the `native` runtime, `deployRun` emits the warning and then
calls the driver. -/
theorem deployRun_native_accelerated (B : Backend) (e : Manager) (log : List Call)
    (hacc : e.App.Unsafe = true) (hnative : e.Project.PreferRuntime = "native") :
    ∃ d, (e.deployRun B log).log = log ++ [Call.Warning unsafeWarning, d] ∧
      d.driverImage ≠ none := by
  obtain ⟨c, hc, hci⟩ := callDriver_log B e.defaultImage (e.warnUnsafe log)
  have hw : e.warnUnsafe log = log ++ [Call.Warning unsafeWarning] := by
    simp [Manager.warnUnsafe, hacc, hnative]
  refine ⟨c, ?_, by rw [hci]; simp⟩
  rw [Manager.deployRun, hc, hw]
  simp

/-- With another runtime than `native`, `deployRun` calls the driver and emits no
warning. -/
theorem deployRun_not_native (B : Backend) (e : Manager) (log : List Call)
    (hnative : e.Project.PreferRuntime ≠ "native") :
    ∃ d, (e.deployRun B log).log = log ++ [d] ∧ d.driverImage ≠ none := by
  obtain ⟨c, hc, hci⟩ := callDriver_log B e.defaultImage (e.warnUnsafe log)
  have hw : e.warnUnsafe log = log := by
    simp [Manager.warnUnsafe, hnative]
  refine ⟨c, ?_, by rw [hci]; simp⟩
  rw [Manager.deployRun, hc, hw]

/-- C16 (as stated, refuted). The service `web` has `Unsafe` set and deploy is not
skipped, the project prefers the `docker` runtime: `Manager.Deploy` calls the driver
`deployWithDocker` and emits no warning. -/
theorem C16_no_warning_for_docker_runtime :
    webUnsafeDocker.App.Unsafe = true ∧ webUnsafeDocker.App.SkipDeploy = false ∧
    (webUnsafeDocker.Deploy unixHost okBackend []).log.filter Call.isWarning = [] ∧
    (webUnsafeDocker.Deploy unixHost okBackend []).log.filterMap Call.driverImage =
      ["registry.test/acme-web:dev-latest"] := by
  refine ⟨by decide, by decide, by decide, by decide⟩

end ecs

namespace ecs

/-- A `ListTasks` call is no warning. -/
theorem isListTasks_not_warning (c : Call) (h : c.isListTasks = true) : c.isWarning = false := by
  cases c <;> simp_all [Call.isListTasks, Call.isWarning]

/-- A call of a driver is no warning. -/
theorem driver_not_warning (c : Call) (h : c.driverImage ≠ none) : c.isWarning = false := by
  cases c <;> simp_all [Call.driverImage, Call.isWarning]

/-- C16 (amended). With `App.Unsafe` set and the deploy not skipped: if the preferred
runtime is `native` and the session of the app, where one is needed, is acquired,
`Manager.Deploy` emits the warning `deployment will be accelerated (unsafe)` and next
calls the deployment driver, no driver call coming before; if the preferred runtime is
any other value, `Manager.Deploy` emits no warning at all. -/
theorem C16_unsafe_warning_native_only (H : Host) (B : Backend) (e : Manager)
    (log : List Call) (hacc : e.App.Unsafe = true) (hskip : e.App.SkipDeploy = false) :
    (e.Project.PreferRuntime = "native" →
      (e.App.AwsRegion = "" ∨ e.App.AwsProfile = "" ∨
        B.GetSession (sessionLog H B e log) = none) →
      ∃ pre d, (e.Deploy H B log).log = log ++ pre ++ [Call.Warning unsafeWarning, d] ∧
        d.driverImage ≠ none ∧ ∀ c ∈ pre, c.driverImage = none) ∧
    (e.Project.PreferRuntime ≠ "native" →
      ∃ cs, (e.Deploy H B log).log = log ++ cs ∧ ∀ c ∈ cs, c.isWarning = false) := by
  have hf := prepare_frame H B e log
  obtain ⟨ps, hps, hpall⟩ := prepare_log H B e log
  have hun : (e.prepare H B log).1.App.Unsafe = true := by rw [hf.2.2.2.2.1]; exact hacc
  have hsl : sessionLog H B e log ++ [Call.SettingAWSClient] =
      log ++ (ps ++ [Call.GetSession e.App.AwsRegion e.App.AwsProfile e.Project.EndpointUrl,
        Call.SettingAWSClient]) := by
    simp [sessionLog, hps]
  rw [Deploy_not_skipped H B e log hskip]
  constructor
  · intro hnative hok
    have hnat : (e.prepare H B log).1.Project.PreferRuntime = "native" := by
      rw [hf.1]; exact hnative
    by_cases hc : e.App.AwsRegion ≠ "" ∧ e.App.AwsProfile ≠ ""
    · have hs : B.GetSession (sessionLog H B e log) = none := by
        rcases hok with h | h | h
        · exact absurd h hc.1
        · exact absurd h hc.2
        · exact h
      rw [if_pos hc, hs]
      obtain ⟨d, hd, hdi⟩ := deployRun_native_accelerated B (e.prepare H B log).1
        (sessionLog H B e log ++ [Call.SettingAWSClient]) hun hnat
      refine ⟨ps ++ [Call.GetSession e.App.AwsRegion e.App.AwsProfile e.Project.EndpointUrl,
        Call.SettingAWSClient], d, ?_, hdi, ?_⟩
      · rw [hd, hsl]
      · intro c hcm
        rcases List.mem_append.mp hcm with h | h
        · exact (isListTasks_other c (hpall c h)).2.2
        · simp only [List.mem_cons, List.mem_singleton, List.not_mem_nil, or_false] at h
          rcases h with h | h <;> subst h <;> rfl
    · rw [if_neg hc]
      obtain ⟨d, hd, hdi⟩ := deployRun_native_accelerated B (e.prepare H B log).1
        (e.prepare H B log).2 hun hnat
      exact ⟨ps, d, by rw [hd, hps], hdi, fun c h => (isListTasks_other c (hpall c h)).2.2⟩
  · intro hnative
    have hnat : (e.prepare H B log).1.Project.PreferRuntime ≠ "native" := by
      rw [hf.1]; exact hnative
    by_cases hc : e.App.AwsRegion ≠ "" ∧ e.App.AwsProfile ≠ ""
    · rw [if_pos hc]
      cases hs : B.GetSession (sessionLog H B e log) with
      | some err =>
        refine ⟨ps ++ [Call.GetSession e.App.AwsRegion e.App.AwsProfile e.Project.EndpointUrl],
          by simp [sessionLog, hps], ?_⟩
        intro c hcm
        rcases List.mem_append.mp hcm with h | h
        · exact isListTasks_not_warning c (hpall c h)
        · simp only [List.mem_singleton] at h
          subst h
          rfl
      | none =>
        obtain ⟨d, hd, hdi⟩ := deployRun_not_native B (e.prepare H B log).1
          (sessionLog H B e log ++ [Call.SettingAWSClient]) hnat
        refine ⟨ps ++ [Call.GetSession e.App.AwsRegion e.App.AwsProfile e.Project.EndpointUrl,
          Call.SettingAWSClient] ++ [d], ?_, ?_⟩
        · rw [hd, hsl]
          simp only [List.append_assoc]
        · intro c hcm
          rcases List.mem_append.mp hcm with h | h
          · rcases List.mem_append.mp h with h | h
            · exact isListTasks_not_warning c (hpall c h)
            · simp only [List.mem_cons, List.mem_singleton, List.not_mem_nil, or_false] at h
              rcases h with h | h <;> subst h <;> rfl
          · simp only [List.mem_singleton] at h
            subst h
            exact driver_not_warning c hdi
    · rw [if_neg hc]
      obtain ⟨d, hd, hdi⟩ := deployRun_not_native B (e.prepare H B log).1
        (e.prepare H B log).2 hnat
      refine ⟨ps ++ [d], by rw [hd, hps, List.append_assoc], ?_⟩
      intro c hcm
      rcases List.mem_append.mp hcm with h | h
      · exact isListTasks_not_warning c (hpall c h)
      · simp only [List.mem_singleton] at h
        subst h
        exact driver_not_warning c hdi

/-- Witness for C16 (amended): `web` with `Unsafe` set under the `native` runtime; the
warning is the call right before `deployLocal`. -/
theorem C16_unsafe_warning_native_only_witness :
    (webUnsafeNative.Deploy unixHost okBackend []).log.map Call.isWarning = [true, false] ∧
    ∃ pre d, (webUnsafeNative.Deploy unixHost okBackend []).log =
        [] ++ pre ++ [Call.Warning unsafeWarning, d] ∧
      d.driverImage ≠ none ∧ ∀ c ∈ pre, c.driverImage = none :=
  ⟨by decide,
    (C16_unsafe_warning_native_only unixHost okBackend webUnsafeNative [] (by decide)
      (by decide)).1 (by decide) (Or.inl (by decide))⟩

end ecs

namespace commands

/-- C17 (as stated, refuted). With an empty project profile and the profile `ops` in
the Terraform `infra` entry, the per-app task of `UpAppsOptions.Run` for `web` writes
`Config.AwsProfile`; and the per-node task of `destroyAll` replaces the project profile
`dev` by `ops`. -/
theorem C17_tasks_write_the_profile :
    infraProfileProject.AwsProfile = "" ∧
    (upAppsTask stagesAlwaysOk infraProfileProject "web" ()).Config.AwsProfile = "ops" ∧
    (upAppsTask stagesAlwaysOk infraProfileProject "web" ()).deploy.m.Project.AwsProfile =
      "ops" ∧
    down.downAllOwnProfile.Config.AwsProfile = "dev" ∧
    (down.destroyAllTask down.destroyAlwaysOk down.downAllOwnProfile "web"
      ()).Config.AwsProfile = "ops" := by
  refine ⟨by decide, by decide, by decide, by decide, by decide⟩

/-- C17 (amended). The fallback profile is resolved inside the per-node tasks. The
task of `UpAppsOptions.Run` hands `deployApp` a configuration whose `AwsProfile` is
the project's own if that is non-empty, otherwise the one of the Terraform `infra`
entry if there is one, otherwise still empty; the task of `destroyAll` sets
`AwsProfile` to the one of the Terraform `infra` entry on every run. Either write is
idempotent: a run of the task on the configuration left by an earlier run leaves the
same profile. -/
theorem C17_profile_written_by_tasks {W V : Type} (I : Impl W) (J : down.DestroyImpl V)
    (cfg : config.Project) (o : down.DownOptions) (name name2 : String) (w w2 : W)
    (v v2 : V) :
    (upAppsTask I cfg name w).Config.AwsProfile =
      (if cfg.AwsProfile = "" then
        match cfg.Terraform "infra" with
        | some infra => infra.AwsProfile
        | none => ""
      else cfg.AwsProfile) ∧
    (upAppsTask I (upAppsTask I cfg name w).Config name2 w2).Config.AwsProfile =
      (upAppsTask I cfg name w).Config.AwsProfile ∧
    (∀ infra, o.Config.Terraform "infra" = some infra →
      (down.destroyAllTask J o name v).Config.AwsProfile = infra.AwsProfile ∧
      (down.destroyAllTask J { o with Config := (down.destroyAllTask J o name v).Config }
        name2 v2).Config.AwsProfile = infra.AwsProfile) := by
  refine ⟨?_, ?_, ?_⟩
  · simp only [upAppsTask, fillAwsProfile]
    by_cases hp : cfg.AwsProfile = ""
    · cases ht : cfg.Terraform "infra" <;> simp [hp, ht]
    · simp [hp]
  · simp only [upAppsTask, fillAwsProfile]
    by_cases hp : cfg.AwsProfile = ""
    · cases ht : cfg.Terraform "infra" with
      | none => simp [hp, ht]
      | some infra =>
        by_cases hi : infra.AwsProfile = "" <;> simp [hp, ht, hi]
    · simp [hp]
  · intro infra hinfra
    have h1 : (down.destroyAllTask J o name v).Config =
        { o.Config with AwsProfile := infra.AwsProfile } := by
      simp only [down.destroyAllTask, hinfra]
      split
      · rfl
      · split <;> rfl
    refine ⟨by rw [h1], ?_⟩
    have h2 : (down.destroyAllTask J
        { o with Config := { o.Config with AwsProfile := infra.AwsProfile } } name2
        v2).Config.AwsProfile = infra.AwsProfile := by
      simp only [down.destroyAllTask, hinfra]
      split
      · rfl
      · split <;> rfl
    rw [h1]
    exact h2

/-- Witness for C17 (amended): the tasks on the project with the `infra` profile
`ops`. -/
theorem C17_profile_written_by_tasks_witness :
    (down.destroyAllTask down.destroyAlwaysOk down.downAllOwnProfile "web"
        ()).Config.AwsProfile = "ops" ∧
    (down.destroyAllTask down.destroyAlwaysOk
      { down.downAllOwnProfile with
        Config := (down.destroyAllTask down.destroyAlwaysOk down.downAllOwnProfile "web"
          ()).Config } "web" ()).Config.AwsProfile = "ops" :=
  (C17_profile_written_by_tasks stagesAlwaysOk down.destroyAlwaysOk infraProfileProject
    down.downAllOwnProfile "web" "web" () () () ()).2.2 { AwsProfile := "ops" } rfl

/-- C20 (code evaluated at the failing input). For a project with an empty
`AwsProfile` and no Terraform `infra` entry, the per-app task sets `err` to
`can't detect aws_profile...`, then calls `deployApp` all the same, which runs Build,
Push and Deploy, and returns the result of `deployApp`, here nil: the error is lost. -/
theorem C20_profile_error_is_overwritten :
    noProfileProject.AwsProfile = "" ∧
    (noProfileProject.Terraform "infra").isNone = true ∧
    (upAppsTask stagesAlwaysOk noProfileProject "web" ()).detected =
      some (GoError.plain cantDetectProfile) ∧
    (upAppsTask stagesAlwaysOk noProfileProject "web" ()).deploy.stages =
      [Stage.Build, Stage.Push, Stage.Deploy] ∧
    (upAppsTask stagesAlwaysOk noProfileProject "web" ()).ret = Ret.nil := by
  refine ⟨by decide, by decide, by decide, by decide, by decide⟩

end commands

namespace ecs

/-- One round of the loop of `getEcsServiceName`: on `ServiceNotFoundException` it goes
on to the next candidate, on any other answer it returns. -/
theorem getEcsServiceNameLoop_cons (B : Backend) (cluster v : String) (rest : List String)
    (log : List Call) :
    getEcsServiceNameLoop B cluster (v :: rest) log =
      if isServiceNotFound (B.ListTasks (log ++ [Call.ListTasks cluster v])) then
        getEcsServiceNameLoop B cluster rest (log ++ [Call.ListTasks cluster v])
      else
        (settled cluster v (B.ListTasks (log ++ [Call.ListTasks cluster v])),
          log ++ [Call.ListTasks cluster v]) := by
  simp only [getEcsServiceNameLoop, isServiceNotFound]
  cases ha : B.ListTasks (log ++ [Call.ListTasks cluster v]) with
  | none => simp [settled]
  | some err =>
    cases hc : err.asAws with
    | none => simp [settled, hc]
    | some code =>
      by_cases h1 : code = "ClusterNotFoundException"
      · subst h1
        simp [settled, hc]
      · by_cases h2 : code = "ServiceNotFoundException"
        · subst h2
          simp [hc]
        · simp [settled, hc, h1, h2]

/-- C19 (as stated, refuted). When `ListTasks` fails with an error that is no AWS
error, `getEcsServiceName` returns that error together with the first candidate name,
not with an empty service name. -/
theorem C19_other_error_keeps_the_name :
    (getEcsServiceName timeoutBackend webInCluster []).1 =
      ("dev-acme-web", some (GoError.plain "dial tcp: i/o timeout")) ∧
    (getEcsServiceName timeoutBackend webInCluster []).1.1 ≠ "" := by
  refine ⟨by decide, by decide⟩

/-- C19 (amended). `getEcsServiceName` probes the candidates `env-namespace-app`,
`env-app`, `app` in that order, going on to the next one only after the answer
`ServiceNotFoundException`, and returns at the first other answer: the candidate for
no error; `ECS cluster ... not found` and no name for `ClusterNotFoundException`; the
error and no name for any other AWS error; the error together with the candidate for
an error without an AWS code. When all three answers are `ServiceNotFoundException` it
returns `ECS Service not found` and no name. -/
theorem C19_getEcsServiceName_candidates (B : Backend) (e : Manager) (log : List Call) :
    let c1 := e.Project.Env ++ "-" ++ e.Project.Namespace ++ "-" ++ e.App.Name
    let c2 := e.Project.Env ++ "-" ++ e.App.Name
    let c3 := e.App.Name
    let l1 := log ++ [Call.ListTasks e.App.Cluster c1]
    let l2 := l1 ++ [Call.ListTasks e.App.Cluster c2]
    let l3 := l2 ++ [Call.ListTasks e.App.Cluster c3]
    (isServiceNotFound (B.ListTasks l1) = false →
      getEcsServiceName B e log = (settled e.App.Cluster c1 (B.ListTasks l1), l1)) ∧
    (isServiceNotFound (B.ListTasks l1) = true →
      isServiceNotFound (B.ListTasks l2) = false →
      getEcsServiceName B e log = (settled e.App.Cluster c2 (B.ListTasks l2), l2)) ∧
    (isServiceNotFound (B.ListTasks l1) = true →
      isServiceNotFound (B.ListTasks l2) = true →
      isServiceNotFound (B.ListTasks l3) = false →
      getEcsServiceName B e log = (settled e.App.Cluster c3 (B.ListTasks l3), l3)) ∧
    (isServiceNotFound (B.ListTasks l1) = true →
      isServiceNotFound (B.ListTasks l2) = true →
      isServiceNotFound (B.ListTasks l3) = true →
      getEcsServiceName B e log =
        (("", some (GoError.plain "ECS Service not found")), l3)) := by
  intro c1 c2 c3 l1 l2 l3
  simp only [getEcsServiceName, getEcsServiceNameLoop_cons]
  refine ⟨?_, ?_, ?_, ?_⟩
  · intro h1
    simp [c1, l1] at h1
    simp [h1, c1, l1]
  · intro h1 h2
    simp [c1, c2, l1, l2] at h1 h2
    simp [h1, h2, c1, c2, l1, l2]
  · intro h1 h2 h3
    simp [c1, c2, c3, l1, l2, l3] at h1 h2 h3
    simp [h1, h2, h3, c1, c2, c3, l1, l2, l3]
  · intro h1 h2 h3
    simp [c1, c2, c3, l1, l2, l3] at h1 h2 h3
    simp [h1, h2, h3, c1, c2, c3, l1, l2, l3, getEcsServiceNameLoop]

/-- Witness for C19 (amended): only the third candidate, `web`, is a service of the
cluster. -/
theorem C19_getEcsServiceName_candidates_witness :
    (getEcsServiceName thirdNameBackend webInCluster []).1 = ("web", none) ∧
    getEcsServiceName thirdNameBackend webInCluster [] =
      (settled "dev-acme" "web" none,
        [Call.ListTasks "dev-acme" "dev-acme-web", Call.ListTasks "dev-acme" "dev-web",
         Call.ListTasks "dev-acme" "web"]) :=
  ⟨by decide,
    (C19_getEcsServiceName_candidates thirdNameBackend webInCluster []).2.2.1 (by decide)
      (by decide) (by decide)⟩

end ecs

namespace down

/-- With no argument and without `--auto-approve`, the command only prints the warning:
none of `Complete`, `Validate`, `Run` is performed, nothing is destroyed, the result is
nil. -/
theorem RunE_guard {W : Type} (E : CmdEnv W) (I : DestroyImpl W) (o : DownOptions) (w : W)
    (hflag : o.AutoApprove = false) :
    (RunE E I o [] w).steps = [Step.Warning] ∧ (RunE E I o [] w).ret = Ret.nil ∧
      (RunE E I o [] w).world = w := by
  simp [RunE, hflag]

/-- Whenever the command reaches `destroyAll`, `--auto-approve` was given or the first
argument is the empty string. -/
theorem RunE_destroyAll_only_if {W : Type} (E : CmdEnv W) (I : DestroyImpl W)
    (o : DownOptions) (args : List String) (w : W)
    (h : Step.destroyAll ∈ (RunE E I o args w).steps) :
    o.AutoApprove = true ∨ args.head? = some "" := by
  cases args with
  | nil =>
    cases hflag : o.AutoApprove with
    | true => exact Or.inl rfl
    | false =>
      rw [(RunE_guard E I o w hflag).1] at h
      simp at h
  | cons a rest =>
    by_cases ha : a = ""
    · exact Or.inr (by simp [ha])
    · exfalso
      simp only [RunE, List.length_cons, Nat.succ_ne_zero, false_and, if_false,
        DownOptions.Complete] at h
      cases hc : E.GetConfig with
      | error err => simp [hc] at h
      | ok cfg =>
        simp only [hc] at h
        split at h
        · simp [DownOptions.Run, ha] at h
        · simp at h

/-- C14 (code evaluated at the failing input). For `ize down ""`, one argument that is
the empty string and no `--auto-approve`, the guard of line 64 does not apply,
`Complete` stores the empty app name, and `Validate` and `Run` take the empty name for
the destroy-all case: `destroyAll` runs although auto-approve is not set. With no
argument at all the command stops at the warning. -/
theorem C14_empty_app_name_destroys_all :
    freshOptions.AutoApprove = false ∧
    (RunE loadedEnv destroyAlwaysOk freshOptions [""] ()).steps =
      [Step.Complete, Step.Validate, Step.Run, Step.destroyAll] ∧
    (RunE loadedEnv destroyAlwaysOk freshOptions [""] ()).ret = Ret.nil ∧
    (RunE loadedEnv destroyAlwaysOk freshOptions [] ()).steps = [Step.Warning] := by
  refine ⟨by decide, by decide, by decide, by decide⟩

end down

namespace exec

/-- Whatever `ssmCmd.Start` returns, `ExecOptions.Run` returns nil once
`ExecuteCommand` has succeeded. -/
theorem Run_ignores_start (B : Backend) (o : ExecOptions) (log : List Call)
    (h : (o.Run B log).start ≠ none) : (o.Run B log).ret = Ret.nil := by
  simp only [ExecOptions.Run] at h ⊢
  split
  · simp_all
  · simp_all
  · split
    · simp_all
    · rfl

/-- C15 (code evaluated at the failing input). For `ize exec web -- sh` with a running
task and an accepted command, when the session-manager plugin cannot be started
`SSMPluginCommand.Start` returns the error `start session: ...`, and when the plugin
prints `ERROR` it returns `exit status: 1`; in both cases `ExecOptions.Run` returns
nil. -/
theorem C15_run_drops_the_bridge_error :
    (execWeb.Run noPluginBackend []).start =
      some (Ret.err (GoError.wrap "start session"
        (GoError.plain "executable file not found in $PATH"))) ∧
    (execWeb.Run noPluginBackend []).ret = Ret.nil ∧
    (execWeb.Run pluginErrorBackend []).start =
      some (Ret.err (GoError.plain "exit status: 1")) ∧
    (execWeb.Run pluginErrorBackend []).ret = Ret.nil ∧
    (execWeb.Run noPluginBackend []).log =
      [Call.ListTasks "dev-acme" "dev-web",
       Call.ExecuteCommand "web" "dev-acme" "arn:aws:ecs:task/dev-acme/1" "sh",
       Call.Plugin (ssmsession.Call.InteractiveRun "session-manager-plugin"
        ["session", "us-east-1", "StartSession"])] := by
  refine ⟨by decide, by decide, by decide, by decide, by decide⟩

end exec

namespace serverless

/-- A string that has `sub` among its characters contains it, in the sense of
`strings.Contains`. -/
theorem Contains_of_sub (s sub : String) (h : sub.data <:+: s.data) :
    ssmsession.Contains s sub = true := by
  obtain ⟨pre, post, hpp⟩ := h
  simp only [ssmsession.Contains, List.any_eq_true]
  refine ⟨sub.data ++ post, ?_, ?_⟩
  · rw [List.mem_tails]
    exact ⟨pre, by rw [← hpp, List.append_assoc]⟩
  · rw [List.isPrefixOf_iff_prefix]
    exact List.prefix_append _ _

/-- An infix of the tail of an append is an infix of the append. -/
theorem sub_skip {x a b : List Char} (h : x <:+: b) : x <:+: a ++ b :=
  h.trans (List.suffix_append a b).isInfix

/-- A flag and its value, where they stand. -/
theorem flag_found (a b : String) (rest : List Char) :
    (a ++ b).data <:+: a.data ++ (b.data ++ rest) := by
  have h : (a ++ b).data = a.data ++ b.data := rfl
  rw [h, ← List.append_assoc]
  exact (List.prefix_append _ _).isInfix

/-- A flag, its value and a closing text, where they stand. -/
theorem flag_closed_found (a b c : String) (rest : List Char) :
    (a ++ b ++ c).data <:+: a.data ++ (b.data ++ (c.data ++ rest)) := by
  have h : (a ++ b ++ c).data = a.data ++ (b.data ++ c.data) := by
    show (a.data ++ b.data) ++ c.data = _
    rw [List.append_assoc]
  have hr : a.data ++ (b.data ++ (c.data ++ rest)) = (a.data ++ (b.data ++ c.data)) ++ rest := by
    simp only [List.append_assoc]
  rw [h, hr]
  exact (List.prefix_append _ _).isInfix

set_option maxRecDepth 100000 in
/-- The characters of the command that `fmt.Sprintf` builds from `deployFormatV3`: the
literal pieces of the format with the operands between them. -/
theorem deployFormatV3_data (sls : Manager) (nvmDir : String) :
    (Sprintf deployFormatV3 (commandArgs sls nvmDir)).data =
      "source ".data ++
      (nvmDir.data ++
      ("/nvm.sh && \n\t\t\t\tnvm use ".data ++
      (sls.App.NodeVersion.data ++
      (" &&\n\t\t\t\tnpx serverless deploy \\\n\t\t\t\t".data ++
      ("--config=".data ++
      (sls.App.File.data ++
      (" \\\n\t\t\t\t".data ++
      ("--param=\"service=".data ++
      (sls.App.Name.data ++
      ("\"".data ++
      (" \\\n\t\t\t\t".data ++
      ("--region=".data ++
      (sls.App.AwsRegion.data ++
      (" \\\n\t\t\t\t".data ++
      ("--aws-profile=".data ++
      (sls.App.AwsProfile.data ++
      (" \\\n\t\t\t\t".data ++
      ("--stage=".data ++
      (sls.Project.Env.data ++
      (" \\\n\t\t\t\t--verbose".data)))))))))))))))))))) := rfl

/-- The flags of the command built from `deployFormatV3`, each with its value. -/
theorem deployFormatV3_flags (sls : Manager) (nvmDir : String) :
    usesEqualsSyntax sls (Sprintf deployFormatV3 (commandArgs sls nvmDir)) :=
  ⟨Contains_of_sub _ _ (by
     rw [deployFormatV3_data]
     iterate 5 apply sub_skip
     exact flag_found _ _ _),
   Contains_of_sub _ _ (by
     rw [deployFormatV3_data]
     iterate 8 apply sub_skip
     exact flag_closed_found _ _ _ _),
   Contains_of_sub _ _ (by
     rw [deployFormatV3_data]
     iterate 12 apply sub_skip
     exact flag_found _ _ _),
   Contains_of_sub _ _ (by
     rw [deployFormatV3_data]
     iterate 15 apply sub_skip
     exact flag_found _ _ _),
   Contains_of_sub _ _ (by
     rw [deployFormatV3_data]
     iterate 18 apply sub_skip
     exact flag_found _ _ _)⟩

set_option maxRecDepth 100000 in
/-- The characters of the command that `fmt.Sprintf` builds from `deployFormatLegacy`: the
literal pieces of the format with the operands between them. -/
theorem deployFormatLegacy_data (sls : Manager) (nvmDir : String) :
    (Sprintf deployFormatLegacy (commandArgs sls nvmDir)).data =
      "source ".data ++
      (nvmDir.data ++
      ("/nvm.sh && \n\t\t\t\tnvm use ".data ++
      (sls.App.NodeVersion.data ++
      (" &&\n\t\t\t\tnpx serverless deploy \\\n\t\t\t\t".data ++
      ("--config ".data ++
      (sls.App.File.data ++
      (" \\\n\t\t\t\t".data ++
      ("--service ".data ++
      (sls.App.Name.data ++
      (" \\\n\t\t\t\t--verbose \\\n\t\t\t\t".data ++
      ("--region ".data ++
      (sls.App.AwsRegion.data ++
      (" \\\n\t\t\t\t".data ++
      ("--aws-profile ".data ++
      (sls.App.AwsProfile.data ++
      (" \\\n\t\t\t\t".data ++
      ("--stage ".data ++
      (sls.Project.Env.data ++
      ("".data))))))))))))))))))) := rfl

/-- The flags of the command built from `deployFormatLegacy`, each with its value. -/
theorem deployFormatLegacy_flags (sls : Manager) (nvmDir : String) :
    usesSpaceSyntax sls (Sprintf deployFormatLegacy (commandArgs sls nvmDir)) :=
  ⟨Contains_of_sub _ _ (by
     rw [deployFormatLegacy_data]
     iterate 5 apply sub_skip
     exact flag_found _ _ _),
   Contains_of_sub _ _ (by
     rw [deployFormatLegacy_data]
     iterate 8 apply sub_skip
     exact flag_found _ _ _),
   Contains_of_sub _ _ (by
     rw [deployFormatLegacy_data]
     iterate 11 apply sub_skip
     exact flag_found _ _ _),
   Contains_of_sub _ _ (by
     rw [deployFormatLegacy_data]
     iterate 14 apply sub_skip
     exact flag_found _ _ _),
   Contains_of_sub _ _ (by
     rw [deployFormatLegacy_data]
     iterate 17 apply sub_skip
     exact flag_found _ _ _)⟩

set_option maxRecDepth 100000 in
/-- The characters of the command that `fmt.Sprintf` builds from `removeFormatV3`: the
literal pieces of the format with the operands between them. -/
theorem removeFormatV3_data (sls : Manager) (nvmDir : String) :
    (Sprintf removeFormatV3 (commandArgs sls nvmDir)).data =
      "source ".data ++
      (nvmDir.data ++
      ("/nvm.sh && \\\n\t\t\t\tnvm use ".data ++
      (sls.App.NodeVersion.data ++
      (" && \\\n\t\t\t\tnpx serverless remove \\\n\t\t\t\t".data ++
      ("--config=".data ++
      (sls.App.File.data ++
      (" \\\n\t\t\t\t".data ++
      ("--param=\"service=".data ++
      (sls.App.Name.data ++
      ("\"".data ++
      (" \\\n\t\t\t\t".data ++
      ("--region=".data ++
      (sls.App.AwsRegion.data ++
      (" \\\n\t\t\t\t".data ++
      ("--aws-profile=".data ++
      (sls.App.AwsProfile.data ++
      (" \\\n\t\t\t\t".data ++
      ("--stage=".data ++
      (sls.Project.Env.data ++
      (" \\\n\t\t\t\t--verbose".data)))))))))))))))))))) := rfl

/-- The flags of the command built from `removeFormatV3`, each with its value. -/
theorem removeFormatV3_flags (sls : Manager) (nvmDir : String) :
    usesEqualsSyntax sls (Sprintf removeFormatV3 (commandArgs sls nvmDir)) :=
  ⟨Contains_of_sub _ _ (by
     rw [removeFormatV3_data]
     iterate 5 apply sub_skip
     exact flag_found _ _ _),
   Contains_of_sub _ _ (by
     rw [removeFormatV3_data]
     iterate 8 apply sub_skip
     exact flag_closed_found _ _ _ _),
   Contains_of_sub _ _ (by
     rw [removeFormatV3_data]
     iterate 12 apply sub_skip
     exact flag_found _ _ _),
   Contains_of_sub _ _ (by
     rw [removeFormatV3_data]
     iterate 15 apply sub_skip
     exact flag_found _ _ _),
   Contains_of_sub _ _ (by
     rw [removeFormatV3_data]
     iterate 18 apply sub_skip
     exact flag_found _ _ _)⟩

set_option maxRecDepth 100000 in
/-- The characters of the command that `fmt.Sprintf` builds from `removeFormatLegacy`: the
literal pieces of the format with the operands between them. -/
theorem removeFormatLegacy_data (sls : Manager) (nvmDir : String) :
    (Sprintf removeFormatLegacy (commandArgs sls nvmDir)).data =
      "source ".data ++
      (nvmDir.data ++
      ("/nvm.sh && \\\n\t\t\t\tnvm use ".data ++
      (sls.App.NodeVersion.data ++
      (" && \\\n\t\t\t\tnpx serverless remove \\\n\t\t\t\t".data ++
      ("--config ".data ++
      (sls.App.File.data ++
      (" \\\n\t\t\t\t".data ++
      ("--service ".data ++
      (sls.App.Name.data ++
      (" \\\n\t\t\t\t--verbose \\\n\t\t\t\t".data ++
      ("--region ".data ++
      (sls.App.AwsRegion.data ++
      (" \\\n\t\t\t\t".data ++
      ("--aws-profile ".data ++
      (sls.App.AwsProfile.data ++
      (" \\\n\t\t\t\t".data ++
      ("--stage ".data ++
      (sls.Project.Env.data ++
      ("".data))))))))))))))))))) := rfl

/-- The flags of the command built from `removeFormatLegacy`, each with its value. -/
theorem removeFormatLegacy_flags (sls : Manager) (nvmDir : String) :
    usesSpaceSyntax sls (Sprintf removeFormatLegacy (commandArgs sls nvmDir)) :=
  ⟨Contains_of_sub _ _ (by
     rw [removeFormatLegacy_data]
     iterate 5 apply sub_skip
     exact flag_found _ _ _),
   Contains_of_sub _ _ (by
     rw [removeFormatLegacy_data]
     iterate 8 apply sub_skip
     exact flag_found _ _ _),
   Contains_of_sub _ _ (by
     rw [removeFormatLegacy_data]
     iterate 11 apply sub_skip
     exact flag_found _ _ _),
   Contains_of_sub _ _ (by
     rw [removeFormatLegacy_data]
     iterate 14 apply sub_skip
     exact flag_found _ _ _),
   Contains_of_sub _ _ (by
     rw [removeFormatLegacy_data]
     iterate 17 apply sub_skip
     exact flag_found _ _ _)⟩

end serverless

namespace serverless

/-- What `strings.Contains` finds is among the characters. -/
theorem sub_of_Contains (s sub : String) (h : ssmsession.Contains s sub = true) :
    sub.data <:+: s.data := by
  simp only [ssmsession.Contains, List.any_eq_true] at h
  obtain ⟨t, ht, hp⟩ := h
  rw [List.mem_tails] at ht
  rw [List.isPrefixOf_iff_prefix] at hp
  exact hp.isInfix.trans ht.isInfix

/-- Text appended to a string leaves what the string contains. -/
theorem Contains_append (s t sub : String) (h : ssmsession.Contains s sub = true) :
    ssmsession.Contains (s ++ t) sub = true := by
  apply Contains_of_sub
  have hd : (s ++ t).data = s.data ++ t.data := rfl
  rw [hd]
  exact (sub_of_Contains s sub h).trans (List.prefix_append _ _).isInfix

/-- Without yarn, the finished command contains what the built command contains. -/
theorem Contains_finishCommand (force : Bool) (cmd sub : String)
    (h : ssmsession.Contains cmd sub = true) :
    ssmsession.Contains (finishCommand false force cmd) sub = true := by
  cases force with
  | false => simpa [finishCommand] using h
  | true =>
    simp only [finishCommand, Bool.false_eq_true, if_false, if_true]
    exact Contains_append cmd forceSuffix sub h

/-- The commands of `runDeploy` and `runRemove` are built by `fmt.Sprintf` from a
format chosen by the test `ServerlessVersion == "3"` alone, with the same operands in
both cases, and finished by steps that look at `UseYarn` and `Force` only (with
`UseYarn` unset the finished command has the flags of the command built). For the
version `"3"` the command built has `--config=`, `--param="service=<name>"`,
`--region=`, `--aws-profile=` and `--stage=` each followed by its value; for every
other version it has `--config `, `--service `, `--region `, `--aws-profile ` and
`--stage ` each followed by the same value. The formats of version 3 have none of the
space-separated flags and the other formats none of the `=` flags. -/
theorem syntax_by_version_before_yarn (sls : Manager) (nvmDir : String) :
    sls.deployBase nvmDir =
      Sprintf (if sls.App.ServerlessVersion = "3" then deployFormatV3 else deployFormatLegacy)
        (commandArgs sls nvmDir) ∧
    sls.removeBase nvmDir =
      Sprintf (if sls.App.ServerlessVersion = "3" then removeFormatV3 else removeFormatLegacy)
        (commandArgs sls nvmDir) ∧
    sls.deployCommand nvmDir =
      finishCommand sls.App.UseYarn sls.App.Force (sls.deployBase nvmDir) ∧
    sls.removeCommand nvmDir = finishCommand sls.App.UseYarn false (sls.removeBase nvmDir) ∧
    (sls.App.ServerlessVersion = "3" →
      usesEqualsSyntax sls (sls.deployBase nvmDir) ∧
      usesEqualsSyntax sls (sls.removeBase nvmDir)) ∧
    (sls.App.ServerlessVersion ≠ "3" →
      usesSpaceSyntax sls (sls.deployBase nvmDir) ∧
      usesSpaceSyntax sls (sls.removeBase nvmDir)) ∧
    (sls.App.UseYarn = false → sls.App.ServerlessVersion = "3" →
      usesEqualsSyntax sls (sls.deployCommand nvmDir) ∧
      usesEqualsSyntax sls (sls.removeCommand nvmDir)) ∧
    (sls.App.UseYarn = false → sls.App.ServerlessVersion ≠ "3" →
      usesSpaceSyntax sls (sls.deployCommand nvmDir) ∧
      usesSpaceSyntax sls (sls.removeCommand nvmDir)) ∧
    lacksFlags deployFormatV3 spaceFlags = true ∧
    lacksFlags removeFormatV3 spaceFlags = true ∧
    lacksFlags deployFormatLegacy equalsFlags = true ∧
    lacksFlags removeFormatLegacy equalsFlags = true := by
  have hd : sls.deployBase nvmDir =
      Sprintf (if sls.App.ServerlessVersion = "3" then deployFormatV3 else deployFormatLegacy)
        (commandArgs sls nvmDir) := by
    simp only [Manager.deployBase, commandArgs]
    split <;> rfl
  have hr : sls.removeBase nvmDir =
      Sprintf (if sls.App.ServerlessVersion = "3" then removeFormatV3 else removeFormatLegacy)
        (commandArgs sls nvmDir) := by
    simp only [Manager.removeBase, commandArgs]
    split <;> rfl
  have hfd : sls.deployCommand nvmDir =
      finishCommand sls.App.UseYarn sls.App.Force (sls.deployBase nvmDir) := rfl
  have hfr : sls.removeCommand nvmDir =
      finishCommand sls.App.UseYarn false (sls.removeBase nvmDir) := by
    simp [Manager.removeCommand, finishCommand]
  have h3 : sls.App.ServerlessVersion = "3" →
      usesEqualsSyntax sls (sls.deployBase nvmDir) ∧
      usesEqualsSyntax sls (sls.removeBase nvmDir) := by
    intro hv
    rw [hd, hr]
    simp only [hv, if_true]
    exact ⟨deployFormatV3_flags sls nvmDir, removeFormatV3_flags sls nvmDir⟩
  have hl : sls.App.ServerlessVersion ≠ "3" →
      usesSpaceSyntax sls (sls.deployBase nvmDir) ∧
      usesSpaceSyntax sls (sls.removeBase nvmDir) := by
    intro hv
    rw [hd, hr]
    simp only [hv, if_false]
    exact ⟨deployFormatLegacy_flags sls nvmDir, removeFormatLegacy_flags sls nvmDir⟩
  refine ⟨hd, hr, hfd, hfr, h3, hl, ?_, ?_, by decide, by decide, by decide, by decide⟩
  · intro hy hv
    rw [hfd, hfr, hy]
    obtain ⟨⟨a1, a2, a3, a4, a5⟩, ⟨b1, b2, b3, b4, b5⟩⟩ := h3 hv
    exact ⟨⟨Contains_finishCommand _ _ _ a1, Contains_finishCommand _ _ _ a2,
      Contains_finishCommand _ _ _ a3, Contains_finishCommand _ _ _ a4,
      Contains_finishCommand _ _ _ a5⟩,
      ⟨Contains_finishCommand _ _ _ b1, Contains_finishCommand _ _ _ b2,
      Contains_finishCommand _ _ _ b3, Contains_finishCommand _ _ _ b4,
      Contains_finishCommand _ _ _ b5⟩⟩
  · intro hy hv
    rw [hfd, hfr, hy]
    obtain ⟨⟨a1, a2, a3, a4, a5⟩, ⟨b1, b2, b3, b4, b5⟩⟩ := hl hv
    exact ⟨⟨Contains_finishCommand _ _ _ a1, Contains_finishCommand _ _ _ a2,
      Contains_finishCommand _ _ _ a3, Contains_finishCommand _ _ _ a4,
      Contains_finishCommand _ _ _ a5⟩,
      ⟨Contains_finishCommand _ _ _ b1, Contains_finishCommand _ _ _ b2,
      Contains_finishCommand _ _ _ b3, Contains_finishCommand _ _ _ b4,
      Contains_finishCommand _ _ _ b5⟩⟩

/-- The function service `api` with version 3 has the syntax of version 3 in the
commands built, and `runDeploy` hands the command built to `bash -c`. -/
theorem syntax_by_version_api :
    (usesEqualsSyntax apiV3 (apiV3.deployBase "/home/dev/.nvm") ∧
      usesEqualsSyntax apiV3 (apiV3.removeBase "/home/dev/.nvm")) ∧
    (apiV3.runDeploy nvmBackend []).2.getLast? =
      some (Call.InteractiveRun "bash" ["-c", apiV3.deployBase "/home/dev/.nvm"]
        "/work/apps/api") ∧
    (apiV2.runDeploy nvmBackend []).2.getLast? =
      some (Call.InteractiveRun "bash" ["-c", apiV2.deployBase "/home/dev/.nvm"]
        "/work/apps/api") :=
  ⟨(syntax_by_version_before_yarn apiV3 "/home/dev/.nvm").2.2.2.2.1 rfl,
    by set_option maxRecDepth 100000 in decide,
    by set_option maxRecDepth 100000 in decide⟩

end serverless

namespace exec

/-- The three failures before the bridge are returned: a failed `ListTasks`, no running
task, a rejected `ExecuteCommand`. -/
theorem Run_early_failures (B : Backend) (o : ExecOptions) (log : List Call) :
    let l1 := log ++ [Call.ListTasks o.EcsCluster (o.Config.Env ++ "-" ++ o.ServiceName)]
    (∀ err, B.ListTasks l1 = Except.error err → (o.Run B log).ret = Ret.err err) ∧
    (B.ListTasks l1 = Except.ok [] →
      (o.Run B log).ret = Ret.err (GoError.plain "running task not found\n")) ∧
    (∀ task rest err, B.ListTasks l1 = Except.ok (task :: rest) →
      B.ExecuteCommand (l1 ++ [Call.ExecuteCommand o.ServiceName o.EcsCluster task o.Command]) =
        Except.error err →
      (o.Run B log).ret = Ret.err err) := by
  intro l1
  refine ⟨?_, ?_, ?_⟩
  · intro err h
    simp [ExecOptions.Run, l1] at h ⊢
    simp [h]
  · intro h
    simp [ExecOptions.Run, l1] at h ⊢
    simp [h]
  · intro task rest err h1 h2
    simp [ExecOptions.Run, l1] at h1 h2 ⊢
    simp [h1, h2]

end exec

namespace deploy

/-- After a `Complete` that returns nil, `Tag` holds the setting `image`, whatever the
setting `tag` is. -/
theorem Complete_Tag (E : CmdEnv) (o o' : DeployOptions) (args : List String)
    (h : o.Complete E args = (Ret.nil, o')) : o'.Tag = E.GetString "image" := by
  simp only [DeployOptions.Complete] at h
  split at h
  · simp at h
  · split at h
    · simp at h
    · split at h
      · simp at h
      · simp only [Prod.mk.injEq, true_and] at h
        subst h
        split <;> rfl

/-- With an empty `Tag`, `Validate` does not return nil. -/
theorem Validate_empty_Tag (o : DeployOptions) (h : o.Tag = "") :
    o.Validate.1 ≠ Ret.nil := by
  simp only [DeployOptions.Validate, DeployOptions.validateFields, h]
  repeat' split
  all_goals simp at *

/-- C21 (code evaluated at the failing input). For `ize deploy web` with env, namespace,
profile, region and the tag `v1` configured, a path for the service and no `--image`,
`Complete` returns nil and leaves `Tag` empty, the value of the setting `image` (line
117 assigns `Tag` again after line 116), and `Validate` fails with 'tag must be
specified'. -/
theorem C21_tag_is_overwritten_by_image :
    pathDeployEnv.GetString "tag" = "v1" ∧ pathDeployEnv.GetString "image" = "" ∧
    DeployOptions.Complete pathDeployEnv {} ["web"] =
      (Ret.nil,
        { ServiceName := "web", EcsCluster := "dev-acme", Env := "dev", Namespace := "acme",
          Path := "/work/apps/web", Profile := "ops", Region := "us-east-1", Tag := "" }) ∧
    completeAndValidate pathDeployEnv {} ["web"] =
      (Ret.err (GoError.plain "tag must be specified"),
        { ServiceName := "web", EcsCluster := "dev-acme", Env := "dev", Namespace := "acme",
          Path := "/work/apps/web", Profile := "ops", Region := "us-east-1", Tag := "" }) := by
  refine ⟨by decide, by decide, by decide, by decide⟩

/-- C22 (code evaluated at the failing input). For the service `web` built from its
path with the tag `v1` in the environment `dev`, every call succeeding,
`deployService` builds the image under three tags, pushes only the reference with the
tag `dev-latest` (lines 267-273) and hands the reference with the tag `v1` (line 209)
to the deploy driver: the image deployed is not among the references pushed. -/
theorem C22_deployed_image_is_not_pushed :
    webFromPath.Image = "" ∧
    (deployService plainHost okBackend webFromPath "ops" "acme" "dev" "v1" []).ret = Ret.nil ∧
    pushedReferences (deployService plainHost okBackend webFromPath "ops" "acme" "dev" "v1" []).log
      = ["registry.test/acme-web:dev-latest"] ∧
    deployedImages (deployService plainHost okBackend webFromPath "ops" "acme" "dev" "v1" []).log
      = ["registry.test/acme-web:v1"] ∧
    "registry.test/acme-web:v1" ∉
      pushedReferences
        (deployService plainHost okBackend webFromPath "ops" "acme" "dev" "v1" []).log := by
  refine ⟨by decide, by decide, by decide, by decide, by decide⟩

end deploy

namespace down

/-- What lines 114-124 make of the `infra` entry: the region is never written, the
profile ends as the region of the project whenever the region of the entry is empty,
and the version is filled from the project. -/
theorem fillInfra_fields (cfg : config.Project) (infra : config.Terraform) :
    (fillInfra cfg infra).AwsRegion = infra.AwsRegion ∧
    (fillInfra cfg infra).AwsProfile =
      (if infra.AwsRegion = "" then cfg.AwsRegion
       else if infra.AwsProfile = "" then cfg.AwsProfile else infra.AwsProfile) ∧
    (fillInfra cfg infra).Version =
      (if infra.Version = "" then cfg.TerraformVersion else infra.Version) := by
  simp only [fillInfra]
  by_cases h1 : infra.AwsProfile = "" <;> by_cases h2 : infra.AwsRegion = "" <;>
    by_cases h3 : infra.Version = "" <;> simp [h1, h2, h3]

/-- C23 (code evaluated at the failing input). For `ize down` without argument, with the
project profile `dev`, region `us-east-1` and Terraform version `1.5.7`, and an `infra`
entry whose profile is `ops` and whose region and version are empty, `Complete`
returns nil with the `infra` profile `us-east-1` (line 119 writes the region of the
project to `AwsProfile`), so the non-empty profile `ops` is lost and the region stays
empty; only the version is filled as described. With an `infra` entry in which nothing
is set the profile ends as the region as well. -/
theorem C23_region_is_written_to_the_profile :
    (DownOptions.Complete infraProfileEnv freshOptions []).1 = Ret.nil ∧
    (DownOptions.Complete infraProfileEnv freshOptions []).2.Config.Terraform "infra" =
      some { AwsProfile := "us-east-1", AwsRegion := "", Version := "1.5.7" } ∧
    (DownOptions.Complete infraEmptyEnv freshOptions []).1 = Ret.nil ∧
    (DownOptions.Complete infraEmptyEnv freshOptions []).2.Config.Terraform "infra" =
      some { AwsProfile := "us-east-1", AwsRegion := "", Version := "1.5.7" } := by
  refine ⟨by decide, by decide, by decide, by decide⟩

end down

namespace deploy

/-- The references pushed in a sequence of calls extended by further calls. -/
theorem pushedReferences_append (log cs : List Call) :
    pushedReferences (log ++ cs) = pushedReferences log ++ pushedReferences cs := by
  simp [pushedReferences]

/-- The images deployed in a sequence of calls extended by further calls. -/
theorem deployedImages_append (log cs : List Call) :
    deployedImages (log ++ cs) = deployedImages log ++ deployedImages cs := by
  simp [deployedImages, List.filterMap_append]

/-- Lines 233-276 push nothing or the one reference with the tag `tagLatest`, and do
not call the deploy driver. -/
theorem pushBuilt_references (B : Backend) (s : Service)
    (dockerRegistry dockerImageName tagLatest : String) (log : List Call) :
    (pushedReferences (pushBuilt B s dockerRegistry dockerImageName tagLatest log).2 =
        pushedReferences log ∨
      pushedReferences (pushBuilt B s dockerRegistry dockerImageName tagLatest log).2 =
        pushedReferences log ++ [dockerRegistry ++ "/" ++ dockerImageName ++ ":" ++ tagLatest]) ∧
    deployedImages (pushBuilt B s dockerRegistry dockerImageName tagLatest log).2 =
      deployedImages log := by
  simp only [pushBuilt]
  repeat' split
  all_goals
    simp [pushedReferences_append, deployedImages_append, pushedReferences, deployedImages,
      Call.pushedImages, Call.deployImage]

/-- Lines 281-306 push nothing, and hand the driver no image or the image of the
service. -/
theorem deployResolved_references (B : Backend) (s : Service) (profile env tag : String)
    (log : List Call) :
    pushedReferences (deployResolved B s profile env tag log).log = pushedReferences log ∧
    (deployedImages (deployResolved B s profile env tag log).log = deployedImages log ∨
      deployedImages (deployResolved B s profile env tag log).log =
        deployedImages log ++ [s.Image]) := by
  simp only [deployResolved, deployDriver]
  repeat' split
  all_goals
    simp [pushedReferences_append, deployedImages_append, pushedReferences, deployedImages,
      Call.pushedImages, Call.deployImage]

/-- Lines 185-276 push nothing or the one reference with the tag `env-latest`, do not
call the deploy driver, and on a nil result leave the reference with the trimmed tag
in `s.Image`. -/
theorem buildAndPush_references (H : Host) (B : Backend) (s : Service)
    (nspace env tag : String) (log : List Call) :
    (pushedReferences (buildAndPush H B s nspace env tag log).2.2 = pushedReferences log ∨
      pushedReferences (buildAndPush H B s nspace env tag log).2.2 =
        pushedReferences log ++
          [H.GetString "DOCKER_REGISTRY" ++ "/" ++ (nspace ++ "-" ++ s.Name) ++ ":" ++
            (env ++ "-latest")]) ∧
    deployedImages (buildAndPush H B s nspace env tag log).2.2 = deployedImages log ∧
    ((buildAndPush H B s nspace env tag log).1 = Ret.nil →
      (buildAndPush H B s nspace env tag log).2.1.Image =
        H.GetString "DOCKER_REGISTRY" ++ "/" ++ (nspace ++ "-" ++ s.Name) ++ ":" ++
          Trim tag '\n') := by
  simp only [buildAndPush]
  split
  · simp [wrapDeploy]
  · split
    · simp [wrapDeploy]
    · split
      · simp [wrapDeploy]
      · split
        · simp [wrapDeploy, pushedReferences_append, deployedImages_append, pushedReferences,
            deployedImages, Call.pushedImages, Call.deployImage]
        · next _ contextDir _ _ projectPath _ _ _ _ _ =>
          have h := pushBuilt_references B
            { s with Image := H.GetString "DOCKER_REGISTRY" ++ "/" ++ (nspace ++ "-" ++ s.Name) ++
                ":" ++ Trim tag '\n' }
            (H.GetString "DOCKER_REGISTRY") (nspace ++ "-" ++ s.Name) (env ++ "-latest")
            (log ++ [Call.EcsdeployBuild
              [nspace ++ "-" ++ s.Name,
               H.GetString "DOCKER_REGISTRY" ++ "/" ++ (nspace ++ "-" ++ s.Name) ++ ":" ++
                 Trim tag '\n',
               H.GetString "DOCKER_REGISTRY" ++ "/" ++ (nspace ++ "-" ++ s.Name) ++ ":" ++
                 (env ++ "-latest")]
              (contextDir ++ "/Dockerfile")
              [("DOCKER_REGISTRY", H.GetString "DOCKER_REGISTRY"),
               ("DOCKER_IMAGE_NAME", nspace ++ "-" ++ s.Name),
               ("ENV", env), ("PROJECT_PATH", projectPath)]
              [H.GetString "DOCKER_REGISTRY" ++ "/" ++ (nspace ++ "-" ++ s.Name) ++ ":" ++
                 (env ++ "-latest")]
              (H.GetString "ROOT_DIR")])
          simp only [pushedReferences_append, deployedImages_append] at h
          simp only [pushedReferences, deployedImages, List.flatMap_cons, List.flatMap_nil,
            List.filterMap_cons, List.filterMap_nil, Call.pushedImages, Call.deployImage,
            List.append_nil] at h ⊢
          exact ⟨h.1, h.2, fun _ => trivial⟩

end deploy

namespace deploy

/-- When `deployService` builds the image itself, it pushes nothing or the one
reference with the tag `env-latest`, and hands the driver no image or the reference
with the trimmed tag. -/
theorem deployService_built_references (H : Host) (B : Backend) (s : Service)
    (profile nspace env tag : String) (log : List Call) (himg : s.Image = "") :
    (pushedReferences (deployService H B s profile nspace env tag log).log =
        pushedReferences log ∨
      pushedReferences (deployService H B s profile nspace env tag log).log =
        pushedReferences log ++
          [H.GetString "DOCKER_REGISTRY" ++ "/" ++ (nspace ++ "-" ++ s.Name) ++ ":" ++
            (env ++ "-latest")]) ∧
    (deployedImages (deployService H B s profile nspace env tag log).log =
        deployedImages log ∨
      deployedImages (deployService H B s profile nspace env tag log).log =
        deployedImages log ++
          [H.GetString "DOCKER_REGISTRY" ++ "/" ++ (nspace ++ "-" ++ s.Name) ++ ":" ++
            Trim tag '\n']) := by
  obtain ⟨hp, hd, hi⟩ := buildAndPush_references H B s nspace env tag log
  simp only [deployService, himg, if_true, Bool.not_false]
  split
  · next hnil =>
    obtain ⟨hp2, hd2⟩ := deployResolved_references B
      (buildAndPush H B s nspace env tag log).2.1 profile env tag
      (buildAndPush H B s nspace env tag log).2.2
    rw [hp2, hi hnil] at *
    rw [hd] at hd2
    exact ⟨hp, hd2⟩
  · exact ⟨hp, Or.inl hd⟩

/-- When `deployService` builds the image itself, starting from no calls, the image
handed to the driver is among the references pushed only if the tag, trimmed, is
`env-latest`. -/
theorem deployService_deployed_pushed_only_latest (H : Host) (B : Backend) (s : Service)
    (profile nspace env tag image : String) (himg : s.Image = "")
    (hd : image ∈ deployedImages (deployService H B s profile nspace env tag []).log)
    (hp : image ∈ pushedReferences (deployService H B s profile nspace env tag []).log) :
    Trim tag '\n' = env ++ "-latest" := by
  obtain ⟨h1, h2⟩ := deployService_built_references H B s profile nspace env tag [] himg
  have e1 : pushedReferences ([] : List Call) = [] := rfl
  have e2 : deployedImages ([] : List Call) = [] := rfl
  rw [e1] at h1
  rw [e2] at h2
  rcases h2 with h2 | h2
  · rw [h2] at hd
    simp at hd
  · rcases h1 with h1 | h1
    · rw [h1] at hp
      simp at hp
    · rw [h2] at hd
      rw [h1] at hp
      simp only [List.nil_append, List.mem_singleton] at hd hp
      have heq := hd.symm.trans hp
      have hdata := congrArg String.data heq
      simp only [String.data_append, List.append_cancel_left_eq] at hdata
      exact String.ext hdata

end deploy

namespace exec

/-- For every separator position from 0 to the number of arguments, `Complete` returns
nil with the arguments from that position on, joined by spaces, as the command. -/
theorem Complete_separator_given (E : CmdEnv) (o : ExecOptions) (cfg : config.Config)
    (name : String) (rest : List String) (n : Nat) (hcfg : E.InitializeConfig = .ok cfg)
    (hn : n ≤ (name :: rest).length) :
    (o.Complete E (name :: rest) (n : Int)).1 = Ret.nil ∧
    (o.Complete E (name :: rest) (n : Int)).2.Command = Join ((name :: rest).drop n) " " ∧
    (o.Complete E (name :: rest) (n : Int)).2.ServiceName = name := by
  have hcond : ¬ ((n : Int) < 0 ∨ (((name :: rest).length : Nat) : Int) < (n : Int)) := by
    omega
  have hs : sliceFrom (name :: rest) (n : Int) = some ((name :: rest).drop n) := by
    simp only [sliceFrom, if_neg hcond, Int.toNat_ofNat]
  refine ⟨?_, ?_, ?_⟩ <;> simp [ExecOptions.Complete, hcfg, hs]

/-- For every negative separator position, and so for the -1 of a command line without
`--`, `Complete` panics on the slice expression of line 77 once the configuration is
loaded and there is an argument. -/
theorem Complete_no_separator (E : CmdEnv) (o : ExecOptions) (cfg : config.Config)
    (name : String) (rest : List String) (low : Int) (hcfg : E.InitializeConfig = .ok cfg)
    (hlow : low < 0) :
    (o.Complete E (name :: rest) low).1 = Ret.panic sliceBoundsOutOfRange := by
  have hs : sliceFrom (name :: rest) low = none := by simp [sliceFrom, hlow]
  simp [ExecOptions.Complete, hcfg, hs]

/-- C25 (code evaluated at the failing input). For `ize exec web`, a command line
without `--`, cobra reports the separator position -1 and the slice expression
`args[argsLenAtDash:]` of line 77 is out of range: `Complete` panics. With `--` given,
as in `ize exec web -- ls -la`, it returns nil with the command `ls -la`. -/
theorem C25_exec_without_separator_panics :
    (ExecOptions.Complete loadedEnv freshOptions ["web"] (-1)).1 =
      Ret.panic sliceBoundsOutOfRange ∧
    sliceFrom ["web"] (-1) = none ∧
    ExecOptions.Complete loadedEnv freshOptions ["web", "ls", "-la"] 1 =
      (Ret.nil,
        { Config := { Env := "dev", Namespace := "acme", AwsProfile := "ops",
                      AwsRegion := "us-east-1" }
          ServiceName := "web", EcsCluster := "dev-acme", Command := "ls -la" }) := by
  refine ⟨by decide, by decide, by decide⟩

end exec

namespace serverless

/-- C24 (code evaluated at the failing input). For the service `npm-proxy` with the
config file `npx.yml` and `UseYarn` set, `npmToYarn` rewrites the whole command, the
interpolated values included: the commands of `runDeploy` and `runRemove` name the
service `yarn-proxy` and the config file `yarn.yml`, and contain neither `npm-proxy`
nor `npx.yml`, which the commands without `UseYarn` do contain; with nvm under
`/home/npm/.nvm`, the command of `runNpmInstall` sources `/home/yarn/.nvm/nvm.sh`. -/
theorem C24_yarn_rewrites_the_values :
    proxyYarn.App.UseYarn = true ∧
    lastCommand (proxyYarn.runDeploy nvmBackend []).2 =
      some (proxyYarn.deployCommand "/home/dev/.nvm") ∧
    ssmsession.Contains (proxyYarn.deployCommand "/home/dev/.nvm") "npm-proxy" = false ∧
    ssmsession.Contains (proxyYarn.deployCommand "/home/dev/.nvm") "npx.yml" = false ∧
    ssmsession.Contains (proxyYarn.deployCommand "/home/dev/.nvm")
      "--config=yarn.yml" = true ∧
    ssmsession.Contains (proxyYarn.deployCommand "/home/dev/.nvm")
      "--param=\"service=yarn-proxy\"" = true ∧
    ssmsession.Contains (proxyNpm.deployCommand "/home/dev/.nvm")
      "--param=\"service=npm-proxy\"" = true ∧
    ssmsession.Contains (proxyNpm.deployCommand "/home/dev/.nvm") "--config=npx.yml" = true ∧
    lastCommand (proxyYarn.runRemove nvmBackend []).2 =
      some (proxyYarn.removeCommand "/home/dev/.nvm") ∧
    ssmsession.Contains (proxyYarn.removeCommand "/home/dev/.nvm") "npm-proxy" = false ∧
    ssmsession.Contains (proxyYarn.removeCommand "/home/dev/.nvm")
      "--param=\"service=yarn-proxy\"" = true ∧
    lastCommand (proxyYarn.runNpmInstall npmHomeBackend id []).2 =
      some "source /home/yarn/.nvm/nvm.sh && nvm use 18 && yarn install --save-dev" ∧
    lastCommand (proxyNpm.runNpmInstall npmHomeBackend id []).2 =
      some "source /home/npm/.nvm/nvm.sh && nvm use 18 && npm install --save-dev" := by
  refine ⟨by decide, ?_, ?_, ?_, ?_, ?_, ?_, ?_, ?_, ?_, ?_, ?_, ?_⟩ <;>
    (set_option maxRecDepth 100000 in decide)

end serverless

namespace serverless

/-- C18 (code evaluated at the failing input). For the service `npm-proxy` with the
config file `npx.yml` and `UseYarn` set, the command that `runDeploy` and `runRemove`
hand to `bash -c` keeps the flags of the syntax of its version but not the values:
with version 3 it has `--config=yarn.yml` and `--param="service=yarn-proxy"` instead of
`--config=npx.yml` and `--param="service=npm-proxy"`, with version 2 it has
`--config yarn.yml` and `--service yarn-proxy`, so neither syntax passes the config
file and the service name of the app. Without `UseYarn` the same app is passed with
its own values. -/
theorem C18_yarn_changes_the_values_passed :
    proxyYarn.App.ServerlessVersion = "3" ∧ proxyYarn.App.UseYarn = true ∧
    lastCommand (proxyYarn.runDeploy nvmBackend []).2 =
      some (proxyYarn.deployCommand "/home/dev/.nvm") ∧
    lastCommand (proxyYarn.runRemove nvmBackend []).2 =
      some (proxyYarn.removeCommand "/home/dev/.nvm") ∧
    ¬ usesEqualsSyntax proxyYarn (proxyYarn.deployCommand "/home/dev/.nvm") ∧
    ¬ usesEqualsSyntax proxyYarn (proxyYarn.removeCommand "/home/dev/.nvm") ∧
    ssmsession.Contains (proxyYarn.deployCommand "/home/dev/.nvm") "--config=npx.yml" = false ∧
    ssmsession.Contains (proxyYarn.deployCommand "/home/dev/.nvm")
      "--param=\"service=npm-proxy\"" = false ∧
    ssmsession.Contains (proxyYarn.removeCommand "/home/dev/.nvm") "--config=yarn.yml" = true ∧
    proxyYarnV2.App.ServerlessVersion ≠ "3" ∧
    lastCommand (proxyYarnV2.runDeploy nvmBackend []).2 =
      some (proxyYarnV2.deployCommand "/home/dev/.nvm") ∧
    ¬ usesSpaceSyntax proxyYarnV2 (proxyYarnV2.deployCommand "/home/dev/.nvm") ∧
    ¬ usesSpaceSyntax proxyYarnV2 (proxyYarnV2.removeCommand "/home/dev/.nvm") ∧
    ssmsession.Contains (proxyYarnV2.deployCommand "/home/dev/.nvm")
      "--config yarn.yml" = true ∧
    ssmsession.Contains (proxyYarnV2.deployCommand "/home/dev/.nvm")
      "--service yarn-proxy" = true ∧
    usesEqualsSyntax proxyNpm (proxyNpm.deployCommand "/home/dev/.nvm") ∧
    usesEqualsSyntax proxyNpm (proxyNpm.removeCommand "/home/dev/.nvm") := by
  simp only [usesEqualsSyntax, usesSpaceSyntax]
  refine ⟨by decide, by decide, ?_, ?_, ?_, ?_, ?_, ?_, ?_, by decide, ?_, ?_, ?_, ?_, ?_,
    ?_, ?_⟩ <;>
    (set_option maxRecDepth 100000 in decide)

end serverless

end Ize
